import Mathlib

/-!
# Battery and power state manager of the LED panel controller

A shallow embedding of `led_panel_controller/battery_manager.cpp` (with the
constants and the `CLAMP` / `MAP_FLOAT` helpers of `config.h`, and the poller
`updateGravity` of `sensor_manager.cpp` that shares the bus).

Modelling decisions:

* The globals and the function-local `static` variables of the translation
  unit are the fields of one record, `World`.  Every C++ function becomes a
  function `Env → World → World` (or `… → value × World`).
* `float` values are exact rationals (`ℚ`): the arithmetic of the source is
  kept, its rounding is not.  The raw-to-percentage conversion `raw / 256.0`
  is exact in binary floating point, and the validation thresholds are met
  exactly at the same raw register values, so comparisons agree.
* The one computation whose outcome the rounding decides is the trend test of
  `updateChargingStatus` (lines 238-240): two averages that differ by 20 mV
  up to rounding.  There the float sums, the halving and the double addition
  of 0.02 are modelled with IEEE 754 rounding (`roundFloat`, `roundDouble`),
  so that on float-valued ring buffers the model decides as the code does.
* `unsigned long` (32 bit on the ESP32) clock values are naturals reduced
  modulo `2 ^ 32`; subtraction of clock values is `sub32`.
* The hardware is an oracle `Env`: the value of every `millis()` read, the
  outcome of every register-read attempt on the bus and the code of every
  `analogRead`.  `World` counts how many of each were consumed, and records
  the externally visible operations in `trace`.
* The polling loop `while (Wire.available() < 2 && millis() < timeout)` of
  `readFuelGaugeRegister` is summarised by the attempt outcome (how many
  1 ms sleeps it made, and whether two bytes were available at its end);
  the clock reads inside that loop are not drawn from `Env.clock`.
* The `int` counters are unbounded integers; none of them can come near
  `2 ^ 31` (at most a few increments per 5 s tick).
* `DEBUG_*` logging has no effect on the state and is left out.
* The sensor poller `updateGravity` of `sensor_manager.cpp` shares the bus
  token and the clock with the battery manager; its own globals and statics
  are the record `SensorState`, its bus transactions and the library function
  `sqrt` are the oracle `SensorEnv`.
* The cast `(uint16_t)` of a non-negative `float` is the floor of the exact
  value; for a float `p` the double quotient `p * 256.0 / 100.0` has the same
  integer part as the exact quotient.
-/

namespace BatteryManager

/-! ## Constants (config.h) -/

def BATTERY_MIN_VOLTAGE : ℚ := 3
def BATTERY_MAX_VOLTAGE : ℚ := 42 / 10
def BATTERY_EMERGENCY_VOLTAGE : ℚ := 28 / 10
def VOLTAGE_DIVIDER_RATIO : ℚ := 319 / 1000
def ADC_RESOLUTION : ℚ := 4095
def ADC_REFERENCE_VOLTAGE : ℚ := 33 / 10
def BATTERY_UPDATE_MS : Nat := 5000
def BATTERY_ADC_PIN : Nat := 5
def FUEL_GAUGE_QST_PIN : Nat := 2

/-- The macro `CLAMP(x, min, max)` of config.h. -/
def CLAMP (x lo hi : ℚ) : ℚ :=
  if x < lo then lo else if x > hi then hi else x

/-- The macro `MAP_FLOAT(x, in_min, in_max, out_min, out_max)` of config.h. -/
def MAP_FLOAT (x in_min in_max out_min out_max : ℚ) : ℚ :=
  (x - in_min) * (out_max - out_min) / (in_max - in_min) + out_min

/-! ## Environment and state -/

/-- Outcome of one attempt of the retry loop of `readFuelGaugeRegister`.
`transportError`: `Wire.endTransmission(false)` returned a non-zero code.
`timeout polls`: the register select was acknowledged, the polling loop slept
`polls` times 1 ms and fewer than two bytes were available afterwards.
`data polls b0 b1`: as before, but two bytes were available; `Wire.read()`
delivers `b0` and then `b1`. -/
inductive Attempt
  | transportError
  | timeout (polls : Nat)
  | data (polls : Nat) (b0 b1 : Nat)
  deriving DecidableEq, Repr

/-- Externally visible operations, in the order in which they happen. -/
inductive Event
  | i2cSelect (reg : Nat)
  | i2cRequest
  | i2cWrite (reg hi lo : Nat)
  | delay (ms : Nat)
  | analogRead
  | digitalWrite (pin : Nat) (level : Bool)
  | lowBatteryWarningHandler
  deriving DecidableEq, Repr

/-- The hardware oracle: `clock k` is what the `k`-th `millis()` read returns,
`bus k` the outcome of the `k`-th register-read attempt, `adc k` the code of
the `k`-th `analogRead(BATTERY_ADC_PIN)`. -/
structure Env where
  clock : Nat → Nat
  bus : Nat → Attempt
  adc : Nat → Int

/-- Globals and function statics of battery_manager.cpp (plus the bus token
`pauseGyroscopeReads` of sensor_manager.cpp), the oracle cursors and the
trace.  The globals `lastAlertCheck`, `temperatureC` and `alertPinTriggered`
are never read or written by any function and are left out. -/
structure World where
  batteryVoltage : ℚ
  batteryPercentage : ℚ
  isCharging : Bool
  lowBatteryWarning : Bool
  fuelGaugeInitialized : Bool
  lastBatteryUpdate : Nat
  fuelGaugeAlertFlag : Bool
  pauseGyroscopeReads : Bool
  /- statics of updateBatteryManager -/
  lastStatusReport : Nat
  lastADCStatusReport : Nat
  /- statics of updateFuelGauge -/
  invalidReadingCount : Int
  validReadingCount : Int
  recoveryMessageShown : Bool
  /- statics of updateChargingStatus -/
  voltageHistory : List ℚ
  historyIndex : Nat
  lastChargingUpdate : Nat
  /- statics of readFuelGaugeRegister -/
  lastI2CAccess : Nat
  consecutiveErrors : Int
  /- oracle cursors and trace -/
  clockReads : Nat
  busAttempts : Nat
  adcReads : Nat
  trace : List Event
  deriving DecidableEq

/-- The values of the static initialisers (battery_manager.cpp lines 10-26 and
the `static` locals). -/
def World.boot : World where
  batteryVoltage := 37 / 10
  batteryPercentage := 75
  isCharging := false
  lowBatteryWarning := false
  fuelGaugeInitialized := false
  lastBatteryUpdate := 0
  fuelGaugeAlertFlag := false
  pauseGyroscopeReads := false
  lastStatusReport := 0
  lastADCStatusReport := 0
  invalidReadingCount := 0
  validReadingCount := 0
  recoveryMessageShown := false
  voltageHistory := [0, 0, 0, 0, 0]
  historyIndex := 0
  lastChargingUpdate := 0
  lastI2CAccess := 0
  consecutiveErrors := 0
  clockReads := 0
  busAttempts := 0
  adcReads := 0
  trace := []

/-- Subtraction of `unsigned long` values, modulo `2 ^ 32`. -/
def sub32 (a b : Nat) : Nat :=
  (a % 4294967296 + 4294967296 - b % 4294967296) % 4294967296

/-- The value the next `millis()` read returns. -/
def now (env : Env) (w : World) : Nat :=
  env.clock w.clockReads % 4294967296

/-- Consume one `millis()` read. -/
def tick (w : World) : World :=
  { w with clockReads := w.clockReads + 1 }

/-- The call `delay(ms)`. -/
def delay (ms : Nat) (w : World) : World :=
  { w with trace := w.trace ++ [Event.delay ms] }

/-! ## Fuel gauge driver -/

/-- The retry loop `for (attempt = 0; attempt < 3; attempt++)` of
`readFuelGaugeRegister` (lines 358-406) together with the code after it.  The
first argument counts the iterations that remain, the second is `attempt`.
The operands of `(Wire.read() << 8) | Wire.read()` are read left to right. -/
def attemptLoop (env : Env) (reg : Nat) : Nat → Nat → World → Nat × World
  | 0, _, w =>
      (0xFFFF, { tick w with lastI2CAccess := now env w, pauseGyroscopeReads := false })
  | n + 1, attempt, w =>
      let outcome := env.bus w.busAttempts
      let w := { w with busAttempts := w.busAttempts + 1,
                        trace := w.trace ++ [Event.i2cSelect reg] }
      match outcome with
      | Attempt.transportError =>
          let w := { w with consecutiveErrors := w.consecutiveErrors + 1 }
          if attempt = 2 then
            let w := if w.consecutiveErrors > 10 then
                { w with fuelGaugeInitialized := false } else w
            (0xFFFF, { tick w with lastI2CAccess := now env w })
          else
            attemptLoop env reg n (attempt + 1) (delay 50 w)
      | Attempt.data polls b0 b1 =>
          let w := { w with trace :=
            w.trace ++ Event.i2cRequest :: List.replicate polls (Event.delay 1) }
          let result := (((b0 % 256) <<< 8) ||| (b1 % 256)) % 65536
          (result, { tick w with consecutiveErrors := 0, lastI2CAccess := now env w,
                                 pauseGyroscopeReads := false })
      | Attempt.timeout polls =>
          let w := { w with trace :=
            w.trace ++ Event.i2cRequest :: List.replicate polls (Event.delay 1) }
          attemptLoop env reg n (attempt + 1) (delay 25 w)

/-- The function `uint16_t readFuelGaugeRegister(uint8_t reg)`. -/
def readFuelGaugeRegister (env : Env) (reg : Nat) (w : World) : Nat × World :=
  let w := { w with pauseGyroscopeReads := true }
  let w :=
    if sub32 (now env w) w.lastI2CAccess < 100 then
      let w := tick w
      delay (sub32 100 (sub32 (now env w) w.lastI2CAccess)) (tick w)
    else tick w
  attemptLoop env reg 3 0 w

/-- The function `float readFuelGaugeSOC()`. -/
def readFuelGaugeSOC (env : Env) (w : World) : ℚ × World :=
  let r := readFuelGaugeRegister env 0x04 w
  (if r.1 = 0xFFFF then -1 else (r.1 : ℚ) / 256, r.2)

/-- The function `float readFuelGaugeVoltage()`. -/
def readFuelGaugeVoltage (env : Env) (w : World) : ℚ × World :=
  let r := readFuelGaugeRegister env 0x02 w
  (if r.1 = 0xFFFF then -1 else (r.1 : ℚ) * (78125 / 1000) / 1000000, r.2)

/-- The function `void clearFuelGaugeAlert()`. -/
def clearFuelGaugeAlert (env : Env) (w : World) : World :=
  (readFuelGaugeRegister env 0x1A w).2

/-- The function `void handleFuelGaugeAlert()`. -/
def handleFuelGaugeAlert (env : Env) (w : World) : World :=
  let r := readFuelGaugeRegister env 0x1A w
  let alertFlags := r.1
  let w := r.2
  let w := if alertFlags &&& 0x0010 ≠ 0 then { w with lowBatteryWarning := true } else w
  clearFuelGaugeAlert env w

/-- The interrupt service routine `fuelGaugeAlertISR`. -/
def fuelGaugeAlertISR (w : World) : World :=
  { w with fuelGaugeAlertFlag := true }

/-! ## ADC fallback estimator -/

/-- The voltage `updateBatteryVoltageADC` computes from the ADC code. -/
def adcBatteryVoltage (adcReading : Int) : ℚ :=
  ((adcReading : ℚ) * ADC_REFERENCE_VOLTAGE) / ADC_RESOLUTION / VOLTAGE_DIVIDER_RATIO

/-- The percentage `updateBatteryVoltageADC` computes from that voltage. -/
def adcBatteryPercentage (voltage : ℚ) : ℚ :=
  CLAMP (MAP_FLOAT voltage BATTERY_MIN_VOLTAGE BATTERY_MAX_VOLTAGE 0 100) 0 100

/-- The function `void updateBatteryVoltageADC()`. -/
def updateBatteryVoltageADC (env : Env) (w : World) : World :=
  let adcReading := env.adc w.adcReads
  let w := { w with adcReads := w.adcReads + 1, trace := w.trace ++ [Event.analogRead] }
  let w := { w with batteryVoltage := adcBatteryVoltage adcReading }
  { w with batteryPercentage := adcBatteryPercentage w.batteryVoltage }

/-! ## Battery state machine -/

/-- The local `isValidReading` of `updateFuelGauge` (lines 153-166), as a
function of the uptime read by `millis()` and of the two readings. -/
def isValidReading (uptime : Nat) (newSOC newVoltage : ℚ) : Bool :=
  if uptime < 30000 then
    decide (newSOC ≥ 10 ∧ newSOC ≤ 95 ∧ newVoltage > 3 ∧ newVoltage < 45 / 10)
  else
    decide (newSOC ≥ 0 ∧ newSOC ≤ 100 ∧ newVoltage > 25 / 10 ∧ newVoltage < 5)

/-- Lines 150-206 of `updateFuelGauge`: what the function does with the two
readings once they are read and a pending alert is handled. -/
def applyReading (env : Env) (newSOC newVoltage : ℚ) (w : World) : World :=
  let uptime := now env w
  let w := tick w
  let isStartupPeriod : Bool := decide (uptime < 30000)
  if isValidReading uptime newSOC newVoltage then
    let w := { w with batteryPercentage := newSOC, batteryVoltage := newVoltage,
                      invalidReadingCount := 0,
                      validReadingCount := w.validReadingCount + 1 }
    if !w.fuelGaugeInitialized && !w.recoveryMessageShown then
      { w with fuelGaugeInitialized := true, recoveryMessageShown := true }
    else w
  else
    let w := { w with invalidReadingCount := w.invalidReadingCount + 1 }
    let w :=
      if isStartupPeriod ∧ w.invalidReadingCount > 3 ∧ newSOC < 5 ∧ newVoltage > 3 then
        { w with invalidReadingCount := 0 }
      else w
    if w.invalidReadingCount > 5 then
      { updateBatteryVoltageADC env w with invalidReadingCount := 0 }
    else w

/-- Lines 137-148 of `updateFuelGauge`: the SOC read, then the voltage read,
then the handling of a pending alert. -/
def readPhase (env : Env) (w : World) : ℚ × ℚ × World :=
  let soc := readFuelGaugeSOC env w
  let volt := readFuelGaugeVoltage env soc.2
  let w := volt.2
  let w := if w.fuelGaugeAlertFlag then
      { handleFuelGaugeAlert env w with fuelGaugeAlertFlag := false } else w
  (soc.1, volt.1, w)

/-- The function `void updateFuelGauge()`. -/
def updateFuelGauge (env : Env) (w : World) : World :=
  let r := readPhase env w
  applyReading env r.1 r.2.1 r.2.2

/-! ## Floating-point rounding

The trend test of the classifier is decided by the rounding of its float
and double operations, so those operations are modelled with their rounding
(IEEE 754, round to nearest, ties to even). -/

/-- The power `2 ^ k` for an integer exponent. -/
def pow2 (k : Int) : ℚ :=
  if 0 ≤ k then ((2 ^ k.toNat : Nat) : ℚ) else 1 / ((2 ^ (-k).toNat : Nat) : ℚ)

/-- The number `k` with `2 ^ k ≤ n < 2 ^ (k + 1)` for `n ≥ 1`, by halving at
most `fuel` times. -/
def log2Halving : Nat → Nat → Nat
  | 0, _ => 0
  | fuel + 1, n => if n < 2 then 0 else log2Halving fuel (n / 2) + 1

/-- The exponent `e` with `2 ^ e ≤ |x| < 2 ^ (e + 1)`, for `x ≠ 0`. -/
def binaryExponent (x : ℚ) : Int :=
  let k : Int := (log2Halving x.num.natAbs x.num.natAbs : Int) - (log2Halving x.den x.den : Int)
  if pow2 k ≤ |x| then k else k - 1

/-- Rounding to the nearest integer, ties to the even one. -/
def roundHalfEven (x : ℚ) : Int :=
  let f : Int := ⌊x⌋
  if x - f < 1 / 2 then f
  else if x - f > 1 / 2 then f + 1
  else if f % 2 = 0 then f else f + 1

/-- Rounding to the nearest value of a binary floating-point format with
`prec` significant bits and least normal exponent `emin` (below it the
spacing of the subnormal values is kept), ties to even.  The largest exponent
of the format is not modelled: the voltages are far below it. -/
def roundBinary (prec : Nat) (emin : Int) (x : ℚ) : ℚ :=
  if x = 0 then 0
  else
    let e : Int := max (binaryExponent x) emin
    let quantum : ℚ := pow2 (e - (prec - 1 : Nat))
    (roundHalfEven (x / quantum) : ℚ) * quantum

/-- Rounding to `float` (binary32). -/
def roundFloat (x : ℚ) : ℚ :=
  roundBinary 24 (-126) x

/-- Rounding to `double` (binary64). -/
def roundDouble (x : ℚ) : ℚ :=
  roundBinary 53 (-1022) x

/-! ## Charging classifier and warnings -/

/-- The expression `(a + b) / 2.0` of lines 238 and 239 for floats `a`, `b`,
assigned to a `float`: the sum is a float operation, the division by the
double `2.0` a double operation, the assignment converts to float. -/
def floatAverage (a b : ℚ) : ℚ :=
  roundFloat (roundDouble (roundFloat (a + b) / 2))

/-- The local `voltageRising` of `updateChargingStatus` (lines 238-240), as a
function of the ring buffer: the comparison `avgNew > avgOld + 0.02` is made
in double, with the double nearest to 0.02. -/
def voltageRising (voltageHistory : List ℚ) : Bool :=
  let avgOld := floatAverage (voltageHistory.getD 0 0) (voltageHistory.getD 1 0)
  let avgNew := floatAverage (voltageHistory.getD 3 0) (voltageHistory.getD 4 0)
  decide (avgNew > roundDouble (avgOld + roundDouble (2 / 100)))

/-- The function `void updateChargingStatus()`. -/
def updateChargingStatus (env : Env) (w : World) : World :=
  if sub32 (now env w) w.lastChargingUpdate < 2000 then tick w
  else
    let w := tick w
    let w := { w with voltageHistory := w.voltageHistory.set w.historyIndex w.batteryVoltage }
    let w := { w with historyIndex := (w.historyIndex + 1) % 5 }
    let definitelyCharging : Bool := decide (w.batteryVoltage > 415 / 100)
    let likelyCharging : Bool :=
      decide (w.batteryVoltage > 405 / 100) && voltageRising w.voltageHistory
    let lowVoltage : Bool := decide (w.batteryVoltage < 39 / 10)
    let w :=
      if definitelyCharging || likelyCharging then { w with isCharging := true }
      else if lowVoltage then { w with isCharging := false }
      else w
    { tick w with lastChargingUpdate := now env w }

/-- The function `void handleLowBatteryWarning()`: it only logs; the call is
recorded in the trace. -/
def handleLowBatteryWarning (w : World) : World :=
  { w with trace := w.trace ++ [Event.lowBatteryWarningHandler] }

/-- The function `void checkBatteryWarnings()`.  The comparison with
`BATTERY_EMERGENCY_VOLTAGE` at its end only logs. -/
def checkBatteryWarnings (w : World) : World :=
  if w.isCharging then { w with lowBatteryWarning := false }
  else
    let wasLowBattery := w.lowBatteryWarning
    let w := { w with lowBatteryWarning := decide (w.batteryPercentage < 15) }
    if w.lowBatteryWarning && !wasLowBattery then handleLowBatteryWarning w else w

/-- The function `void updateBatteryManager()`. -/
def updateBatteryManager (env : Env) (w : World) : World :=
  if sub32 (now env w) w.lastBatteryUpdate < BATTERY_UPDATE_MS then tick w
  else
    let w := tick w
    let w :=
      if w.fuelGaugeInitialized then
        let w := updateFuelGauge env w
        if sub32 (now env w) w.lastStatusReport > 60000 then
          let w := tick w
          { tick w with lastStatusReport := now env w }
        else tick w
      else
        let w := updateBatteryVoltageADC env w
        if sub32 (now env w) w.lastADCStatusReport > 60000 then
          let w := tick w
          { tick w with lastADCStatusReport := now env w }
        else tick w
    let w := updateChargingStatus env w
    let w := checkBatteryWarnings w
    { tick w with lastBatteryUpdate := now env w }

/-- The entry points a caller can invoke on the battery state (declared in
battery_manager.h), and the alert interrupt. -/
inductive Call
  | updateBatteryManager
  | updateFuelGauge
  | updateBatteryVoltageADC
  | fuelGaugeAlertISR
  deriving DecidableEq, Repr

/-- Execute one call. -/
def Call.run (env : Env) : Call → World → World
  | Call.updateBatteryManager, w => BatteryManager.updateBatteryManager env w
  | Call.updateFuelGauge, w => BatteryManager.updateFuelGauge env w
  | Call.updateBatteryVoltageADC, w => BatteryManager.updateBatteryVoltageADC env w
  | Call.fuelGaugeAlertISR, w => BatteryManager.fuelGaugeAlertISR w

/-- Execute a sequence of calls, first to last. -/
def runCalls (env : Env) (cs : List Call) (w : World) : World :=
  cs.foldl (fun w c => c.run env w) w

/-! ## Vocabulary for the statements -/

/-- The attempt delivered two bytes. -/
def Attempt.isData : Attempt → Bool
  | Attempt.data _ _ _ => true
  | _ => false

/-- The attempt failed on the register-select write. -/
def Attempt.isTransportError : Attempt → Bool
  | Attempt.transportError => true
  | _ => false

/-- The attempt failed because the data did not arrive in time. -/
def Attempt.isTimeout : Attempt → Bool
  | Attempt.timeout _ => true
  | _ => false

/-- How many of the `n` attempts from bus cursor `k` on fail with a transport
error. -/
def transportErrors (env : Env) (k n : Nat) : Nat :=
  ((List.range n).filter (fun i => (env.bus (k + i)).isTransportError)).length

/-- The call of `readFuelGaugeRegister` that starts at bus cursor `k` reaches
its third attempt and that attempt times out. -/
def endsInTimeout (env : Env) (k : Nat) : Bool :=
  !(env.bus k).isData && !(env.bus (k + 1)).isData && (env.bus (k + 2)).isTimeout

/-- A sequence of `readFuelGaugeRegister` calls, the returned values dropped. -/
def readRegisters (env : Env) (regs : List Nat) (w : World) : World :=
  regs.foldl (fun w reg => (readFuelGaugeRegister env reg w).2) w

/-! ## Concrete scenarios -/

/-- The boot state after a successful `initializeFuelGauge`. -/
def worldInitialized : World :=
  { World.boot with fuelGaugeInitialized := true }

/-- Uptime 40 s; the gauge answers every SOC read with 0x3200 (50 %) and
every VCELL read with 0xB900 (3.7 V); the ADC code is 1400. -/
def envHealthy : Env where
  clock := fun _ => 40000
  bus := fun k => if k % 2 = 0 then Attempt.data 0 0x32 0 else Attempt.data 0 0xB9 0
  adc := fun _ => 1400

/-- Uptime 10 s (startup window); SOC reads 0x0500 (5 %), VCELL 0xB900
(3.7 V). -/
def envStartupLow : Env where
  clock := fun _ => 10000
  bus := fun k => if k % 2 = 0 then Attempt.data 0 0x05 0 else Attempt.data 0 0xB9 0
  adc := fun _ => 1400

/-- Uptime 40 s (past the startup window); SOC reads 0x0500 (5 %), VCELL
0xB900 (3.7 V). -/
def envLateLow : Env where
  clock := fun _ => 40000
  bus := fun k => if k % 2 = 0 then Attempt.data 0 0x05 0 else Attempt.data 0 0xB9 0
  adc := fun _ => 1400

/-- The first attempt delivers 0x3200, every later attempt times out. -/
def envVoltageLost : Env where
  clock := fun _ => 40000
  bus := fun k => if k = 0 then Attempt.data 0 0x32 0 else Attempt.timeout 100
  adc := fun _ => 1400

/-- The clock reads 1000 ms. -/
def envIdle : Env where
  clock := fun _ => 1000
  bus := fun _ => Attempt.transportError
  adc := fun _ => 0

/-- Every attempt times out. -/
def envAllTimeout : Env where
  clock := fun _ => 40000
  bus := fun _ => Attempt.timeout 100
  adc := fun _ => 1400

/-- The second attempt times out, every other attempt fails with a transport
error. -/
def envErrTimeoutErr : Env where
  clock := fun _ => 40000
  bus := fun k => if k = 1 then Attempt.timeout 100 else Attempt.transportError
  adc := fun _ => 1400

/-- Eleven transport errors, then a timeout on the twelfth attempt. -/
def envErrErrTimeout : Env where
  clock := fun _ => 40000
  bus := fun k => if k = 11 then Attempt.timeout 100 else Attempt.transportError
  adc := fun _ => 1400

/-- Every attempt fails with a transport error. -/
def envBusDown : Env where
  clock := fun _ => 40000
  bus := fun _ => Attempt.transportError
  adc := fun _ => 1400

/-! ## Vocabulary and scenarios for the classifier, the warnings and the alert -/

/-- Third attempt of the call that starts at bus cursor `k` is reached and
fails with a transport error. -/
def endsInTransportError (env : Env) (k : Nat) : Bool :=
  !(env.bus k).isData && !(env.bus (k + 1)).isData && (env.bus (k + 2)).isTransportError

/-- Lines 301-308 of `handleFuelGaugeAlert`: what the handler does with the
status word it fetched. -/
def applyAlertFlags (alertFlags : Nat) (w : World) : World :=
  if alertFlags &&& 0x0010 ≠ 0 then { w with lowBatteryWarning := true } else w

/-- Commit each voltage of the list in turn and run the classifier on it. -/
def classifierUpdates (env : Env) : List ℚ → World → World
  | [], w => w
  | v :: vs, w =>
      classifierUpdates env vs (updateChargingStatus env { w with batteryVoltage := v })

/-- Every classifier run of `classifierUpdates` passes the 2000 ms guard. -/
def allEffective (env : Env) : List ℚ → World → Bool
  | [], _ => true
  | v :: vs, w =>
      !decide (sub32 (now env w) w.lastChargingUpdate < 2000) &&
        allEffective env vs (updateChargingStatus env { w with batteryVoltage := v })

/-- Commit each percentage of the list in turn and evaluate
`checkBatteryWarnings` on it. -/
def warningEvaluations : List ℚ → World → World
  | [], w => w
  | p :: ps, w => warningEvaluations ps (checkBatteryWarnings { w with batteryPercentage := p })

/-- How often the low-battery warning handler was invoked so far. -/
def handlerCalls (w : World) : Nat :=
  w.trace.count Event.lowBatteryWarningHandler

/-- Every `millis()` read returns 10 s more than the one before. -/
def envTicking : Env where
  clock := fun k => 10000 * (k + 1)
  bus := fun _ => Attempt.transportError
  adc := fun _ => 1400

/-- Not charging, 4.1 V committed, ring buffer 3.8, 3.8, 0, 4.1, 4.1 with the
write index at slot 2. -/
def worldRising : World :=
  { World.boot with batteryVoltage := 41 / 10,
                    voltageHistory := [38 / 10, 38 / 10, 0, 41 / 10, 41 / 10],
                    historyIndex := 2 }

/-- Charging, 5 % committed, low-battery flag set. -/
def worldChargingLow : World :=
  { World.boot with isCharging := true, batteryPercentage := 5, lowBatteryWarning := true }

/-- The boot state with an alert pending; the fuel gauge is not initialised. -/
def worldAlertUninitialized : World :=
  { World.boot with fuelGaugeAlertFlag := true }

/-- The initialised boot state with an alert pending. -/
def worldAlertPending : World :=
  { worldInitialized with fuelGaugeAlertFlag := true }

/-- Eleven transport errors, then every attempt delivers 0x3200. -/
def envElevenErrors : Env where
  clock := fun _ => 40000
  bus := fun k => if k < 11 then Attempt.transportError else Attempt.data 0 0x32 0
  adc := fun _ => 1400

/-! ## Register writes, hardware reset and the read accessors -/

/-- The function `void writeFuelGaugeRegister(uint8_t reg, uint16_t value)`:
one bus transaction that sends the register number, the high byte and the low
byte; the status `Wire.endTransmission()` returns is dropped. -/
def writeFuelGaugeRegister (reg value : Nat) (w : World) : World :=
  { w with trace := w.trace ++ [Event.i2cWrite reg ((value >>> 8) &&& 0xFF) (value &&& 0xFF)] }

/-- The function `void resetFuelGaugeHardware()`: a pulse on the QST pin. -/
def resetFuelGaugeHardware (w : World) : World :=
  let w := { w with trace := w.trace ++ [Event.digitalWrite FUEL_GAUGE_QST_PIN false] }
  let w := delay 10 w
  let w := { w with trace := w.trace ++ [Event.digitalWrite FUEL_GAUGE_QST_PIN true] }
  let w := delay 100 w
  let w := { w with trace := w.trace ++ [Event.digitalWrite FUEL_GAUGE_QST_PIN false] }
  delay 200 w

/-- The function `void quickStartFuelGauge()`. -/
def quickStartFuelGauge (w : World) : World :=
  let w := resetFuelGaugeHardware w
  let w := delay 100 w
  let w := writeFuelGaugeRegister 0x06 0x4000 w
  delay 500 w

/-- The function `void setLowBatteryThreshold(float percentage)`.  The cast
`(uint16_t)` truncates; it is defined for values from 0 up to 65535, and the
model reduces modulo `2 ^ 16`. -/
def setLowBatteryThreshold (percentage : ℚ) (w : World) : World :=
  let threshold : Nat := (⌊percentage * 256 / 100⌋).toNat % 65536
  let config : Nat := 0x9700 ||| (threshold &&& 0x1F)
  writeFuelGaugeRegister 0x0C config w

/-- The accessor `float getBatteryVoltage()`. -/
def getBatteryVoltage (w : World) : ℚ × World :=
  (w.batteryVoltage, w)

/-- The accessor `float getBatteryPercentage()`. -/
def getBatteryPercentage (w : World) : ℚ × World :=
  (w.batteryPercentage, w)

/-- The accessor `bool getChargingStatus()`. -/
def getChargingStatus (w : World) : Bool × World :=
  (w.isCharging, w)

/-- The accessor `bool isLowBattery()`. -/
def isLowBattery (w : World) : Bool × World :=
  (w.lowBatteryWarning, w)

/-- The accessor `bool isCriticalBattery()`. -/
def isCriticalBattery (w : World) : Bool × World :=
  (decide (w.batteryVoltage < BATTERY_EMERGENCY_VOLTAGE), w)

/-- The accessor `bool isFuelGaugeWorking()`. -/
def isFuelGaugeWorking (w : World) : Bool × World :=
  (w.fuelGaugeInitialized, w)

/-! ## Sensor poller (sensor_manager.cpp) -/

/-- Outcome of the accelerometer transaction of `updateGravity`.
`transportError`: `Wire.endTransmission(false)` returned a non-zero code.
`insufficient`: fewer than 6 bytes were available after `Wire.requestFrom`.
`sample`: the six bytes `Wire.read()` delivers, in order. -/
inductive GyroAttempt
  | transportError
  | insufficient
  | sample (b0 b1 b2 b3 b4 b5 : Nat)
  deriving DecidableEq, Repr

/-- The sensor side of the hardware oracle: `gyro k` is the outcome of the
`k`-th accelerometer transaction, `sqrt` the library function `sqrt`. -/
structure SensorEnv where
  gyro : Nat → GyroAttempt
  sqrt : ℚ → ℚ

/-- Globals of sensor_manager.cpp and the statics of `updateGravity`, with the
cursor of the accelerometer oracle.  The bus token `pauseGyroscopeReads` is the
field of `World`. -/
structure SensorState where
  gravityX : ℚ
  gravityY : ℚ
  gravityZ : ℚ
  calibrationOffsetX : ℚ
  calibrationOffsetY : ℚ
  calibrationOffsetZ : ℚ
  gyroCalibrated : Bool
  /- statics of updateGravity -/
  lastSensorUpdate : Nat
  consecutiveErrors : Int
  filteredX : ℚ
  filteredY : ℚ
  firstReading : Bool
  /- oracle cursor -/
  gyroAttempts : Nat
  deriving DecidableEq

/-- The values of the static initialisers of sensor_manager.cpp. -/
def SensorState.boot : SensorState where
  gravityX := 0
  gravityY := 1
  gravityZ := 0
  calibrationOffsetX := 0
  calibrationOffsetY := 0
  calibrationOffsetZ := 0
  gyroCalibrated := false
  lastSensorUpdate := 0
  consecutiveErrors := 0
  filteredX := 0
  filteredY := 0
  firstReading := true
  gyroAttempts := 0

/-- The value of `int16_t x = Wire.read() << 8 | Wire.read()`. -/
def int16OfBytes (hi lo : Nat) : Int :=
  let v : Nat := (((hi % 256) <<< 8) ||| (lo % 256)) % 65536
  if v < 32768 then (v : Int) else (v : Int) - 65536

/-- The Arduino macro `constrain(amt, low, high)`. -/
def constrain (amt low high : ℚ) : ℚ :=
  if amt < low then low else if amt > high then high else amt

/-- Lines 191-228 of `updateGravity`: what the function does with the three
raw accelerometer words. -/
def applySample (env : Env) (senv : SensorEnv) (acX acY acZ : Int)
    (w : World) (s : SensorState) : World × SensorState :=
  let s := { s with consecutiveErrors := 0 }
  let accelX : ℚ := (acX : ℚ) / 16384 - s.calibrationOffsetX
  let accelY : ℚ := (acY : ℚ) / 16384 - s.calibrationOffsetY
  let accelZ : ℚ := (acZ : ℚ) / 16384 - s.calibrationOffsetZ
  let magnitude : ℚ := senv.sqrt (accelX * accelX + accelY * accelY + accelZ * accelZ)
  let accelX := if magnitude > 1 / 10 then accelX / magnitude else accelX
  let accelY := if magnitude > 1 / 10 then accelY / magnitude else accelY
  let s :=
    if s.firstReading then
      { s with filteredX := accelX, filteredY := accelY, firstReading := false }
    else
      { s with filteredX := 15 / 100 * accelX + (1 - 15 / 100) * s.filteredX,
               filteredY := 15 / 100 * accelY + (1 - 15 / 100) * s.filteredY }
  let mappedX : ℚ := if |s.filteredY| > 5 / 100 then s.filteredY * (8 / 10) else 0
  let mappedY : ℚ := if |s.filteredX| > 5 / 100 then s.filteredX * (8 / 10) else 0
  let s := { s with gravityX := constrain mappedX (-1) 1, gravityY := constrain mappedY (-1) 1 }
  (tick w, { s with lastSensorUpdate := now env w })

/-- The function `void updateGravity()` of sensor_manager.cpp. -/
def updateGravity (env : Env) (senv : SensorEnv) (w : World) (s : SensorState) :
    World × SensorState :=
  if w.pauseGyroscopeReads then (w, s)
  else if sub32 (now env w) s.lastSensorUpdate < 50 then (tick w, s)
  else
    let w := tick w
    let currentTime := now env w
    let w := tick w
    if currentTime % 5000 < 200 then (w, s)
    else
      let outcome := senv.gyro s.gyroAttempts
      let s := { s with gyroAttempts := s.gyroAttempts + 1 }
      match outcome with
      | GyroAttempt.transportError =>
          let s := { s with consecutiveErrors := s.consecutiveErrors + 1 }
          if s.consecutiveErrors > (5 : Int) then
            let s := { s with lastSensorUpdate := (now env w + 500) % 4294967296 }
            let w := tick w
            let s := { s with consecutiveErrors := 0 }
            (tick w, { s with lastSensorUpdate := now env w })
          else
            (tick w, { s with lastSensorUpdate := now env w })
      | GyroAttempt.insufficient =>
          (w, { s with consecutiveErrors := s.consecutiveErrors + 1 })
      | GyroAttempt.sample b0 b1 b2 b3 b4 b5 =>
          applySample env senv (int16OfBytes b0 b1) (int16OfBytes b2 b3) (int16OfBytes b4 b5) w s

/-! ## Vocabulary and scenarios for the conversions, the spacing and recovery -/

/-- The event drives a pin or writes a fuel-gauge register. -/
def Event.isResetOrWrite : Event → Bool
  | Event.digitalWrite _ _ => true
  | Event.i2cWrite _ _ _ => true
  | _ => false

/-- Call `updateFuelGauge` `n` times in a row. -/
def updateFuelGaugeTimes (env : Env) : Nat → World → World
  | 0, w => w
  | n + 1, w => updateFuelGaugeTimes env n (updateFuelGauge env w)

/-- The reading that `updateFuelGauge` fetches in state `w` is rejected, and
the startup diagnostic (line 193) is not taken. -/
def rejectsPlainly (env : Env) (w : World) : Bool :=
  let r := readPhase env w
  let uptime := now env r.2.2
  !isValidReading uptime r.1 r.2.1 &&
    !decide (uptime < 30000 ∧ r.2.2.invalidReadingCount + 1 > 3 ∧ r.1 < 5 ∧ r.2.1 > 3)

/-- Every one of `n` calls of `updateFuelGauge` in a row rejects its reading
without taking the startup diagnostic. -/
def allRejectPlainly (env : Env) : Nat → World → Bool
  | 0, _ => true
  | n + 1, w => rejectsPlainly env w && allRejectPlainly env n (updateFuelGauge env w)

/-- Uptime 40 s; every attempt delivers the bytes `b0`, `b1`. -/
def envWord (b0 b1 : Nat) : Env where
  clock := fun _ => 40000
  bus := fun _ => Attempt.data 0 b0 b1
  adc := fun _ => 1400

/-- The first `millis()` read returns 99, every later one 101. -/
def envSlowSecondRead : Env where
  clock := fun k => if k = 0 then 99 else 101
  bus := fun _ => Attempt.data 0 0x32 0
  adc := fun _ => 1400

/-- Uptime 40 s; the gauge answers the first two attempts (SOC 0x3200, VCELL
0xB900), the next twelve attempts fail with transport errors, and from then on
the gauge answers again. -/
def envOutage : Env where
  clock := fun _ => 40000
  bus := fun k =>
    if 2 ≤ k ∧ k < 14 then Attempt.transportError
    else if k % 2 = 0 then Attempt.data 0 0x32 0 else Attempt.data 0 0xB9 0
  adc := fun _ => 1400

/-- A sensor whose every transaction delivers 0x4000 (1 g) on the X axis; the
square root is the identity on the value 1 that occurs. -/
def senvFlat : SensorEnv where
  gyro := fun _ => GyroAttempt.sample 0x40 0 0 0 0 0
  sqrt := fun x => x

/-- Uptime 10 s (startup window); SOC reads 0x0200 (2 %), VCELL 0xB900
(3.7 V). -/
def envStartupEmpty : Env where
  clock := fun _ => 10000
  bus := fun k => if k % 2 = 0 then Attempt.data 0 0x02 0 else Attempt.data 0 0xB9 0
  adc := fun _ => 1400

/-! ## Frame lemmas

The fuel-gauge driver and the alert handler leave the battery reading, the
validation counters, the classifier state and the ADC cursor alone. -/

/-- The fields that neither `readFuelGaugeRegister` nor `handleFuelGaugeAlert`
writes. -/
structure DriverFrame (w w' : World) : Prop where
  batteryVoltage : w'.batteryVoltage = w.batteryVoltage
  batteryPercentage : w'.batteryPercentage = w.batteryPercentage
  isCharging : w'.isCharging = w.isCharging
  lastBatteryUpdate : w'.lastBatteryUpdate = w.lastBatteryUpdate
  lastStatusReport : w'.lastStatusReport = w.lastStatusReport
  lastADCStatusReport : w'.lastADCStatusReport = w.lastADCStatusReport
  invalidReadingCount : w'.invalidReadingCount = w.invalidReadingCount
  validReadingCount : w'.validReadingCount = w.validReadingCount
  recoveryMessageShown : w'.recoveryMessageShown = w.recoveryMessageShown
  voltageHistory : w'.voltageHistory = w.voltageHistory
  historyIndex : w'.historyIndex = w.historyIndex
  lastChargingUpdate : w'.lastChargingUpdate = w.lastChargingUpdate
  adcReads : w'.adcReads = w.adcReads

theorem DriverFrame.refl (w : World) : DriverFrame w w := by
  constructor <;> rfl

theorem DriverFrame.trans {a b c : World} (h1 : DriverFrame a b) (h2 : DriverFrame b c) :
    DriverFrame a c := by
  constructor
  · exact h2.batteryVoltage.trans h1.batteryVoltage
  · exact h2.batteryPercentage.trans h1.batteryPercentage
  · exact h2.isCharging.trans h1.isCharging
  · exact h2.lastBatteryUpdate.trans h1.lastBatteryUpdate
  · exact h2.lastStatusReport.trans h1.lastStatusReport
  · exact h2.lastADCStatusReport.trans h1.lastADCStatusReport
  · exact h2.invalidReadingCount.trans h1.invalidReadingCount
  · exact h2.validReadingCount.trans h1.validReadingCount
  · exact h2.recoveryMessageShown.trans h1.recoveryMessageShown
  · exact h2.voltageHistory.trans h1.voltageHistory
  · exact h2.historyIndex.trans h1.historyIndex
  · exact h2.lastChargingUpdate.trans h1.lastChargingUpdate
  · exact h2.adcReads.trans h1.adcReads

theorem attemptLoop_frame (env : Env) (reg : Nat) :
    ∀ (n a : Nat) (w : World), DriverFrame w (attemptLoop env reg n a w).2 := by
  intro n
  induction n with
  | zero => intro a w; constructor <;> simp [attemptLoop, tick]
  | succ n ih =>
    intro a w
    simp only [attemptLoop]
    split
    · split
      · split <;> constructor <;> simp [tick]
      · exact DriverFrame.trans (by constructor <;> simp [delay]) (ih _ _)
    · constructor <;> simp [tick]
    · exact DriverFrame.trans (by constructor <;> simp [delay]) (ih _ _)

theorem readFuelGaugeRegister_frame (env : Env) (reg : Nat) (w : World) :
    DriverFrame w (readFuelGaugeRegister env reg w).2 := by
  simp only [readFuelGaugeRegister]
  refine DriverFrame.trans ?_ (attemptLoop_frame env reg _ _ _)
  split <;> constructor <;> simp [tick, delay]

theorem handleFuelGaugeAlert_frame (env : Env) (w : World) :
    DriverFrame w (handleFuelGaugeAlert env w) := by
  simp only [handleFuelGaugeAlert, clearFuelGaugeAlert]
  refine DriverFrame.trans (readFuelGaugeRegister_frame env 0x1A w) ?_
  refine DriverFrame.trans ?_ (readFuelGaugeRegister_frame env 0x1A _)
  split <;> constructor <;> rfl

theorem readPhase_frame (env : Env) (w : World) :
    DriverFrame w (readPhase env w).2.2 := by
  simp only [readPhase, readFuelGaugeSOC, readFuelGaugeVoltage]
  refine DriverFrame.trans (readFuelGaugeRegister_frame env 0x04 w) ?_
  refine DriverFrame.trans (readFuelGaugeRegister_frame env 0x02 _) ?_
  split
  · refine DriverFrame.trans (handleFuelGaugeAlert_frame env _) ?_
    constructor <;> rfl
  · exact DriverFrame.refl _

/-- What `updateChargingStatus` leaves alone. -/
theorem updateChargingStatus_kept (env : Env) (w : World) :
    (updateChargingStatus env w).batteryVoltage = w.batteryVoltage ∧
    (updateChargingStatus env w).batteryPercentage = w.batteryPercentage ∧
    (updateChargingStatus env w).fuelGaugeInitialized = w.fuelGaugeInitialized ∧
    (updateChargingStatus env w).fuelGaugeAlertFlag = w.fuelGaugeAlertFlag ∧
    (updateChargingStatus env w).busAttempts = w.busAttempts ∧
    (updateChargingStatus env w).adcReads = w.adcReads ∧
    (updateChargingStatus env w).trace = w.trace := by
  simp only [updateChargingStatus, tick]
  split_ifs <;> simp

/-- What `checkBatteryWarnings` leaves alone; it adds at most the call of the
warning handler to the trace. -/
theorem checkBatteryWarnings_kept (w : World) :
    (checkBatteryWarnings w).batteryVoltage = w.batteryVoltage ∧
    (checkBatteryWarnings w).batteryPercentage = w.batteryPercentage ∧
    (checkBatteryWarnings w).fuelGaugeInitialized = w.fuelGaugeInitialized ∧
    (checkBatteryWarnings w).fuelGaugeAlertFlag = w.fuelGaugeAlertFlag ∧
    (checkBatteryWarnings w).busAttempts = w.busAttempts ∧
    (checkBatteryWarnings w).adcReads = w.adcReads ∧
    ((checkBatteryWarnings w).trace = w.trace ∨
      (checkBatteryWarnings w).trace = w.trace ++ [Event.lowBatteryWarningHandler]) := by
  simp only [checkBatteryWarnings, handleLowBatteryWarning]
  split_ifs <;> simp

/-! ## The tick of an uninitialised manager -/

/-- An effective tick that starts uninitialised, field by field. -/
theorem updateBatteryManager_uninit (env : Env) (w : World)
    (hinit : w.fuelGaugeInitialized = false)
    (heff : ¬ sub32 (now env w) w.lastBatteryUpdate < BATTERY_UPDATE_MS) :
    (updateBatteryManager env w).busAttempts = w.busAttempts ∧
    (updateBatteryManager env w).adcReads = w.adcReads + 1 ∧
    ((updateBatteryManager env w).trace = w.trace ++ [Event.analogRead] ∨
      (updateBatteryManager env w).trace =
        w.trace ++ [Event.analogRead, Event.lowBatteryWarningHandler]) ∧
    (updateBatteryManager env w).batteryVoltage = adcBatteryVoltage (env.adc w.adcReads) ∧
    (updateBatteryManager env w).batteryPercentage =
      adcBatteryPercentage (adcBatteryVoltage (env.adc w.adcReads)) ∧
    (updateBatteryManager env w).fuelGaugeInitialized = false ∧
    (updateBatteryManager env w).fuelGaugeAlertFlag = w.fuelGaugeAlertFlag := by
  simp only [updateBatteryManager, if_neg heff]
  have hinit' : (tick w).fuelGaugeInitialized = false := hinit
  simp only [hinit', Bool.false_eq_true, if_false]
  generalize hw1 : (if sub32 (now env (updateBatteryVoltageADC env (tick w)))
      (updateBatteryVoltageADC env (tick w)).lastADCStatusReport > 60000 then
        { tick (tick (updateBatteryVoltageADC env (tick w))) with
          lastADCStatusReport := now env (tick (updateBatteryVoltageADC env (tick w))) }
      else tick (updateBatteryVoltageADC env (tick w))) = w1
  have h1 : w1.busAttempts = w.busAttempts ∧ w1.adcReads = w.adcReads + 1 ∧
      w1.trace = w.trace ++ [Event.analogRead] ∧
      w1.batteryVoltage = adcBatteryVoltage (env.adc w.adcReads) ∧
      w1.batteryPercentage = adcBatteryPercentage (adcBatteryVoltage (env.adc w.adcReads)) ∧
      w1.fuelGaugeInitialized = false ∧ w1.fuelGaugeAlertFlag = w.fuelGaugeAlertFlag := by
    subst hw1
    simp only [updateBatteryVoltageADC, tick]
    split_ifs <;> simp [hinit]
  obtain ⟨a1, a2, a3, a4, a5, a6, a7⟩ := h1
  obtain ⟨b1, b2, b3, b4, b5, b6, b7⟩ := updateChargingStatus_kept env w1
  obtain ⟨c1, c2, c3, c4, c5, c6, c7⟩ := checkBatteryWarnings_kept (updateChargingStatus env w1)
  simp only [tick]
  refine ⟨?_, ?_, ?_, ?_, ?_, ?_, ?_⟩
  · rw [c5, b5, a1]
  · rw [c6, b6, a2]
  · rcases c7 with c7 | c7
    · left; rw [c7, b7, a3]
    · right; rw [c7, b7, a3]; simp
  · rw [c1, b1, a4]
  · rw [c2, b2, a5]
  · rw [c3, b3, a6]
  · rw [c4, b4, a7]

/-- A tick, effective or not, of an uninitialised manager touches neither the
flag nor the bus. -/
theorem updateBatteryManager_uninit_step (env : Env) (w : World)
    (hinit : w.fuelGaugeInitialized = false) :
    (updateBatteryManager env w).fuelGaugeInitialized = false ∧
    (updateBatteryManager env w).busAttempts = w.busAttempts := by
  by_cases heff : sub32 (now env w) w.lastBatteryUpdate < BATTERY_UPDATE_MS
  · simp [updateBatteryManager, heff, tick, hinit]
  · obtain ⟨h1, -, -, -, -, h6, -⟩ := updateBatteryManager_uninit env w hinit heff
    exact ⟨h6, h1⟩

/-- Ticks and alert interrupts, in any order, keep an uninitialised manager
uninitialised and off the bus. -/
theorem runCalls_uninit (env : Env) (cs : List Call) :
    ∀ w : World, w.fuelGaugeInitialized = false →
      (∀ c ∈ cs, c = Call.updateBatteryManager ∨ c = Call.fuelGaugeAlertISR) →
      (runCalls env cs w).fuelGaugeInitialized = false ∧
      (runCalls env cs w).busAttempts = w.busAttempts := by
  induction cs with
  | nil => intro w h _; exact ⟨h, rfl⟩
  | cons c cs ih =>
    intro w h hc
    have hstep : (c.run env w).fuelGaugeInitialized = false ∧
        (c.run env w).busAttempts = w.busAttempts := by
      rcases hc c (List.mem_cons_self _ _) with rfl | rfl
      · exact updateBatteryManager_uninit_step env w h
      · exact ⟨h, rfl⟩
    have := ih (c.run env w) hstep.1 (fun d hd => hc d (List.mem_cons_of_mem _ hd))
    simp only [runCalls, List.foldl_cons] at this ⊢
    exact ⟨this.1, this.2.trans hstep.2⟩

/-! ## Validation of a reading -/

/-- The validation bands of `updateFuelGauge`. -/
theorem isValidReading_iff (t : Nat) (p v : ℚ) :
    isValidReading t p v = true ↔
      (t < 30000 ∧ 10 ≤ p ∧ p ≤ 95 ∧ 3 < v ∧ v < 45 / 10) ∨
      (30000 ≤ t ∧ 0 ≤ p ∧ p ≤ 100 ∧ 25 / 10 < v ∧ v < 5) := by
  by_cases h : t < 30000
  · have h' : ¬ 30000 ≤ t := by omega
    simp [isValidReading, h, h']
  · have h' : 30000 ≤ t := by omega
    simp [isValidReading, h, h']

/-- The value -1 that the read functions return on the sentinel fails both
validation bands. -/
theorem isValidReading_sentinel (t : Nat) (p v : ℚ) (hpv : p = -1 ∨ v = -1) :
    isValidReading t p v = false := by
  by_contra hne
  have hvalid : isValidReading t p v = true := by simpa using hne
  rcases (isValidReading_iff t p v).1 hvalid with ⟨-, h1, -, h3, -⟩ | ⟨-, h1, -, h3, -⟩ <;>
  rcases hpv with rfl | rfl <;> norm_num at h1 h3

/-- The accept branch of `updateFuelGauge`. -/
theorem applyReading_accept (env : Env) (p v : ℚ) (w : World)
    (h : isValidReading (now env w) p v = true) :
    (applyReading env p v w).batteryVoltage = v ∧
    (applyReading env p v w).batteryPercentage = p ∧
    (applyReading env p v w).invalidReadingCount = 0 ∧
    (applyReading env p v w).validReadingCount = w.validReadingCount + 1 ∧
    (applyReading env p v w).adcReads = w.adcReads := by
  simp only [applyReading, h, if_true, tick]
  split_ifs <;> simp

/-- The reject branch of `updateFuelGauge`, case by case. -/
theorem applyReading_reject (env : Env) (p v : ℚ) (w : World)
    (h : isValidReading (now env w) p v = false) :
    (applyReading env p v w).validReadingCount = w.validReadingCount ∧
    (applyReading env p v w).fuelGaugeInitialized = w.fuelGaugeInitialized ∧
    ((now env w < 30000 ∧ w.invalidReadingCount + 1 > 3 ∧ p < 5 ∧ v > 3) →
      (applyReading env p v w).invalidReadingCount = 0 ∧
      (applyReading env p v w).batteryVoltage = w.batteryVoltage ∧
      (applyReading env p v w).batteryPercentage = w.batteryPercentage ∧
      (applyReading env p v w).adcReads = w.adcReads) ∧
    (¬ (now env w < 30000 ∧ w.invalidReadingCount + 1 > 3 ∧ p < 5 ∧ v > 3) →
      w.invalidReadingCount + 1 ≤ 5 →
      (applyReading env p v w).invalidReadingCount = w.invalidReadingCount + 1 ∧
      (applyReading env p v w).batteryVoltage = w.batteryVoltage ∧
      (applyReading env p v w).batteryPercentage = w.batteryPercentage ∧
      (applyReading env p v w).adcReads = w.adcReads) ∧
    (¬ (now env w < 30000 ∧ w.invalidReadingCount + 1 > 3 ∧ p < 5 ∧ v > 3) →
      w.invalidReadingCount + 1 > 5 →
      (applyReading env p v w).invalidReadingCount = 0 ∧
      (applyReading env p v w).batteryVoltage = adcBatteryVoltage (env.adc w.adcReads) ∧
      (applyReading env p v w).batteryPercentage =
        adcBatteryPercentage (adcBatteryVoltage (env.adc w.adcReads)) ∧
      (applyReading env p v w).adcReads = w.adcReads + 1) := by
  simp only [applyReading, h, tick, updateBatteryVoltageADC, Bool.false_eq_true, if_false]
  refine ⟨?_, ?_, ?_, ?_, ?_⟩
  · split_ifs <;> simp
  · split_ifs <;> simp
  · intro hd
    simp [hd]
  · intro hd hc
    have : ¬ (5 < w.invalidReadingCount + 1) := by omega
    simp [hd, this]
  · intro hd hc
    have : (5 < w.invalidReadingCount + 1) := by omega
    simp [hd, this]

/-- A rejected reading is not counted as a valid one. -/
theorem applyReading_not_counted_of_reject (env : Env) (p v : ℚ) (w : World)
    (h : isValidReading (now env w) p v = false) :
    (applyReading env p v w).validReadingCount ≠ w.validReadingCount + 1 := by
  rw [(applyReading_reject env p v w h).1]
  omega

/-- What the gauge answers in the scenario `envHealthy`. -/
theorem readPhase_envHealthy :
    (readPhase envHealthy (tick World.boot)).1 = 50 ∧
    (readPhase envHealthy (tick World.boot)).2.1 = 37 / 10 := by
  constructor <;>
  · simp [readPhase, readFuelGaugeSOC, readFuelGaugeVoltage, readFuelGaugeRegister,
      attemptLoop, envHealthy, World.boot, tick, now, sub32, delay]
    norm_num

/-- What the gauge answers in the scenario `envStartupLow`. -/
theorem readPhase_envStartupLow :
    (readPhase envStartupLow worldInitialized).1 = 5 ∧
    (readPhase envStartupLow worldInitialized).2.1 = 37 / 10 := by
  constructor <;>
  · simp [readPhase, readFuelGaugeSOC, readFuelGaugeVoltage, readFuelGaugeRegister,
      attemptLoop, envStartupLow, worldInitialized, World.boot, tick, now, sub32, delay]
    norm_num

/-- What the gauge answers in the scenario `envLateLow`. -/
theorem readPhase_envLateLow :
    (readPhase envLateLow worldInitialized).1 = 5 ∧
    (readPhase envLateLow worldInitialized).2.1 = 37 / 10 ∧
    (readPhase envLateLow worldInitialized).2.2.validReadingCount = 0 ∧
    now envLateLow (readPhase envLateLow worldInitialized).2.2 = 40000 := by
  refine ⟨?_, ?_, ?_, ?_⟩
  · simp [readPhase, readFuelGaugeSOC, readFuelGaugeVoltage, readFuelGaugeRegister,
      attemptLoop, envLateLow, worldInitialized, World.boot, tick, now, sub32, delay]
    norm_num
  · simp [readPhase, readFuelGaugeSOC, readFuelGaugeVoltage, readFuelGaugeRegister,
      attemptLoop, envLateLow, worldInitialized, World.boot, tick, now, sub32, delay]
    norm_num
  · rw [(readPhase_frame envLateLow worldInitialized).validReadingCount]
    rfl
  · simp [now, envLateLow]

/-! ## The percentage stays in range -/

/-- The percentage of the ADC estimate is clamped to `[0, 100]`. -/
theorem adcBatteryPercentage_bounds (voltage : ℚ) :
    0 ≤ adcBatteryPercentage voltage ∧ adcBatteryPercentage voltage ≤ 100 := by
  simp only [adcBatteryPercentage, CLAMP]
  split_ifs with h1 h2
  · norm_num
  · norm_num
  · exact ⟨le_of_not_lt h1, le_of_not_lt h2⟩

theorem isValidReading_bounds (t : Nat) (p v : ℚ) (h : isValidReading t p v = true) :
    0 ≤ p ∧ p ≤ 100 := by
  rcases (isValidReading_iff t p v).1 h with ⟨-, h1, h2, -, -⟩ | ⟨-, h1, h2, -, -⟩
  · constructor <;> linarith
  · exact ⟨h1, h2⟩

theorem applyReading_bounds (env : Env) (p v : ℚ) (w : World)
    (hw : 0 ≤ w.batteryPercentage ∧ w.batteryPercentage ≤ 100) :
    0 ≤ (applyReading env p v w).batteryPercentage ∧
      (applyReading env p v w).batteryPercentage ≤ 100 := by
  cases hv : isValidReading (now env w) p v
  · obtain ⟨-, -, r3, r4, r5⟩ := applyReading_reject env p v w hv
    by_cases hd : now env w < 30000 ∧ w.invalidReadingCount + 1 > 3 ∧ p < 5 ∧ v > 3
    · rw [(r3 hd).2.2.1]; exact hw
    · by_cases hc : w.invalidReadingCount + 1 ≤ 5
      · rw [(r4 hd hc).2.2.1]; exact hw
      · rw [(r5 hd (by omega)).2.2.1]; exact adcBatteryPercentage_bounds _
  · rw [(applyReading_accept env p v w hv).2.1]
    exact isValidReading_bounds _ p v hv

theorem updateFuelGauge_bounds (env : Env) (w : World)
    (hw : 0 ≤ w.batteryPercentage ∧ w.batteryPercentage ≤ 100) :
    0 ≤ (updateFuelGauge env w).batteryPercentage ∧
      (updateFuelGauge env w).batteryPercentage ≤ 100 := by
  simp only [updateFuelGauge]
  apply applyReading_bounds
  rw [(readPhase_frame env w).batteryPercentage]
  exact hw

theorem updateBatteryVoltageADC_bounds (env : Env) (w : World) :
    0 ≤ (updateBatteryVoltageADC env w).batteryPercentage ∧
      (updateBatteryVoltageADC env w).batteryPercentage ≤ 100 := by
  simp only [updateBatteryVoltageADC]
  exact adcBatteryPercentage_bounds _

theorem updateBatteryManager_bounds (env : Env) (w : World)
    (hw : 0 ≤ w.batteryPercentage ∧ w.batteryPercentage ≤ 100) :
    0 ≤ (updateBatteryManager env w).batteryPercentage ∧
      (updateBatteryManager env w).batteryPercentage ≤ 100 := by
  simp only [updateBatteryManager]
  split_ifs with h1 h2 h3 h4
  · exact hw
  all_goals
    simp only [tick, (checkBatteryWarnings_kept _).2.1, (updateChargingStatus_kept env _).2.1]
  · exact updateFuelGauge_bounds env _ hw
  · exact updateFuelGauge_bounds env _ hw
  · exact updateBatteryVoltageADC_bounds env _
  · exact updateBatteryVoltageADC_bounds env _

theorem Call.run_bounds (env : Env) (c : Call) (w : World)
    (hw : 0 ≤ w.batteryPercentage ∧ w.batteryPercentage ≤ 100) :
    0 ≤ (c.run env w).batteryPercentage ∧ (c.run env w).batteryPercentage ≤ 100 := by
  cases c
  · exact updateBatteryManager_bounds env w hw
  · exact updateFuelGauge_bounds env w hw
  · exact updateBatteryVoltageADC_bounds env w
  · exact hw

theorem runCalls_bounds (env : Env) (cs : List Call) :
    ∀ w : World, (0 ≤ w.batteryPercentage ∧ w.batteryPercentage ≤ 100) →
      0 ≤ (runCalls env cs w).batteryPercentage ∧ (runCalls env cs w).batteryPercentage ≤ 100 := by
  induction cs with
  | nil => intro w hw; exact hw
  | cons c cs ih =>
    intro w hw
    exact ih (c.run env w) (Call.run_bounds env c w hw)

/-! ## The retry loop -/

/-- The two bytes are assembled big-endian. -/
theorem bytes_big_endian (b0 b1 : Nat) :
    (((b0 % 256) <<< 8) ||| (b1 % 256)) % 65536 = b0 % 256 * 256 + b1 % 256 := by
  have h1 : b1 % 256 < 2 ^ 8 := Nat.mod_lt _ (by norm_num)
  have h0 : b0 % 256 < 256 := Nat.mod_lt _ (by norm_num)
  rw [Nat.shiftLeft_eq, Nat.mul_comm, ← Nat.mul_add_lt_is_or h1]
  have : 2 ^ 8 * (b0 % 256) + b1 % 256 < 65536 := by
    have : b1 % 256 < 256 := by simpa using h1
    omega
  rw [Nat.mod_eq_of_lt this, Nat.mul_comm]

/-- The code before the retry loop touches neither the bus cursor nor the
error counter nor the initialised flag. -/
theorem readFuelGaugeRegister_eq (env : Env) (reg : Nat) (w : World) :
    ∃ w0 : World, readFuelGaugeRegister env reg w = attemptLoop env reg 3 0 w0 ∧
      w0.busAttempts = w.busAttempts ∧ w0.consecutiveErrors = w.consecutiveErrors ∧
      w0.fuelGaugeInitialized = w.fuelGaugeInitialized := by
  refine ⟨_, rfl, ?_, ?_, ?_⟩ <;> split_ifs <;> simp [tick, delay]

/-! ## Claims C1 to C10 -/

/-- Claim C1, evaluated on the code: the boot state is uninitialised, the tick
at uptime 40 s is effective, and the fuel gauge would answer the reads of that
tick with (50 %, 3.7 V), a reading that passes the validation, so that
`updateFuelGauge` called in that state would set the flag; nevertheless
`updateBatteryManager` makes no register-read attempt, leaves
`fuelGaugeInitialized` false and commits a pair different from (3.7 V, 50 %),
because the uninitialised branch only samples the ADC. -/
theorem updateBatteryManager_uninitialized_never_probes :
    World.boot.fuelGaugeInitialized = false ∧
    ¬ sub32 (now envHealthy World.boot) World.boot.lastBatteryUpdate < BATTERY_UPDATE_MS ∧
    (readPhase envHealthy (tick World.boot)).1 = 50 ∧
    (readPhase envHealthy (tick World.boot)).2.1 = 37 / 10 ∧
    isValidReading (now envHealthy (readPhase envHealthy (tick World.boot)).2.2) 50 (37 / 10)
      = true ∧
    (updateFuelGauge envHealthy (tick World.boot)).fuelGaugeInitialized = true ∧
    (updateBatteryManager envHealthy World.boot).fuelGaugeInitialized = false ∧
    (updateBatteryManager envHealthy World.boot).busAttempts = 0 ∧
    (updateBatteryManager envHealthy World.boot).batteryVoltage ≠ 37 / 10 ∧
    (updateBatteryManager envHealthy World.boot).batteryPercentage ≠ 50 := by
  have heff : ¬ sub32 (now envHealthy World.boot) World.boot.lastBatteryUpdate
      < BATTERY_UPDATE_MS := by decide
  obtain ⟨h1, -, -, h4, h5, h6, -⟩ := updateBatteryManager_uninit envHealthy World.boot rfl heff
  have hv : isValidReading (now envHealthy (readPhase envHealthy (tick World.boot)).2.2)
      50 (37 / 10) = true := by
    simp [now, envHealthy, isValidReading]; norm_num
  refine ⟨rfl, heff, readPhase_envHealthy.1, readPhase_envHealthy.2, hv, ?_, h6, h1, ?_, ?_⟩
  · simp only [updateFuelGauge, readPhase_envHealthy.1, readPhase_envHealthy.2, applyReading, hv]
    simp [readPhase, readFuelGaugeSOC, readFuelGaugeVoltage, readFuelGaugeRegister,
      attemptLoop, envHealthy, World.boot, tick, now, sub32, delay]
  · rw [h4]
    simp [envHealthy, World.boot, adcBatteryVoltage, ADC_REFERENCE_VOLTAGE, ADC_RESOLUTION,
      VOLTAGE_DIVIDER_RATIO]
    norm_num
  · rw [h5]
    simp [envHealthy, World.boot, adcBatteryVoltage, adcBatteryPercentage, CLAMP, MAP_FLOAT,
      BATTERY_MIN_VOLTAGE, BATTERY_MAX_VOLTAGE, ADC_REFERENCE_VOLTAGE, ADC_RESOLUTION,
      VOLTAGE_DIVIDER_RATIO]
    norm_num

/-- Claim C2: from a state with `fuelGaugeInitialized = false`, an effective
tick of `updateBatteryManager` makes no register-read attempt (the bus cursor
stands still and the trace gains only the ADC sample and possibly the call of
the warning handler), commits the ADC estimate as voltage and percentage, and
leaves the flag false; and after any sequence of ticks and alert interrupts
the flag is still false and the bus still untouched, so every later tick runs
on the ADC as well. -/
theorem updateBatteryManager_uninitialized_runs_on_adc (env : Env) (w : World)
    (hinit : w.fuelGaugeInitialized = false) :
    (¬ sub32 (now env w) w.lastBatteryUpdate < BATTERY_UPDATE_MS →
      (updateBatteryManager env w).busAttempts = w.busAttempts ∧
      (updateBatteryManager env w).adcReads = w.adcReads + 1 ∧
      ((updateBatteryManager env w).trace = w.trace ++ [Event.analogRead] ∨
        (updateBatteryManager env w).trace =
          w.trace ++ [Event.analogRead, Event.lowBatteryWarningHandler]) ∧
      (updateBatteryManager env w).batteryVoltage = adcBatteryVoltage (env.adc w.adcReads) ∧
      (updateBatteryManager env w).batteryPercentage =
        adcBatteryPercentage (adcBatteryVoltage (env.adc w.adcReads)) ∧
      (updateBatteryManager env w).fuelGaugeInitialized = false) ∧
    (∀ cs : List Call,
      (∀ c ∈ cs, c = Call.updateBatteryManager ∨ c = Call.fuelGaugeAlertISR) →
      (runCalls env cs w).fuelGaugeInitialized = false ∧
      (runCalls env cs w).busAttempts = w.busAttempts) := by
  refine ⟨fun heff => ?_, fun cs hcs => runCalls_uninit env cs w hinit hcs⟩
  obtain ⟨h1, h2, h3, h4, h5, h6, -⟩ := updateBatteryManager_uninit env w hinit heff
  exact ⟨h1, h2, h3, h4, h5, h6⟩

/-- Witness of claim C2: the boot state at uptime 40 s, and a tick, an alert
interrupt and a second tick from it. -/
theorem updateBatteryManager_uninitialized_runs_on_adc_witness :
    (updateBatteryManager envHealthy World.boot).busAttempts = 0 ∧
    (updateBatteryManager envHealthy World.boot).fuelGaugeInitialized = false ∧
    (runCalls envHealthy [Call.updateBatteryManager, Call.fuelGaugeAlertISR,
      Call.updateBatteryManager] World.boot).fuelGaugeInitialized = false :=
  have h := updateBatteryManager_uninitialized_runs_on_adc envHealthy World.boot rfl
  ⟨(h.1 (by decide)).1, (h.1 (by decide)).2.2.2.2.2,
    (h.2 [Call.updateBatteryManager, Call.fuelGaugeAlertISR, Call.updateBatteryManager]
      (by decide)).1⟩

/-- Claim C3: `updateFuelGauge` is its read phase followed by `applyReading`;
for every uptime `t = now env w` (the value `millis()` returns) and every
reading (percentage `p`, voltage `v`) the reading is accepted (the local
`isValidReading` is true, and the reading is counted as valid) if and only if
`t < 30000`, `10 ≤ p ≤ 95` and `3.0 < v < 4.5`, or `t ≥ 30000`, `0 ≤ p ≤ 100`
and `2.5 < v < 5.0`; on acceptance the committed pair is exactly `(v, p)` and
the invalid-reading count is 0; (5.0 %, 3.7 V) is accepted at every uptime of
at least 30000 ms; and a run of `updateFuelGauge` at uptime 40 s on a gauge
that answers 0x0500 and 0xB900 commits (3.7 V, 5.0 %). -/
theorem updateFuelGauge_accepts_iff (env : Env) (w : World) (p v : ℚ) :
    updateFuelGauge env w =
      applyReading env (readPhase env w).1 (readPhase env w).2.1 (readPhase env w).2.2 ∧
    (isValidReading (now env w) p v = true ↔
      (now env w < 30000 ∧ 10 ≤ p ∧ p ≤ 95 ∧ 3 < v ∧ v < 45 / 10) ∨
      (30000 ≤ now env w ∧ 0 ≤ p ∧ p ≤ 100 ∧ 25 / 10 < v ∧ v < 5)) ∧
    ((applyReading env p v w).validReadingCount = w.validReadingCount + 1 ↔
      (now env w < 30000 ∧ 10 ≤ p ∧ p ≤ 95 ∧ 3 < v ∧ v < 45 / 10) ∨
      (30000 ≤ now env w ∧ 0 ≤ p ∧ p ≤ 100 ∧ 25 / 10 < v ∧ v < 5)) ∧
    ((applyReading env p v w).validReadingCount = w.validReadingCount + 1 →
      (applyReading env p v w).batteryVoltage = v ∧
      (applyReading env p v w).batteryPercentage = p ∧
      (applyReading env p v w).invalidReadingCount = 0) ∧
    (30000 ≤ now env w →
      (applyReading env 5 (37 / 10) w).validReadingCount = w.validReadingCount + 1 ∧
      (applyReading env 5 (37 / 10) w).batteryVoltage = 37 / 10 ∧
      (applyReading env 5 (37 / 10) w).batteryPercentage = 5) ∧
    ((updateFuelGauge envLateLow worldInitialized).batteryVoltage = 37 / 10 ∧
      (updateFuelGauge envLateLow worldInitialized).batteryPercentage = 5 ∧
      (updateFuelGauge envLateLow worldInitialized).validReadingCount = 1) := by
  have hcount : (applyReading env p v w).validReadingCount = w.validReadingCount + 1 ↔
      isValidReading (now env w) p v = true := by
    constructor
    · intro hc
      by_contra hne
      exact applyReading_not_counted_of_reject env p v w (by simpa using hne) hc
    · intro hv
      exact (applyReading_accept env p v w hv).2.2.2.1
  refine ⟨rfl, isValidReading_iff _ p v, ?_, ?_, ?_, ?_⟩
  · rw [hcount]; exact isValidReading_iff _ p v
  · intro hc
    obtain ⟨h1, h2, h3, -, -⟩ := applyReading_accept env p v w (hcount.1 hc)
    exact ⟨h1, h2, h3⟩
  · intro ht
    have hv : isValidReading (now env w) 5 (37 / 10) = true := by
      rw [isValidReading_iff]; right; refine ⟨ht, ?_, ?_, ?_, ?_⟩ <;> norm_num
    obtain ⟨h1, h2, -, h4, -⟩ := applyReading_accept env 5 (37 / 10) w hv
    exact ⟨h4, h1, h2⟩
  · obtain ⟨e1, e2, e3, e4⟩ := readPhase_envLateLow
    have hv : isValidReading (now envLateLow (readPhase envLateLow worldInitialized).2.2)
        5 (37 / 10) = true := by
      rw [isValidReading_iff, e4]; right; refine ⟨?_, ?_, ?_, ?_, ?_⟩ <;> norm_num
    obtain ⟨h1, h2, -, h4, -⟩ := applyReading_accept envLateLow 5 (37 / 10) _ hv
    simp only [updateFuelGauge, e1, e2]
    rw [e3] at h4
    exact ⟨h1, h2, by rw [h4]; norm_num⟩

/-- Claim C4: when the read phase of `updateFuelGauge` yields a reading
`(p, v)` that the validation rejects, the call counts no valid reading and
leaves `fuelGaugeInitialized` as the register reads left it; with
`c = invalidReadingCount + 1` the incremented count: if `c ≤ 5` the committed
voltage and percentage stay exactly as they were and no ADC sample is taken;
if the startup diagnostic fires (uptime below 30000, `c > 3`, `p < 5`,
`v > 3.0`) the count is reset to 0 and the pair is kept; otherwise the count
becomes `c` when `c ≤ 5`, and when `c > 5` the pair is replaced by one ADC
sample and the count reset to 0.  The reading (5.0 %, 3.7 V) is rejected at
every uptime below 30000 ms. -/
theorem updateFuelGauge_rejected_reading (env : Env) (w w1 : World) (p v : ℚ)
    (hread : readPhase env w = (p, v, w1))
    (hrej : isValidReading (now env w1) p v = false) :
    (updateFuelGauge env w).validReadingCount = w.validReadingCount ∧
    (updateFuelGauge env w).fuelGaugeInitialized = w1.fuelGaugeInitialized ∧
    (w.invalidReadingCount + 1 ≤ 5 →
      (updateFuelGauge env w).batteryVoltage = w.batteryVoltage ∧
      (updateFuelGauge env w).batteryPercentage = w.batteryPercentage ∧
      (updateFuelGauge env w).adcReads = w.adcReads) ∧
    ((now env w1 < 30000 ∧ w.invalidReadingCount + 1 > 3 ∧ p < 5 ∧ v > 3) →
      (updateFuelGauge env w).invalidReadingCount = 0 ∧
      (updateFuelGauge env w).batteryVoltage = w.batteryVoltage ∧
      (updateFuelGauge env w).batteryPercentage = w.batteryPercentage ∧
      (updateFuelGauge env w).adcReads = w.adcReads) ∧
    (¬ (now env w1 < 30000 ∧ w.invalidReadingCount + 1 > 3 ∧ p < 5 ∧ v > 3) →
      w.invalidReadingCount + 1 ≤ 5 →
      (updateFuelGauge env w).invalidReadingCount = w.invalidReadingCount + 1) ∧
    (¬ (now env w1 < 30000 ∧ w.invalidReadingCount + 1 > 3 ∧ p < 5 ∧ v > 3) →
      w.invalidReadingCount + 1 > 5 →
      (updateFuelGauge env w).invalidReadingCount = 0 ∧
      (updateFuelGauge env w).batteryVoltage = adcBatteryVoltage (env.adc w.adcReads) ∧
      (updateFuelGauge env w).batteryPercentage =
        adcBatteryPercentage (adcBatteryVoltage (env.adc w.adcReads)) ∧
      (updateFuelGauge env w).adcReads = w.adcReads + 1) ∧
    (∀ t : Nat, t < 30000 → isValidReading t 5 (37 / 10) = false) := by
  have hf : DriverFrame w w1 := by
    have := readPhase_frame env w
    rw [hread] at this
    exact this
  have hu : updateFuelGauge env w = applyReading env p v w1 := by
    simp only [updateFuelGauge, hread]
  obtain ⟨r1, r2, r3, r4, r5⟩ := applyReading_reject env p v w1 hrej
  rw [hf.invalidReadingCount, hf.adcReads, hf.batteryVoltage, hf.batteryPercentage,
    hf.validReadingCount] at *
  rw [hu]
  refine ⟨r1, r2, ?_, r3, ?_, r5, ?_⟩
  · intro hc
    by_cases hd : now env w1 < 30000 ∧ w.invalidReadingCount + 1 > 3 ∧ p < 5 ∧ v > 3
    · exact (r3 hd).2
    · exact (r4 hd hc).2
  · intro hd hc
    exact (r4 hd hc).1
  · intro t ht
    simp [isValidReading, ht]
    norm_num

/-- Witness of claim C4: at uptime 10 s the gauge answers (5.0 %, 3.7 V); the
reading is rejected, the invalid-reading count goes from 0 to 1 and the
committed pair stays (3.7 V, 75 %). -/
theorem updateFuelGauge_rejected_reading_witness :
    (readPhase envStartupLow worldInitialized).1 = 5 ∧
    (readPhase envStartupLow worldInitialized).2.1 = 37 / 10 ∧
    (updateFuelGauge envStartupLow worldInitialized).invalidReadingCount = 1 ∧
    (updateFuelGauge envStartupLow worldInitialized).batteryVoltage = 37 / 10 ∧
    (updateFuelGauge envStartupLow worldInitialized).batteryPercentage = 75 := by
  have hrej : isValidReading (now envStartupLow (readPhase envStartupLow worldInitialized).2.2)
      (readPhase envStartupLow worldInitialized).1
      (readPhase envStartupLow worldInitialized).2.1 = false := by
    rw [readPhase_envStartupLow.1, readPhase_envStartupLow.2]
    simp [isValidReading, now, envStartupLow]
    norm_num
  have h := updateFuelGauge_rejected_reading envStartupLow worldInitialized
    (readPhase envStartupLow worldInitialized).2.2
    (readPhase envStartupLow worldInitialized).1
    (readPhase envStartupLow worldInitialized).2.1 rfl hrej
  have hc : worldInitialized.invalidReadingCount + 1 ≤ 5 := by decide
  exact ⟨readPhase_envStartupLow.1, readPhase_envStartupLow.2,
    h.2.2.2.2.1 (fun hd => absurd hd.2.1 (by decide)) hc, (h.2.2.1 hc).1, (h.2.2.1 hc).2.1⟩

/-- Claim C5: when the SOC register read or the voltage register read of an
`updateFuelGauge` call returns the sentinel 0xFFFF, the reading is rejected
at every uptime (startup window or not), no valid reading is counted, and the
committed voltage and percentage are either both what they were or both the
ADC estimate: the half that was read successfully is never committed. -/
theorem updateFuelGauge_sentinel_never_committed (env : Env) (w : World)
    (h : (readFuelGaugeRegister env 0x04 w).1 = 0xFFFF ∨
      (readFuelGaugeRegister env 0x02 (readFuelGaugeRegister env 0x04 w).2).1 = 0xFFFF) :
    (∀ t : Nat, isValidReading t (readPhase env w).1 (readPhase env w).2.1 = false) ∧
    (updateFuelGauge env w).validReadingCount = w.validReadingCount ∧
    (((updateFuelGauge env w).batteryVoltage = w.batteryVoltage ∧
        (updateFuelGauge env w).batteryPercentage = w.batteryPercentage) ∨
      ((updateFuelGauge env w).batteryVoltage = adcBatteryVoltage (env.adc w.adcReads) ∧
        (updateFuelGauge env w).batteryPercentage =
          adcBatteryPercentage (adcBatteryVoltage (env.adc w.adcReads)))) := by
  have hinv : ∀ t : Nat, isValidReading t (readPhase env w).1 (readPhase env w).2.1 = false := by
    intro t
    apply isValidReading_sentinel
    rcases h with h | h
    · left; simp [readPhase, readFuelGaugeSOC, h]
    · right; simp [readPhase, readFuelGaugeVoltage, readFuelGaugeSOC, h]
  have hf := readPhase_frame env w
  obtain ⟨r1, -, r3, r4, r5⟩ := applyReading_reject env (readPhase env w).1 (readPhase env w).2.1
    (readPhase env w).2.2 (hinv _)
  rw [hf.invalidReadingCount, hf.adcReads, hf.batteryVoltage, hf.batteryPercentage,
    hf.validReadingCount] at *
  refine ⟨hinv, r1, ?_⟩
  by_cases hd : now env (readPhase env w).2.2 < 30000 ∧ w.invalidReadingCount + 1 > 3 ∧
      (readPhase env w).1 < 5 ∧ (readPhase env w).2.1 > 3
  · left; exact ⟨(r3 hd).2.1, (r3 hd).2.2.1⟩
  · by_cases hc : w.invalidReadingCount + 1 ≤ 5
    · left; exact ⟨(r4 hd hc).2.1, (r4 hd hc).2.2.1⟩
    · right; exact ⟨(r5 hd (by omega)).2.1, (r5 hd (by omega)).2.2.1⟩

/-- Witness of claim C5: the SOC read succeeds with 0x3200 (50 %), the voltage
read times out three times and returns the sentinel; no valid reading is
counted and the 50 % is not committed on its own. -/
theorem updateFuelGauge_sentinel_never_committed_witness :
    (readFuelGaugeRegister envVoltageLost 0x04 worldInitialized).1 = 0x3200 ∧
    (readFuelGaugeRegister envVoltageLost 0x02
      (readFuelGaugeRegister envVoltageLost 0x04 worldInitialized).2).1 = 0xFFFF ∧
    (updateFuelGauge envVoltageLost worldInitialized).validReadingCount = 0 ∧
    (((updateFuelGauge envVoltageLost worldInitialized).batteryVoltage
          = worldInitialized.batteryVoltage ∧
        (updateFuelGauge envVoltageLost worldInitialized).batteryPercentage
          = worldInitialized.batteryPercentage) ∨
      ((updateFuelGauge envVoltageLost worldInitialized).batteryVoltage
          = adcBatteryVoltage (envVoltageLost.adc worldInitialized.adcReads) ∧
        (updateFuelGauge envVoltageLost worldInitialized).batteryPercentage =
          adcBatteryPercentage
            (adcBatteryVoltage (envVoltageLost.adc worldInitialized.adcReads)))) :=
  have hv : (readFuelGaugeRegister envVoltageLost 0x02
      (readFuelGaugeRegister envVoltageLost 0x04 worldInitialized).2).1 = 0xFFFF := by decide
  have h := updateFuelGauge_sentinel_never_committed envVoltageLost worldInitialized (Or.inr hv)
  ⟨by decide, hv, h.2.1, h.2.2⟩

/-- Claim C6: from any state whose committed percentage is the boot value
75.0, after any sequence of `updateBatteryManager`, `updateFuelGauge` and
`updateBatteryVoltageADC` calls (and alert interrupts), whatever the bus, the
ADC and the clock return, the committed percentage lies in `[0, 100]`. -/
theorem batteryPercentage_in_range (env : Env) (cs : List Call) (w : World)
    (hw : w.batteryPercentage = 75) :
    0 ≤ (runCalls env cs w).batteryPercentage ∧ (runCalls env cs w).batteryPercentage ≤ 100 := by
  apply runCalls_bounds
  rw [hw]
  constructor <;> norm_num

/-- Witness of claim C6: the boot state, a tick, a direct fuel-gauge update, a
direct ADC update and another tick. -/
theorem batteryPercentage_in_range_witness :
    0 ≤ (runCalls envHealthy [Call.updateBatteryManager, Call.updateFuelGauge,
        Call.updateBatteryVoltageADC, Call.updateBatteryManager] World.boot).batteryPercentage ∧
    (runCalls envHealthy [Call.updateBatteryManager, Call.updateFuelGauge,
        Call.updateBatteryVoltageADC, Call.updateBatteryManager] World.boot).batteryPercentage
      ≤ 100 :=
  batteryPercentage_in_range envHealthy [Call.updateBatteryManager, Call.updateFuelGauge,
    Call.updateBatteryVoltageADC, Call.updateBatteryManager] World.boot rfl

/-- Claim C7: when the clock value `t` read by `updateBatteryManager` satisfies
`t - lastBatteryUpdate < 5000` in 32-bit unsigned arithmetic, the call returns
the state it was given: every variable, the bus cursor, the ADC cursor and
the trace are unchanged, and only the one `millis()` read of the guard is
consumed from the clock oracle. -/
theorem updateBatteryManager_noop (env : Env) (w : World)
    (h : sub32 (now env w) w.lastBatteryUpdate < 5000) :
    updateBatteryManager env w = { w with clockReads := w.clockReads + 1 } := by
  simp [updateBatteryManager, BATTERY_UPDATE_MS, h, tick]

/-- Witness of claim C7: the clock has wrapped around (last update at
4294967000, now 1000), the unsigned difference is 1296 and the call changes
nothing. -/
theorem updateBatteryManager_noop_witness :
    sub32 1000 4294967000 = 1296 ∧
    updateBatteryManager envIdle { World.boot with lastBatteryUpdate := 4294967000 } =
      { World.boot with lastBatteryUpdate := 4294967000, clockReads := 1 } :=
  ⟨by decide, updateBatteryManager_noop envIdle
    { World.boot with lastBatteryUpdate := 4294967000 } (by decide)⟩

/-- Claim C8: `readFuelGaugeRegister` consumes at most 3 attempts; if attempt
`i < 3` is the first that delivers two bytes `b0`, `b1`, the call returns
`b0 * 256 + b1` (the bytes taken modulo 256), sets the consecutive-error
counter to 0 and has made exactly `i + 1` attempts; if none of the three
attempts delivers data, whether by transport error or by timeout, the call
returns 0xFFFF after exactly 3 attempts. -/
theorem readFuelGaugeRegister_result (env : Env) (reg : Nat) (w : World) :
    (readFuelGaugeRegister env reg w).2.busAttempts ≤ w.busAttempts + 3 ∧
    (∀ i polls b0 b1, i < 3 → env.bus (w.busAttempts + i) = Attempt.data polls b0 b1 →
      (∀ j, j < i → (env.bus (w.busAttempts + j)).isData = false) →
      (readFuelGaugeRegister env reg w).1 = b0 % 256 * 256 + b1 % 256 ∧
      (readFuelGaugeRegister env reg w).2.consecutiveErrors = 0 ∧
      (readFuelGaugeRegister env reg w).2.busAttempts = w.busAttempts + i + 1) ∧
    ((∀ j, j < 3 → (env.bus (w.busAttempts + j)).isData = false) →
      (readFuelGaugeRegister env reg w).1 = 0xFFFF ∧
      (readFuelGaugeRegister env reg w).2.busAttempts = w.busAttempts + 3) := by
  obtain ⟨w0, hw0, hb, -, -⟩ := readFuelGaugeRegister_eq env reg w
  rw [hw0, ← hb]
  refine ⟨?_, ?_, ?_⟩
  · rcases h0 : env.bus w0.busAttempts with _ | p0 | ⟨p0, x0, y0⟩ <;>
    rcases h1 : env.bus (w0.busAttempts + 1) with _ | p1 | ⟨p1, x1, y1⟩ <;>
    rcases h2 : env.bus (w0.busAttempts + 1 + 1) with _ | p2 | ⟨p2, x2, y2⟩ <;>
    simp [attemptLoop, h0, h1, h2, delay, tick] <;>
    split_ifs <;> simp
  · intro i polls b0 b1 hi hdata hprev
    rw [← bytes_big_endian]
    interval_cases i
    · rw [Nat.add_zero] at hdata
      simp [attemptLoop, hdata, tick]
    · have hp0 := hprev 0 (by norm_num)
      rcases h0 : env.bus w0.busAttempts with _ | p0 | ⟨p0, x0, y0⟩ <;>
      simp [h0, Attempt.isData] at hp0 <;>
      simp [attemptLoop, h0, hdata, delay, tick]
    · have hp0 := hprev 0 (by norm_num)
      have hp1 := hprev 1 (by norm_num)
      rcases h0 : env.bus w0.busAttempts with _ | p0 | ⟨p0, x0, y0⟩ <;>
      rcases h1 : env.bus (w0.busAttempts + 1) with _ | p1 | ⟨p1, x1, y1⟩ <;>
      simp [h0, h1, Attempt.isData] at hp0 hp1 <;>
      simp [attemptLoop, h0, h1, hdata, delay, tick]
  · intro hall
    have hp0 := hall 0 (by norm_num)
    have hp1 := hall 1 (by norm_num)
    have hp2 := hall 2 (by norm_num)
    rcases h0 : env.bus w0.busAttempts with _ | p0 | ⟨p0, x0, y0⟩ <;>
    rcases h1 : env.bus (w0.busAttempts + 1) with _ | p1 | ⟨p1, x1, y1⟩ <;>
    rcases h2 : env.bus (w0.busAttempts + 2) with _ | p2 | ⟨p2, x2, y2⟩ <;>
    simp [h0, h1, h2, Attempt.isData] at hp0 hp1 hp2 <;>
    simp [attemptLoop, h0, h1, h2, delay, tick] <;>
    split_ifs <;> simp

/-- Counterexample to claim C9: in a call in which all 3 attempts time out
(the call returns the sentinel after 3 attempts) the consecutive-error counter
is still 0 afterwards; it has not been raised by 3. -/
theorem readFuelGaugeRegister_timeouts_not_counted :
    (∀ j, j < 3 → envAllTimeout.bus (worldInitialized.busAttempts + j) = Attempt.timeout 100) ∧
    (readFuelGaugeRegister envAllTimeout 0x04 worldInitialized).1 = 0xFFFF ∧
    (readFuelGaugeRegister envAllTimeout 0x04 worldInitialized).2.busAttempts = 3 ∧
    (readFuelGaugeRegister envAllTimeout 0x04 worldInitialized).2.consecutiveErrors = 0 ∧
    (readFuelGaugeRegister envAllTimeout 0x04 worldInitialized).2.consecutiveErrors
      ≠ worldInitialized.consecutiveErrors + 3 := by
  refine ⟨fun _ _ => rfl, ?_, ?_, ?_, ?_⟩ <;> decide

/-- Claim C9 as amended: in a call of `readFuelGaugeRegister` in which no
attempt delivers data, the consecutive-error counter rises by exactly the
number of attempts that failed with a transport error; attempts that time out
leave it unchanged.  So three timeouts leave the counter as it was and three
transport errors raise it by 3. -/
theorem readFuelGaugeRegister_counts_transport_errors (env : Env) (reg : Nat) (w : World)
    (hfail : ∀ j, j < 3 → (env.bus (w.busAttempts + j)).isData = false) :
    (readFuelGaugeRegister env reg w).2.consecutiveErrors =
        w.consecutiveErrors + (transportErrors env w.busAttempts 3 : Int) ∧
    ((∀ j, j < 3 → (env.bus (w.busAttempts + j)).isTimeout = true) →
      (readFuelGaugeRegister env reg w).2.consecutiveErrors = w.consecutiveErrors) ∧
    ((∀ j, j < 3 → (env.bus (w.busAttempts + j)).isTransportError = true) →
      (readFuelGaugeRegister env reg w).2.consecutiveErrors = w.consecutiveErrors + 3) := by
  obtain ⟨w0, hw0, hb, hc, -⟩ := readFuelGaugeRegister_eq env reg w
  rw [hw0, ← hb, ← hc]
  rw [← hb] at hfail
  have hp0 := hfail 0 (by norm_num)
  have hp1 := hfail 1 (by norm_num)
  have hp2 := hfail 2 (by norm_num)
  refine ⟨?_, fun ht => ?_, fun he => ?_⟩
  · rcases h0 : env.bus w0.busAttempts with _ | p0 | ⟨p0, x0, y0⟩ <;>
    rcases h1 : env.bus (w0.busAttempts + 1) with _ | p1 | ⟨p1, x1, y1⟩ <;>
    rcases h2 : env.bus (w0.busAttempts + 2) with _ | p2 | ⟨p2, x2, y2⟩ <;>
    simp [h0, h1, h2, Attempt.isData] at hp0 hp1 hp2 <;>
    simp [attemptLoop, h0, h1, h2, delay, tick, transportErrors, List.range_succ,
      List.filter_cons, Attempt.isTransportError] <;>
    (try split_ifs) <;> (try simp) <;> (try omega)
  · have ht0 := ht 0 (by norm_num)
    have ht1 := ht 1 (by norm_num)
    have ht2 := ht 2 (by norm_num)
    rcases h0 : env.bus w0.busAttempts with _ | p0 | ⟨p0, x0, y0⟩ <;>
    rcases h1 : env.bus (w0.busAttempts + 1) with _ | p1 | ⟨p1, x1, y1⟩ <;>
    rcases h2 : env.bus (w0.busAttempts + 2) with _ | p2 | ⟨p2, x2, y2⟩ <;>
    simp [h0, h1, h2, Attempt.isTimeout] at ht0 ht1 ht2
    simp [attemptLoop, h0, h1, h2, delay, tick]
  · have he0 := he 0 (by norm_num)
    have he1 := he 1 (by norm_num)
    have he2 := he 2 (by norm_num)
    rcases h0 : env.bus w0.busAttempts with _ | p0 | ⟨p0, x0, y0⟩ <;>
    rcases h1 : env.bus (w0.busAttempts + 1) with _ | p1 | ⟨p1, x1, y1⟩ <;>
    rcases h2 : env.bus (w0.busAttempts + 2) with _ | p2 | ⟨p2, x2, y2⟩ <;>
    simp [h0, h1, h2, Attempt.isTransportError] at he0 he1 he2
    simp [attemptLoop, h0, h1, h2, delay, tick]
    split_ifs <;> simp <;> omega

/-- Witness of claim C9 as amended: transport error, timeout, transport error
raises the counter from 0 to 2. -/
theorem readFuelGaugeRegister_counts_transport_errors_witness :
    (readFuelGaugeRegister envErrTimeoutErr 0x04 worldInitialized).2.consecutiveErrors = 2 :=
  (readFuelGaugeRegister_counts_transport_errors envErrTimeoutErr 0x04 worldInitialized
    (by decide)).1

/-- Counterexample to claim C10: from the initialised boot state, three reads
that fail with three transport errors each and a fourth read that fails with
two transport errors and a timeout leave the consecutive-error counter at 11
while `fuelGaugeInitialized` is still true. -/
theorem readFuelGaugeRegister_counter_above_10_still_initialized :
    (readRegisters envErrErrTimeout [0x04, 0x02, 0x04, 0x02] worldInitialized).consecutiveErrors
      = 11 ∧
    (readRegisters envErrErrTimeout [0x04, 0x02, 0x04, 0x02] worldInitialized).fuelGaugeInitialized
      = true := by
  constructor <;> decide

/-- Claim C10 as amended: after a return of `readFuelGaugeRegister` that did
not end on a timed-out third attempt (the call succeeded, or its third attempt
failed with a transport error), from any state, if the consecutive-error
counter is greater than 10 then `fuelGaugeInitialized` is false. -/
theorem readFuelGaugeRegister_breaker (env : Env) (reg : Nat) (w : World)
    (hend : endsInTimeout env w.busAttempts = false)
    (hcount : (readFuelGaugeRegister env reg w).2.consecutiveErrors > 10) :
    (readFuelGaugeRegister env reg w).2.fuelGaugeInitialized = false := by
  obtain ⟨w0, hw0, hb, hc, -⟩ := readFuelGaugeRegister_eq env reg w
  rw [hw0] at hcount ⊢
  rw [← hb] at hend
  revert hcount hend
  rcases h0 : env.bus w0.busAttempts with _ | p0 | ⟨p0, x0, y0⟩ <;>
  rcases h1 : env.bus (w0.busAttempts + 1) with _ | p1 | ⟨p1, x1, y1⟩ <;>
  rcases h2 : env.bus (w0.busAttempts + 2) with _ | p2 | ⟨p2, x2, y2⟩ <;>
  simp [attemptLoop, h0, h1, h2, delay, tick, endsInTimeout, Attempt.isData,
    Attempt.isTimeout] <;>
  (try split_ifs) <;> (try simp) <;> (try omega)

/-- Witness of claim C10 as amended: with the bus down, the fourth read ends on
the twelfth consecutive transport error; the counter is 12 and the flag is
false. -/
theorem readFuelGaugeRegister_breaker_witness :
    (readFuelGaugeRegister envBusDown 0x02
      (readRegisters envBusDown [0x04, 0x02, 0x04] worldInitialized)).2.consecutiveErrors = 12 ∧
    (readFuelGaugeRegister envBusDown 0x02
      (readRegisters envBusDown [0x04, 0x02, 0x04] worldInitialized)).2.fuelGaugeInitialized
      = false :=
  ⟨by decide, readFuelGaugeRegister_breaker envBusDown 0x02
    (readRegisters envBusDown [0x04, 0x02, 0x04] worldInitialized) (by decide) (by decide)⟩

/-! ## The roundings of the float and double operations -/

/-- The power `2 ^ k` as the integer power of the field. -/
theorem pow2_eq (k : Int) : pow2 k = (2 : ℚ) ^ k := by
  unfold pow2
  split_ifs with h
  · obtain ⟨n, rfl⟩ := Int.eq_ofNat_of_zero_le h
    simp
  · have hk : 0 ≤ -k := by omega
    obtain ⟨n, hn⟩ := Int.eq_ofNat_of_zero_le hk
    have : k = -(n : Int) := by omega
    subst this
    simp

/-- Powers of two are positive. -/
theorem pow2_pos (k : Int) : 0 < pow2 k := by
  rw [pow2_eq]; positivity

/-- The halving count is the position of the leading bit. -/
theorem log2Halving_spec :
    ∀ (fuel n : Nat), 1 ≤ n → n ≤ fuel →
      2 ^ log2Halving fuel n ≤ n ∧ n < 2 ^ (log2Halving fuel n + 1) := by
  intro fuel
  induction fuel with
  | zero => intro n h1 h2; omega
  | succ fuel ih =>
    intro n h1 h2
    simp only [log2Halving]
    split_ifs with h
    · have : n = 1 := by omega
      subst this
      simp
    · have hn : 1 ≤ n / 2 := by omega
      obtain ⟨i1, i2⟩ := ih (n / 2) hn (by omega)
      rw [pow_succ] at i2 ⊢
      constructor
      · omega
      · rw [pow_succ] at *
        omega

/-- Rounding to the nearest integer moves by at most one half, and a move of
exactly one half ends on an even integer. -/
theorem roundHalfEven_spec (x : ℚ) :
    |(roundHalfEven x : ℚ) - x| ≤ 1 / 2 ∧
    (|(roundHalfEven x : ℚ) - x| = 1 / 2 → roundHalfEven x % 2 = 0) := by
  have h1 := Int.floor_le x
  have h2 := Int.lt_floor_add_one x
  simp only [roundHalfEven]
  split_ifs with a b c
  · constructor
    · rw [abs_le]; constructor <;> linarith
    · intro h
      rw [abs_sub_comm, abs_of_nonneg (by linarith)] at h
      linarith
  · constructor
    · rw [abs_le]; push_cast; constructor <;> linarith
    · intro h
      push_cast at h
      rw [abs_of_nonneg (by linarith)] at h
      linarith
  · exact ⟨by rw [abs_le]; constructor <;> linarith, fun _ => c⟩
  · constructor
    · rw [abs_le]; push_cast; constructor <;> linarith
    · intro _
      omega

/-- The exponent brackets the absolute value between two powers of two. -/
theorem binaryExponent_spec (x : ℚ) (hx : x ≠ 0) :
    pow2 (binaryExponent x) ≤ |x| ∧ |x| < pow2 (binaryExponent x + 1) := by
  have hnum : x.num ≠ 0 := by
    intro h; exact hx (Rat.zero_of_num_zero h)
  have hn1 : 1 ≤ x.num.natAbs := Nat.pos_of_ne_zero (by simpa using hnum)
  have hd1 : 1 ≤ x.den := x.den_pos
  obtain ⟨a1, a2⟩ := log2Halving_spec x.num.natAbs x.num.natAbs hn1 le_rfl
  obtain ⟨b1, b2⟩ := log2Halving_spec x.den x.den hd1 le_rfl
  have habs : |x| = (x.num.natAbs : ℚ) / (x.den : ℚ) := by
    conv_lhs => rw [← Rat.num_div_den x]
    rw [abs_div, Nat.cast_natAbs, Int.cast_abs]
    congr 1
    exact abs_of_pos (by exact_mod_cast hd1)
  generalize hkn : log2Halving x.num.natAbs x.num.natAbs = kn at a1 a2
  generalize hkd : log2Halving x.den x.den = kd at b1 b2
  generalize hN : (x.num.natAbs : ℚ) = N at habs
  generalize hD : (x.den : ℚ) = D at habs
  have hA1 : (2 : ℚ) ^ kn ≤ N := by rw [← hN]; exact_mod_cast a1
  have hA2 : N < 2 * (2 : ℚ) ^ kn := by
    rw [← hN]
    have : (x.num.natAbs : ℚ) < ((2 ^ (kn + 1) : Nat) : ℚ) := by exact_mod_cast a2
    rw [pow_succ] at this
    push_cast at this
    linarith
  have hB1 : (2 : ℚ) ^ kd ≤ D := by rw [← hD]; exact_mod_cast b1
  have hB2 : D < 2 * (2 : ℚ) ^ kd := by
    rw [← hD]
    have : (x.den : ℚ) < ((2 ^ (kd + 1) : Nat) : ℚ) := by exact_mod_cast b2
    rw [pow_succ] at this
    push_cast at this
    linarith
  have hApos : (0 : ℚ) < 2 ^ kn := by positivity
  have hBpos : (0 : ℚ) < 2 ^ kd := by positivity
  have hDpos : (0 : ℚ) < D := lt_of_lt_of_le hBpos hB1
  have hk : ∀ j : Int, pow2 ((kn : Int) - (kd : Int) + j) = (2 : ℚ) ^ kn / 2 ^ kd * 2 ^ j := by
    intro j
    rw [pow2_eq, zpow_add₀ (by norm_num), zpow_sub₀ (by norm_num), zpow_natCast, zpow_natCast]
  have hk0 := hk 0
  have hk1 := hk 1
  have hkm := hk (-1)
  simp only [add_zero, zpow_zero, mul_one] at hk0
  simp only [zpow_one] at hk1
  have hlow : (2 : ℚ) ^ kn / 2 ^ kd * 2 ^ (-1 : Int) ≤ N / D := by
    rw [zpow_neg_one, div_mul_eq_mul_div, div_le_div_iff₀ hBpos hDpos]
    have h1 : (2 : ℚ) ^ kn * 2⁻¹ * D ≤ 2 ^ kn * 2⁻¹ * (2 * 2 ^ kd) :=
      mul_le_mul_of_nonneg_left hB2.le (by positivity)
    have h2 : (2 : ℚ) ^ kn * 2⁻¹ * (2 * 2 ^ kd) = 2 ^ kn * 2 ^ kd := by ring
    have h3 : (2 : ℚ) ^ kn * 2 ^ kd ≤ N * 2 ^ kd := mul_le_mul_of_nonneg_right hA1 hBpos.le
    linarith
  have hhigh : N / D < (2 : ℚ) ^ kn / 2 ^ kd * 2 := by
    rw [div_mul_eq_mul_div, div_lt_div_iff₀ hDpos hBpos]
    have h1 : N * 2 ^ kd < 2 * (2 : ℚ) ^ kn * 2 ^ kd := mul_lt_mul_of_pos_right hA2 hBpos
    have h2 : (2 : ℚ) ^ kn * 2 * 2 ^ kd ≤ 2 ^ kn * 2 * D :=
      mul_le_mul_of_nonneg_left hB1 (by positivity)
    linarith
  simp only [binaryExponent, hkn, hkd]
  split_ifs with h
  · refine ⟨h, ?_⟩
    rw [hk1, habs]; exact hhigh
  · have e1 : (kn : Int) - (kd : Int) - 1 = (kn : Int) - (kd : Int) + (-1) := by ring
    have e2 : (kn : Int) - (kd : Int) - 1 + 1 = (kn : Int) - (kd : Int) := by ring
    rw [e2, e1, hkm, habs]
    exact ⟨hlow, by rw [← habs]; exact lt_of_not_le h⟩

/-- The rounding of a binary format: the result is an integer multiple of the
quantum for the exponent of the argument, at most half a quantum away from
it, and a tie ends on an even multiple. -/
theorem roundBinary_spec (prec : Nat) (emin : Int) (x : ℚ) (hx : x ≠ 0) :
    ∃ m : Int,
      roundBinary prec emin x =
        (m : ℚ) * pow2 (max (binaryExponent x) emin - (prec - 1 : Nat)) ∧
      |roundBinary prec emin x - x| ≤
        pow2 (max (binaryExponent x) emin - (prec - 1 : Nat)) / 2 ∧
      (|roundBinary prec emin x - x| =
          pow2 (max (binaryExponent x) emin - (prec - 1 : Nat)) / 2 → m % 2 = 0) := by
  generalize hq : pow2 (max (binaryExponent x) emin - (prec - 1 : Nat)) = q
  have hqpos : 0 < q := by rw [← hq]; exact pow2_pos _
  have hr : roundBinary prec emin x = (roundHalfEven (x / q) : ℚ) * q := by
    simp only [roundBinary, if_neg hx, hq]
  obtain ⟨s1, s2⟩ := roundHalfEven_spec (x / q)
  have hdiff : |roundBinary prec emin x - x| = |(roundHalfEven (x / q) : ℚ) - x / q| * q := by
    rw [hr]
    have : (roundHalfEven (x / q) : ℚ) * q - x = ((roundHalfEven (x / q) : ℚ) - x / q) * q := by
      field_simp
    rw [this, abs_mul, abs_of_pos hqpos]
  refine ⟨roundHalfEven (x / q), hr, ?_, ?_⟩
  · rw [hdiff]
    have := mul_le_mul_of_nonneg_right s1 hqpos.le
    linarith
  · intro h
    apply s2
    rw [hdiff] at h
    have : |(roundHalfEven (x / q) : ℚ) - x / q| * q = 1 / 2 * q := by rw [h]; ring
    exact mul_right_cancel₀ hqpos.ne' this

/-- In the normal range the multiple is a significand of `prec` bits: it lies
between `2 ^ (prec - 1)` and `2 ^ prec` in absolute value. -/
theorem roundBinary_significand (prec : Nat) (emin : Int) (x : ℚ) (hx : x ≠ 0)
    (hprec : 1 ≤ prec) (hnormal : emin ≤ binaryExponent x) :
    roundBinary prec emin x =
      (roundHalfEven (x / pow2 (binaryExponent x - (prec - 1 : Nat))) : ℚ) *
        pow2 (binaryExponent x - (prec - 1 : Nat)) ∧
    (2 : Int) ^ (prec - 1) ≤ |roundHalfEven (x / pow2 (binaryExponent x - (prec - 1 : Nat)))| ∧
    |roundHalfEven (x / pow2 (binaryExponent x - (prec - 1 : Nat)))| ≤ (2 : Int) ^ prec := by
  have hmax : max (binaryExponent x) emin = binaryExponent x := max_eq_left hnormal
  obtain ⟨e1, e2⟩ := binaryExponent_spec x hx
  have hr : roundBinary prec emin x =
      (roundHalfEven (x / pow2 (binaryExponent x - (prec - 1 : Nat))) : ℚ) *
        pow2 (binaryExponent x - (prec - 1 : Nat)) := by
    simp only [roundBinary, if_neg hx, hmax]
  refine ⟨hr, ?_⟩
  clear hr hmax hnormal
  generalize binaryExponent x = e at *
  have hq : pow2 (e - (prec - 1 : Nat)) = (2 : ℚ) ^ e / 2 ^ (prec - 1) := by
    rw [pow2_eq, zpow_sub₀ (by norm_num), zpow_natCast]
  have hE : (0 : ℚ) < (2 : ℚ) ^ e := by positivity
  have hP : (0 : ℚ) < (2 : ℚ) ^ (prec - 1) := by positivity
  rw [pow2_eq] at e1
  rw [pow2_eq, zpow_add_one₀ (by norm_num)] at e2
  have hy : |x / pow2 (e - (prec - 1 : Nat))| = |x| * 2 ^ (prec - 1) / 2 ^ e := by
    rw [hq, abs_div, abs_of_pos (div_pos hE hP)]
    field_simp
  have hylo : (2 : ℚ) ^ (prec - 1) ≤ |x / pow2 (e - (prec - 1 : Nat))| := by
    rw [hy, le_div_iff₀ hE]
    have := mul_le_mul_of_nonneg_right e1 hP.le
    linarith
  have hpp : (2 : ℚ) ^ prec = 2 ^ (prec - 1) * 2 := by
    rw [← pow_succ]
    congr 1
    omega
  have hyhi : |x / pow2 (e - (prec - 1 : Nat))| < (2 : ℚ) ^ prec := by
    rw [hy, div_lt_iff₀ hE, hpp]
    have := mul_lt_mul_of_pos_right e2 hP
    linarith
  obtain ⟨s1, -⟩ := roundHalfEven_spec (x / pow2 (e - (prec - 1 : Nat)))
  generalize x / pow2 (e - (prec - 1 : Nat)) = y at *
  generalize roundHalfEven y = m at *
  have hm : ((|m| : Int) : ℚ) = |(m : ℚ)| := by push_cast; rfl
  have habs1 : |(m : ℚ)| ≤ |y| + 1 / 2 := by
    have := abs_sub_abs_le_abs_sub (m : ℚ) y
    linarith
  have habs2 : |y| - 1 / 2 ≤ |(m : ℚ)| := by
    have := abs_sub_abs_le_abs_sub y (m : ℚ)
    rw [abs_sub_comm] at this
    linarith
  constructor
  · have h : (((2 : Int) ^ (prec - 1) - 1 : Int) : ℚ) < ((|m| : Int) : ℚ) := by
      rw [hm]; push_cast; linarith
    have h' : (2 : Int) ^ (prec - 1) - 1 < |m| := by exact_mod_cast h
    omega
  · have h : ((|m| : Int) : ℚ) < (((2 : Int) ^ prec + 1 : Int) : ℚ) := by
      rw [hm]; push_cast; linarith
    have h' : |m| < (2 : Int) ^ prec + 1 := by exact_mod_cast h
    omega

/-- Reference values of the two roundings: 3.7, 1/3 and -3.7 as floats, the
ties `1 + 2 ^ -24` (down to the even 1) and `1 + 3 * 2 ^ -24` (up to the even
`1 + 2 ^ -22`), the least subnormal float `2 ^ -149`, which is kept, and half
of it, which goes to 0, a float, which is kept, and 0.02, 1/3 and 4.15 as
doubles. -/
theorem roundBinary_reference_values :
    roundFloat (37 / 10) = 15518925 / 4194304 ∧
    roundFloat (1 / 3) = 11184811 / 33554432 ∧
    roundFloat (-37 / 10) = -15518925 / 4194304 ∧
    roundFloat (16777217 / 16777216) = 1 ∧
    roundFloat (16777219 / 16777216) = 4194305 / 4194304 ∧
    roundFloat (1 / 713623846352979940529142984724747568191373312) =
      1 / 713623846352979940529142984724747568191373312 ∧
    roundFloat (1 / 1427247692705959881058285969449495136382746624) = 0 ∧
    roundFloat (8496579 / 2097152) = 8496579 / 2097152 ∧
    roundDouble (2 / 100) = 5764607523034235 / 288230376151711744 ∧
    roundDouble (1 / 3) = 6004799503160661 / 18014398509481984 ∧
    roundDouble (415 / 100) = 2336242306698445 / 562949953421312 := by
  decide!

/-! ## The charging classifier, the warnings and the ADC estimate -/

/-- The trend test, spelled out: the float average of the slots 3 and 4
against the float average of the slots 0 and 1 plus 0.02, compared in double. -/
theorem voltageRising_iff (h : List ℚ) :
    voltageRising h = true ↔
      floatAverage (h.getD 3 0) (h.getD 4 0) >
        roundDouble (floatAverage (h.getD 0 0) (h.getD 1 0) + roundDouble (2 / 100)) := by
  simp [voltageRising]

/-- An effective classifier update, field by field. -/
theorem updateChargingStatus_effective (env : Env) (w : World)
    (heff : ¬ sub32 (now env w) w.lastChargingUpdate < 2000) :
    (updateChargingStatus env w).voltageHistory =
      w.voltageHistory.set w.historyIndex w.batteryVoltage ∧
    (updateChargingStatus env w).historyIndex = (w.historyIndex + 1) % 5 ∧
    (updateChargingStatus env w).lastChargingUpdate = now env (tick w) ∧
    (updateChargingStatus env w).clockReads = w.clockReads + 2 ∧
    (updateChargingStatus env w).isCharging =
      (if w.batteryVoltage > 415 / 100 then true
       else if w.batteryVoltage > 405 / 100 ∧
          voltageRising (w.voltageHistory.set w.historyIndex w.batteryVoltage) = true
        then true
       else if w.batteryVoltage < 39 / 10 then false
       else w.isCharging) := by
  simp only [updateChargingStatus, if_neg heff, tick]
  refine ⟨?_, ?_, ?_, ?_, ?_⟩
  · split_ifs <;> rfl
  · split_ifs <;> rfl
  · split_ifs <;> rfl
  · split_ifs <;> rfl
  · by_cases h1 : w.batteryVoltage > 415 / 100
    · simp [h1]
    · by_cases h2 : w.batteryVoltage > 405 / 100
      · have h3 : ¬ w.batteryVoltage < 39 / 10 := by
          intro h3; linarith
        cases hr : voltageRising (w.voltageHistory.set w.historyIndex w.batteryVoltage)
        · simp [h1, h2, h3, hr]
        · simp [h1, h2, hr]
      · by_cases h3 : w.batteryVoltage < 39 / 10
        · simp [h1, h2, h3]
        · simp [h1, h2, h3]

/-- A classifier run that does not pass the guard changes neither the flag nor
the ring buffer. -/
theorem updateChargingStatus_skipped (env : Env) (w : World)
    (hskip : sub32 (now env w) w.lastChargingUpdate < 2000) :
    updateChargingStatus env w = tick w := by
  simp only [updateChargingStatus, if_pos hskip]

/-- Inside the hysteresis band the classifier keeps the flag. -/
theorem updateChargingStatus_hold (env : Env) (w : World)
    (hlo : 39 / 10 ≤ w.batteryVoltage) (hhi : w.batteryVoltage ≤ 405 / 100) :
    (updateChargingStatus env w).isCharging = w.isCharging := by
  by_cases heff : sub32 (now env w) w.lastChargingUpdate < 2000
  · rw [updateChargingStatus_skipped env w heff]; rfl
  · rw [(updateChargingStatus_effective env w heff).2.2.2.2]
    have h1 : ¬ w.batteryVoltage > 415 / 100 := by intro h; linarith
    have h2 : ¬ w.batteryVoltage > 405 / 100 := by intro h; linarith
    have h3 : ¬ w.batteryVoltage < 39 / 10 := by intro h; linarith
    simp [h1, h2, h3]

/-- Above 4.15 V an effective classifier run sets the flag. -/
theorem updateChargingStatus_high (env : Env) (w : World)
    (heff : ¬ sub32 (now env w) w.lastChargingUpdate < 2000)
    (hv : w.batteryVoltage > 415 / 100) :
    (updateChargingStatus env w).isCharging = true := by
  rw [(updateChargingStatus_effective env w heff).2.2.2.2]
  simp [hv]

/-- Below 3.9 V an effective classifier run clears the flag. -/
theorem updateChargingStatus_low (env : Env) (w : World)
    (heff : ¬ sub32 (now env w) w.lastChargingUpdate < 2000)
    (hv : w.batteryVoltage < 39 / 10) :
    (updateChargingStatus env w).isCharging = false := by
  rw [(updateChargingStatus_effective env w heff).2.2.2.2]
  have h1 : ¬ w.batteryVoltage > 415 / 100 := by intro h; linarith
  have h2 : ¬ w.batteryVoltage > 405 / 100 := by intro h; linarith
  simp [h1, h2, hv]

/-- Unfolding of `allEffective` on a non-empty list. -/
theorem allEffective_cons (env : Env) (v : ℚ) (vs : List ℚ) (w : World) :
    allEffective env (v :: vs) w = true ↔
      ¬ sub32 (now env w) w.lastChargingUpdate < 2000 ∧
      allEffective env vs (updateChargingStatus env { w with batteryVoltage := v }) = true := by
  simp [allEffective]

/-- A sequence of voltages inside the hysteresis band keeps the flag. -/
theorem classifierUpdates_hold (env : Env) (vs : List ℚ) :
    ∀ w : World, (∀ v ∈ vs, 39 / 10 ≤ v ∧ v ≤ 405 / 100) →
      (classifierUpdates env vs w).isCharging = w.isCharging := by
  induction vs with
  | nil => intro w _; rfl
  | cons v vs ih =>
    intro w h
    have hv := h v (List.mem_cons_self _ _)
    have := ih (updateChargingStatus env { w with batteryVoltage := v })
      (fun u hu => h u (List.mem_cons_of_mem _ hu))
    simp only [classifierUpdates]
    rw [this]
    exact updateChargingStatus_hold env { w with batteryVoltage := v } hv.1 hv.2

/-- Unfolding of `classifierUpdates` on a non-empty list. -/
theorem classifierUpdates_cons (env : Env) (v : ℚ) (vs : List ℚ) (w : World) :
    classifierUpdates env (v :: vs) w =
      classifierUpdates env vs (updateChargingStatus env { w with batteryVoltage := v }) := rfl

/-- Unfolding of `classifierUpdates` on the empty list. -/
theorem classifierUpdates_nil (env : Env) (w : World) : classifierUpdates env [] w = w := rfl

/-- One effective classifier run on a freshly committed voltage. -/
theorem classifier_step (env : Env) (v : ℚ) (w : World)
    (heff : ¬ sub32 (now env w) w.lastChargingUpdate < 2000) :
    ∃ w1 : World, updateChargingStatus env { w with batteryVoltage := v } = w1 ∧
      w1.voltageHistory = w.voltageHistory.set w.historyIndex v ∧
      w1.historyIndex = (w.historyIndex + 1) % 5 ∧
      (v > 415 / 100 → w1.isCharging = true) ∧
      (39 / 10 ≤ v → v ≤ 405 / 100 → w1.isCharging = w.isCharging) ∧
      (v < 39 / 10 → w1.isCharging = false) := by
  have e := updateChargingStatus_effective env { w with batteryVoltage := v } heff
  refine ⟨_, rfl, e.1, e.2.1, ?_, ?_, ?_⟩
  · intro hv
    exact updateChargingStatus_high env { w with batteryVoltage := v } heff hv
  · intro h1 h2
    exact updateChargingStatus_hold env { w with batteryVoltage := v } h1 h2
  · intro hv
    exact updateChargingStatus_low env { w with batteryVoltage := v } heff hv

/-- When consecutive clock reads are at least 2000 ms apart and the first run
passes the guard, every run of `classifierUpdates` passes it. -/
theorem allEffective_of_gaps (env : Env)
    (hgap : ∀ k, ¬ sub32 (env.clock (k + 1) % 4294967296) (env.clock k % 4294967296) < 2000)
    (vs : List ℚ) :
    ∀ w : World, ¬ sub32 (now env w) w.lastChargingUpdate < 2000 →
      allEffective env vs w = true := by
  induction vs with
  | nil => intro w _; rfl
  | cons v vs ih =>
    intro w g
    rw [allEffective_cons]
    refine ⟨g, ih _ ?_⟩
    have e := updateChargingStatus_effective env { w with batteryVoltage := v } g
    rw [e.2.2.1]
    simp only [now, tick, e.2.2.2.1]
    exact hgap (w.clockReads + 1)

/-- In the scenario `envTicking` consecutive clock reads are 10 s apart. -/
theorem envTicking_gaps :
    ∀ k, ¬ sub32 (envTicking.clock (k + 1) % 4294967296) (envTicking.clock k % 4294967296)
      < 2000 := by
  intro k
  simp only [envTicking, sub32]
  omega

/-- What `checkBatteryWarnings` leaves the low-battery flag at. -/
theorem checkBatteryWarnings_flag (w : World) :
    (checkBatteryWarnings w).lowBatteryWarning =
      (!w.isCharging && decide (w.batteryPercentage < 15)) ∧
    (checkBatteryWarnings w).isCharging = w.isCharging ∧
    (checkBatteryWarnings w).batteryPercentage = w.batteryPercentage := by
  simp only [checkBatteryWarnings, handleLowBatteryWarning]
  split_ifs with h1 h2 <;> simp [h1]

/-- An effective tick ends with `checkBatteryWarnings` and the update of
`lastBatteryUpdate`. -/
theorem updateBatteryManager_effective_eq (env : Env) (w : World)
    (heff : ¬ sub32 (now env w) w.lastBatteryUpdate < BATTERY_UPDATE_MS) :
    ∃ w1 : World, updateBatteryManager env w =
      { tick (checkBatteryWarnings (updateChargingStatus env w1)) with
        lastBatteryUpdate := now env (checkBatteryWarnings (updateChargingStatus env w1)) } := by
  refine ⟨if (tick w).fuelGaugeInitialized then
      (if sub32 (now env (updateFuelGauge env (tick w)))
          (updateFuelGauge env (tick w)).lastStatusReport > 60000 then
        { tick (tick (updateFuelGauge env (tick w))) with
          lastStatusReport := now env (tick (updateFuelGauge env (tick w))) }
      else tick (updateFuelGauge env (tick w)))
    else
      (if sub32 (now env (updateBatteryVoltageADC env (tick w)))
          (updateBatteryVoltageADC env (tick w)).lastADCStatusReport > 60000 then
        { tick (tick (updateBatteryVoltageADC env (tick w))) with
          lastADCStatusReport := now env (tick (updateBatteryVoltageADC env (tick w))) }
      else tick (updateBatteryVoltageADC env (tick w))), ?_⟩
  simp only [updateBatteryManager, if_neg heff]

/-- One evaluation of `checkBatteryWarnings` while not charging. -/
theorem checkBatteryWarnings_not_charging (w : World) (hc : w.isCharging = false) :
    (checkBatteryWarnings w).isCharging = false ∧
    (checkBatteryWarnings w).lowBatteryWarning = decide (w.batteryPercentage < 15) ∧
    (checkBatteryWarnings w).trace =
      (if w.batteryPercentage < 15 ∧ w.lowBatteryWarning = false
        then w.trace ++ [Event.lowBatteryWarningHandler] else w.trace) ∧
    handlerCalls (checkBatteryWarnings w) =
      handlerCalls w +
        (if w.batteryPercentage < 15 ∧ w.lowBatteryWarning = false then 1 else 0) := by
  simp only [checkBatteryWarnings, handleLowBatteryWarning, handlerCalls, hc]
  by_cases hp : w.batteryPercentage < 15 <;> cases hf : w.lowBatteryWarning <;> simp [hp, hf]

/-- Unfolding of `warningEvaluations` on a non-empty list. -/
theorem warningEvaluations_cons (p : ℚ) (ps : List ℚ) (w : World) :
    warningEvaluations (p :: ps) w =
      warningEvaluations ps (checkBatteryWarnings { w with batteryPercentage := p }) := rfl

/-- Unfolding of `warningEvaluations` on the empty list. -/
theorem warningEvaluations_nil (w : World) : warningEvaluations [] w = w := rfl

/-- One evaluation on a freshly committed percentage while not charging. -/
theorem warning_step (p : ℚ) (w : World) (hc : w.isCharging = false) :
    ∃ w1 : World, checkBatteryWarnings { w with batteryPercentage := p } = w1 ∧
      w1.isCharging = false ∧
      w1.lowBatteryWarning = decide (p < 15) ∧
      handlerCalls w1 =
        handlerCalls w + (if p < 15 ∧ w.lowBatteryWarning = false then 1 else 0) := by
  obtain ⟨h1, h2, -, h4⟩ := checkBatteryWarnings_not_charging { w with batteryPercentage := p } hc
  exact ⟨_, rfl, h1, h2, h4⟩

/-- The ADC voltage is non-decreasing in the ADC code. -/
theorem adcBatteryVoltage_mono (c1 c2 : Int) (h : c1 ≤ c2) :
    adcBatteryVoltage c1 ≤ adcBatteryVoltage c2 := by
  simp only [adcBatteryVoltage, ADC_REFERENCE_VOLTAGE, ADC_RESOLUTION, VOLTAGE_DIVIDER_RATIO]
  have hq : (c1 : ℚ) ≤ (c2 : ℚ) := by exact_mod_cast h
  have e : ∀ c : ℚ, c * (33 / 10) / 4095 / (319 / 1000) = c * (220 / 87087) := by
    intro c; ring
  rw [e, e]
  exact mul_le_mul_of_nonneg_right hq (by norm_num)

/-- The clamped percentage is non-decreasing in the voltage. -/
theorem adcBatteryPercentage_mono (v1 v2 : ℚ) (h : v1 ≤ v2) :
    adcBatteryPercentage v1 ≤ adcBatteryPercentage v2 := by
  simp only [adcBatteryPercentage, CLAMP, MAP_FLOAT, BATTERY_MIN_VOLTAGE, BATTERY_MAX_VOLTAGE]
  have hm : (v1 - 3) * (100 - 0) / (42 / 10 - 3) + 0 ≤ (v2 - 3) * (100 - 0) / (42 / 10 - 3) + 0 := by
    have e : ∀ v : ℚ, (v - 3) * (100 - 0) / (42 / 10 - 3) + 0 = (v - 3) * (250 / 3) := by
      intro v; ring
    rw [e, e]
    exact mul_le_mul_of_nonneg_right (by linarith) (by norm_num)
  split_ifs <;> linarith

/-! ## The driver, the alert handler and the initialised tick -/

/-- The retry loop leaves the alert flag and the low-battery flag alone, never
sets the initialised flag, and appends only events of a read of `reg`. -/
theorem attemptLoop_kept (env : Env) (reg : Nat) :
    ∀ (n a : Nat) (w : World),
      (attemptLoop env reg n a w).2.fuelGaugeAlertFlag = w.fuelGaugeAlertFlag ∧
      (attemptLoop env reg n a w).2.lowBatteryWarning = w.lowBatteryWarning ∧
      (w.fuelGaugeInitialized = false →
        (attemptLoop env reg n a w).2.fuelGaugeInitialized = false) ∧
      (∃ evs : List Event, (attemptLoop env reg n a w).2.trace = w.trace ++ evs ∧
        ∀ e ∈ evs, e = Event.i2cSelect reg ∨ e = Event.i2cRequest ∨ ∃ ms, e = Event.delay ms) := by
  intro n
  induction n with
  | zero =>
    intro a w
    refine ⟨rfl, rfl, fun h => h, [], ?_, ?_⟩
    · simp [attemptLoop, tick]
    · intro e he; cases he
  | succ n ih =>
    intro a w
    simp only [attemptLoop]
    split
    · split
      · refine ⟨?_, ?_, ?_, [Event.i2cSelect reg], ?_, ?_⟩
        · split_ifs <;> rfl
        · split_ifs <;> rfl
        · intro h; split_ifs
          · rfl
          · exact h
        · split_ifs <;> rfl
        · intro e he; left; simpa using he
      · obtain ⟨h1, h2, h3, evs, h4, h5⟩ := ih (a + 1)
          (delay 50 { w with busAttempts := w.busAttempts + 1,
                             trace := w.trace ++ [Event.i2cSelect reg],
                             consecutiveErrors := w.consecutiveErrors + 1 })
        refine ⟨h1, h2, h3, Event.i2cSelect reg :: Event.delay 50 :: evs, ?_, ?_⟩
        · rw [h4]; simp [delay]
        · intro e he
          simp only [List.mem_cons] at he
          rcases he with rfl | rfl | he
          · left; rfl
          · right; right; exact ⟨50, rfl⟩
          · exact h5 e he
    · rename_i polls b0 b1 hout
      refine ⟨rfl, rfl, fun h => h,
        Event.i2cSelect reg :: Event.i2cRequest :: List.replicate polls (Event.delay 1), ?_, ?_⟩
      · simp [tick]
      · intro e he
        simp only [List.mem_cons, List.mem_replicate] at he
        rcases he with rfl | rfl | ⟨-, rfl⟩
        · left; rfl
        · right; left; rfl
        · right; right; exact ⟨1, rfl⟩
    · rename_i polls hout
      obtain ⟨h1, h2, h3, evs, h4, h5⟩ := ih (a + 1)
        (delay 25 { w with busAttempts := w.busAttempts + 1,
                           trace := (w.trace ++ [Event.i2cSelect reg]) ++
                             Event.i2cRequest :: List.replicate polls (Event.delay 1) })
      refine ⟨h1, h2, h3, Event.i2cSelect reg :: Event.i2cRequest ::
        (List.replicate polls (Event.delay 1) ++ Event.delay 25 :: evs), ?_, ?_⟩
      · rw [h4]; simp [delay]
      · intro e he
        simp only [List.mem_cons, List.mem_append, List.mem_replicate] at he
        rcases he with rfl | rfl | ⟨-, rfl⟩ | rfl | he
        · left; rfl
        · right; left; rfl
        · right; right; exact ⟨1, rfl⟩
        · right; right; exact ⟨25, rfl⟩
        · exact h5 e he

/-- The code before the retry loop sets the bus token and makes no bus
operation. -/
theorem readFuelGaugeRegister_prelude (env : Env) (reg : Nat) (w : World) :
    ∃ w0 : World, readFuelGaugeRegister env reg w = attemptLoop env reg 3 0 w0 ∧
      w0.pauseGyroscopeReads = true ∧
      w0.busAttempts = w.busAttempts ∧ w0.consecutiveErrors = w.consecutiveErrors ∧
      w0.fuelGaugeInitialized = w.fuelGaugeInitialized ∧
      w0.fuelGaugeAlertFlag = w.fuelGaugeAlertFlag ∧
      w0.lowBatteryWarning = w.lowBatteryWarning ∧
      (w0.trace = w.trace ∨ ∃ ms, w0.trace = w.trace ++ [Event.delay ms]) := by
  refine ⟨_, rfl, ?_, ?_, ?_, ?_, ?_, ?_, ?_⟩
  · split_ifs <;> simp [tick, delay]
  · split_ifs <;> simp [tick, delay]
  · split_ifs <;> simp [tick, delay]
  · split_ifs <;> simp [tick, delay]
  · split_ifs <;> simp [tick, delay]
  · split_ifs <;> simp [tick, delay]
  · split_ifs
    · right; exact ⟨_, rfl⟩
    · left; rfl

/-- A register read leaves the alert flag and the low-battery flag alone,
never sets the initialised flag, and appends only events of a read of `reg`. -/
theorem readFuelGaugeRegister_kept (env : Env) (reg : Nat) (w : World) :
    (readFuelGaugeRegister env reg w).2.fuelGaugeAlertFlag = w.fuelGaugeAlertFlag ∧
    (readFuelGaugeRegister env reg w).2.lowBatteryWarning = w.lowBatteryWarning ∧
    (w.fuelGaugeInitialized = false →
      (readFuelGaugeRegister env reg w).2.fuelGaugeInitialized = false) ∧
    (∃ evs : List Event, (readFuelGaugeRegister env reg w).2.trace = w.trace ++ evs ∧
      ∀ e ∈ evs, e = Event.i2cSelect reg ∨ e = Event.i2cRequest ∨ ∃ ms, e = Event.delay ms) := by
  obtain ⟨w0, hw0, -, -, -, hi, ha, hl, ht⟩ := readFuelGaugeRegister_prelude env reg w
  obtain ⟨h1, h2, h3, evs, h4, h5⟩ := attemptLoop_kept env reg 3 0 w0
  rw [hw0]
  refine ⟨h1.trans ha, h2.trans hl, fun h => h3 (hi.trans h), ?_⟩
  rcases ht with ht | ⟨ms, ht⟩
  · exact ⟨evs, by rw [h4, ht], h5⟩
  · refine ⟨Event.delay ms :: evs, by rw [h4, ht]; simp, ?_⟩
    intro e he
    simp only [List.mem_cons] at he
    rcases he with rfl | he
    · right; right; exact ⟨ms, rfl⟩
    · exact h5 e he

/-- A register read makes at least one and at most three attempts, and the bus
token is still set afterwards exactly when the call ended on a third attempt
that failed with a transport error. -/
theorem readFuelGaugeRegister_attempts (env : Env) (reg : Nat) (w : World) :
    w.busAttempts + 1 ≤ (readFuelGaugeRegister env reg w).2.busAttempts ∧
    (readFuelGaugeRegister env reg w).2.busAttempts ≤ w.busAttempts + 3 ∧
    (readFuelGaugeRegister env reg w).2.pauseGyroscopeReads =
      endsInTransportError env w.busAttempts := by
  obtain ⟨w0, hw0, hp, hb, -, -, -, -, -⟩ := readFuelGaugeRegister_prelude env reg w
  rw [hw0, ← hb]
  rcases h0 : env.bus w0.busAttempts with _ | p0 | ⟨p0, x0, y0⟩ <;>
  rcases h1 : env.bus (w0.busAttempts + 1) with _ | p1 | ⟨p1, x1, y1⟩ <;>
  rcases h2 : env.bus (w0.busAttempts + 2) with _ | p2 | ⟨p2, x2, y2⟩ <;>
  simp [attemptLoop, h0, h1, h2, delay, tick, endsInTransportError, Attempt.isData,
    Attempt.isTransportError, hp] <;>
  (try split_ifs) <;> (try simp [hp])

/-- A read whose three attempts all fail with a transport error. -/
theorem readFuelGaugeRegister_all_errors (env : Env) (reg : Nat) (w : World)
    (herr : ∀ j, j < 3 → env.bus (w.busAttempts + j) = Attempt.transportError) :
    ∃ w1 : World, readFuelGaugeRegister env reg w = (0xFFFF, w1) ∧
      w1.busAttempts = w.busAttempts + 3 ∧
      w1.consecutiveErrors = w.consecutiveErrors + 3 ∧
      w1.fuelGaugeInitialized =
        (if w.consecutiveErrors + 3 > 10 then false else w.fuelGaugeInitialized) ∧
      w1.fuelGaugeAlertFlag = w.fuelGaugeAlertFlag := by
  obtain ⟨w0, hw0, -, hb, hc, hi, ha, -, -⟩ := readFuelGaugeRegister_prelude env reg w
  have h0 := herr 0 (by norm_num)
  have h1 := herr 1 (by norm_num)
  have h2 := herr 2 (by norm_num)
  rw [← hb] at h0 h1 h2
  rw [Nat.add_zero] at h0
  refine ⟨(readFuelGaugeRegister env reg w).2, ?_, ?_, ?_, ?_, ?_⟩
  · rw [hw0]
    simp [attemptLoop, h0, h1, h2, delay, tick]
  · rw [hw0, ← hb]
    simp [attemptLoop, h0, h1, h2, delay, tick]
    split_ifs <;> rfl
  · rw [hw0, ← hc]
    simp [attemptLoop, h0, h1, h2, delay, tick]
    split_ifs <;> simp <;> omega
  · rw [hw0, ← hc, ← hi]
    by_cases hgt : 10 < w0.consecutiveErrors + 3
    · have hgt1 : 10 < w0.consecutiveErrors + 1 + 1 + 1 := by omega
      simp [attemptLoop, h0, h1, h2, delay, tick, hgt, hgt1]
    · have hgt1 : ¬ 10 < w0.consecutiveErrors + 1 + 1 + 1 := by omega
      simp [attemptLoop, h0, h1, h2, delay, tick, hgt, hgt1]
  · rw [(readFuelGaugeRegister_kept env reg w).1]

/-- Toggling bit 0x0020 of a word does not change its bit 0x0010. -/
theorem and_xor_bit5 (flags : Nat) : (flags ^^^ 0x0020) &&& 0x0010 = flags &&& 0x0010 := by
  have h : (0x0020 &&& 0x0010 : Nat) = 0 := by decide
  rw [Nat.and_xor_distrib_right, h, Nat.xor_zero]

/-- The handler is two reads of the status register with the flag decision in
between. -/
theorem handleFuelGaugeAlert_eq (env : Env) (w : World) :
    handleFuelGaugeAlert env w =
      (readFuelGaugeRegister env 0x1A
        (applyAlertFlags (readFuelGaugeRegister env 0x1A w).1
          (readFuelGaugeRegister env 0x1A w).2)).2 := rfl

/-- What `applyAlertFlags` changes: only the low-battery flag. -/
theorem applyAlertFlags_kept (flags : Nat) (w : World) :
    (applyAlertFlags flags w).busAttempts = w.busAttempts ∧
    (applyAlertFlags flags w).trace = w.trace ∧
    (applyAlertFlags flags w).fuelGaugeAlertFlag = w.fuelGaugeAlertFlag ∧
    (applyAlertFlags flags w).fuelGaugeInitialized = w.fuelGaugeInitialized ∧
    (applyAlertFlags flags w).lowBatteryWarning =
      (if flags &&& 0x0010 ≠ 0 then true else w.lowBatteryWarning) := by
  simp only [applyAlertFlags]
  split_ifs <;> simp

/-- What servicing an alert does, field by field. -/
theorem handleFuelGaugeAlert_fields (env : Env) (w : World) :
    w.busAttempts + 2 ≤ (handleFuelGaugeAlert env w).busAttempts ∧
    (handleFuelGaugeAlert env w).busAttempts ≤ w.busAttempts + 6 ∧
    (∃ evs : List Event, (handleFuelGaugeAlert env w).trace = w.trace ++ evs ∧
      ∀ e ∈ evs, e = Event.i2cSelect 0x1A ∨ e = Event.i2cRequest ∨ ∃ ms, e = Event.delay ms) ∧
    (handleFuelGaugeAlert env w).lowBatteryWarning =
      (if (readFuelGaugeRegister env 0x1A w).1 &&& 0x0010 ≠ 0 then true
        else w.lowBatteryWarning) ∧
    (handleFuelGaugeAlert env w).fuelGaugeAlertFlag = w.fuelGaugeAlertFlag := by
  rw [handleFuelGaugeAlert_eq]
  obtain ⟨a1, a2, -⟩ := readFuelGaugeRegister_attempts env 0x1A w
  obtain ⟨k1, k2, -, evs1, k4, k5⟩ := readFuelGaugeRegister_kept env 0x1A w
  obtain ⟨f1, f2, f3, -, f5⟩ := applyAlertFlags_kept (readFuelGaugeRegister env 0x1A w).1
    (readFuelGaugeRegister env 0x1A w).2
  obtain ⟨b1, b2, -⟩ := readFuelGaugeRegister_attempts env 0x1A
    (applyAlertFlags (readFuelGaugeRegister env 0x1A w).1 (readFuelGaugeRegister env 0x1A w).2)
  obtain ⟨m1, m2, -, evs2, m4, m5⟩ := readFuelGaugeRegister_kept env 0x1A
    (applyAlertFlags (readFuelGaugeRegister env 0x1A w).1 (readFuelGaugeRegister env 0x1A w).2)
  rw [f1] at b1 b2
  refine ⟨by omega, by omega, ⟨evs1 ++ evs2, ?_, ?_⟩, ?_, ?_⟩
  · rw [m4, f2, k4, List.append_assoc]
  · intro e he
    rcases List.mem_append.1 he with he | he
    · exact k5 e he
    · exact m5 e he
  · rw [m2, f5, k2]
  · rw [m1, f3, k1]

/-- What `applyReading` leaves alone on the driver side. -/
theorem applyReading_kept (env : Env) (p v : ℚ) (w : World) :
    (applyReading env p v w).busAttempts = w.busAttempts ∧
    (applyReading env p v w).consecutiveErrors = w.consecutiveErrors ∧
    (applyReading env p v w).fuelGaugeAlertFlag = w.fuelGaugeAlertFlag := by
  simp only [applyReading, tick, updateBatteryVoltageADC]
  split_ifs <;> simp

/-- The classifier and the warnings leave the error counter alone. -/
theorem classifier_warnings_kept (env : Env) (w : World) :
    (checkBatteryWarnings (updateChargingStatus env w)).consecutiveErrors = w.consecutiveErrors := by
  have h1 : ∀ u : World, (checkBatteryWarnings u).consecutiveErrors = u.consecutiveErrors := by
    intro u
    simp only [checkBatteryWarnings, handleLowBatteryWarning]
    split_ifs <;> rfl
  have h2 : (updateChargingStatus env w).consecutiveErrors = w.consecutiveErrors := by
    simp only [updateChargingStatus, tick]
    split_ifs <;> rfl
  rw [h1, h2]

/-- An effective tick that starts initialised: the driver-side fields and the
committed pair are those `updateFuelGauge` leaves. -/
theorem updateBatteryManager_initialized (env : Env) (w : World)
    (hinit : w.fuelGaugeInitialized = true)
    (heff : ¬ sub32 (now env w) w.lastBatteryUpdate < BATTERY_UPDATE_MS) :
    (updateBatteryManager env w).busAttempts = (updateFuelGauge env (tick w)).busAttempts ∧
    (updateBatteryManager env w).consecutiveErrors =
      (updateFuelGauge env (tick w)).consecutiveErrors ∧
    (updateBatteryManager env w).fuelGaugeInitialized =
      (updateFuelGauge env (tick w)).fuelGaugeInitialized ∧
    (updateBatteryManager env w).fuelGaugeAlertFlag =
      (updateFuelGauge env (tick w)).fuelGaugeAlertFlag ∧
    (updateBatteryManager env w).adcReads = (updateFuelGauge env (tick w)).adcReads := by
  simp only [updateBatteryManager, if_neg heff]
  have hinit' : (tick w).fuelGaugeInitialized = true := hinit
  simp only [hinit', if_true]
  generalize hw1 : (if sub32 (now env (updateFuelGauge env (tick w)))
      (updateFuelGauge env (tick w)).lastStatusReport > 60000 then
        { tick (tick (updateFuelGauge env (tick w))) with
          lastStatusReport := now env (tick (updateFuelGauge env (tick w))) }
      else tick (updateFuelGauge env (tick w))) = w1
  have h1 : w1.busAttempts = (updateFuelGauge env (tick w)).busAttempts ∧
      w1.consecutiveErrors = (updateFuelGauge env (tick w)).consecutiveErrors ∧
      w1.fuelGaugeInitialized = (updateFuelGauge env (tick w)).fuelGaugeInitialized ∧
      w1.fuelGaugeAlertFlag = (updateFuelGauge env (tick w)).fuelGaugeAlertFlag ∧
      w1.adcReads = (updateFuelGauge env (tick w)).adcReads := by
    subst hw1
    split_ifs <;> simp [tick]
  obtain ⟨a1, a2, a3, a4, a5⟩ := h1
  obtain ⟨-, -, b3, b4, b5, b6, -⟩ := updateChargingStatus_kept env w1
  obtain ⟨-, -, c3, c4, c5, c6, -⟩ := checkBatteryWarnings_kept (updateChargingStatus env w1)
  have d := classifier_warnings_kept env w1
  refine ⟨?_, ?_, ?_, ?_, ?_⟩
  · show (checkBatteryWarnings (updateChargingStatus env w1)).busAttempts = _
    rw [c5, b5, a1]
  · show (checkBatteryWarnings (updateChargingStatus env w1)).consecutiveErrors = _
    rw [d, a2]
  · show (checkBatteryWarnings (updateChargingStatus env w1)).fuelGaugeInitialized = _
    rw [c3, b3, a3]
  · show (checkBatteryWarnings (updateChargingStatus env w1)).fuelGaugeAlertFlag = _
    rw [c4, b4, a4]
  · show (checkBatteryWarnings (updateChargingStatus env w1)).adcReads = _
    rw [c6, b6, a5]

/-- The read phase leaves no alert pending, and services a pending one after
the two readings. -/
theorem readPhase_alert (env : Env) (w : World) :
    (readPhase env w).2.2.fuelGaugeAlertFlag = false ∧
    (w.fuelGaugeAlertFlag = true →
      (readPhase env w).2.2 =
        { handleFuelGaugeAlert env
            (readFuelGaugeRegister env 0x02 (readFuelGaugeRegister env 0x04 w).2).2 with
          fuelGaugeAlertFlag := false }) ∧
    (w.fuelGaugeAlertFlag = false →
      (readPhase env w).2.2 =
        (readFuelGaugeRegister env 0x02 (readFuelGaugeRegister env 0x04 w).2).2) := by
  have hk : (readFuelGaugeRegister env 0x02 (readFuelGaugeRegister env 0x04 w).2).2.fuelGaugeAlertFlag
      = w.fuelGaugeAlertFlag := by
    rw [(readFuelGaugeRegister_kept env 0x02 _).1, (readFuelGaugeRegister_kept env 0x04 w).1]
  simp only [readPhase, readFuelGaugeSOC, readFuelGaugeVoltage, hk]
  cases hf : w.fuelGaugeAlertFlag
  · simp [hk, hf]
  · simp

/-- The read phase when the bus fails six times in a row and no alert is
pending. -/
theorem readPhase_all_errors (env : Env) (w : World)
    (halert : w.fuelGaugeAlertFlag = false)
    (herr : ∀ j, j < 6 → env.bus (w.busAttempts + j) = Attempt.transportError) :
    ∃ w2 : World, readPhase env w = (-1, -1, w2) ∧
      w2.busAttempts = w.busAttempts + 6 ∧
      w2.consecutiveErrors = w.consecutiveErrors + 6 ∧
      w2.fuelGaugeInitialized =
        (if w.consecutiveErrors + 6 > 10 then false else w.fuelGaugeInitialized) ∧
      w2.fuelGaugeAlertFlag = false := by
  obtain ⟨w1, e1, b1, c1, i1, a1⟩ := readFuelGaugeRegister_all_errors env 0x04 w
    (fun j hj => herr j (by omega))
  obtain ⟨w2, e2, b2, c2, i2, a2⟩ := readFuelGaugeRegister_all_errors env 0x02 w1
    (fun j hj => by rw [b1, Nat.add_assoc]; exact herr (3 + j) (by omega))
  have ha2 : w2.fuelGaugeAlertFlag = false := by rw [a2, a1, halert]
  refine ⟨w2, ?_, ?_, ?_, ?_, ha2⟩
  · simp only [readPhase, readFuelGaugeSOC, readFuelGaugeVoltage, e1, e2, ha2]
    simp
  · rw [b2, b1]
  · rw [c2, c1]; omega
  · rw [i2, i1, c1]
    by_cases h3 : w.consecutiveErrors + 3 > 10
    · have h6 : w.consecutiveErrors + 6 > 10 := by omega
      have h6' : w.consecutiveErrors + 3 + 3 > 10 := by omega
      simp [h3, h6, h6']
    · by_cases h6 : w.consecutiveErrors + 6 > 10
      · have h6' : w.consecutiveErrors + 3 + 3 > 10 := by omega
        simp [h6, h6']
      · have h6' : ¬ w.consecutiveErrors + 3 + 3 > 10 := by omega
        simp [h3, h6, h6']

/-- An effective tick of an initialised manager when the bus fails six times
in a row and no alert is pending. -/
theorem updateBatteryManager_all_errors (env : Env) (w : World)
    (hinit : w.fuelGaugeInitialized = true)
    (halert : w.fuelGaugeAlertFlag = false)
    (heff : ¬ sub32 (now env w) w.lastBatteryUpdate < BATTERY_UPDATE_MS)
    (herr : ∀ j, j < 6 → env.bus (w.busAttempts + j) = Attempt.transportError) :
    (updateBatteryManager env w).busAttempts = w.busAttempts + 6 ∧
    (updateBatteryManager env w).consecutiveErrors = w.consecutiveErrors + 6 ∧
    (updateBatteryManager env w).fuelGaugeInitialized =
      (if w.consecutiveErrors + 6 > 10 then false else true) ∧
    (updateBatteryManager env w).fuelGaugeAlertFlag = false := by
  obtain ⟨t1, t2, t3, t4, -⟩ := updateBatteryManager_initialized env w hinit heff
  obtain ⟨w2, e, b, c, i, a⟩ := readPhase_all_errors env (tick w) halert herr
  have hu : updateFuelGauge env (tick w) = applyReading env (-1) (-1) w2 := by
    simp only [updateFuelGauge, e]
  obtain ⟨k1, k2, k3⟩ := applyReading_kept env (-1) (-1) w2
  have hrej := applyReading_reject env (-1) (-1) w2
    (isValidReading_sentinel _ _ _ (Or.inl rfl))
  rw [t1, t2, t3, t4, hu, k1, k2, k3, hrej.2.1, b, c, i, a]
  refine ⟨rfl, rfl, ?_, rfl⟩
  have : (tick w).fuelGaugeInitialized = true := hinit
  rw [this]
  rfl

/-- After two transport errors the third attempt decides: only a third
transport error evaluates the threshold. -/
theorem readFuelGaugeRegister_two_errors (env : Env) (reg : Nat) (w : World)
    (h0 : env.bus w.busAttempts = Attempt.transportError)
    (h1 : env.bus (w.busAttempts + 1) = Attempt.transportError) :
    (readFuelGaugeRegister env reg w).2.fuelGaugeInitialized =
      (if (env.bus (w.busAttempts + 2)).isTransportError = true ∧ w.consecutiveErrors + 3 > 10
        then false else w.fuelGaugeInitialized) := by
  obtain ⟨w0, hw0, -, hb, hc, hi, -, -, -⟩ := readFuelGaugeRegister_prelude env reg w
  rw [hw0, ← hb, ← hc, ← hi]
  rw [← hb] at h0 h1
  rcases h2 : env.bus (w0.busAttempts + 2) with _ | p2 | ⟨p2, x2, y2⟩
  · by_cases hgt : 10 < w0.consecutiveErrors + 3
    · have hgt1 : 10 < w0.consecutiveErrors + 1 + 1 + 1 := by omega
      simp [attemptLoop, h0, h1, h2, delay, tick, hgt, hgt1, Attempt.isTransportError]
    · have hgt1 : ¬ 10 < w0.consecutiveErrors + 1 + 1 + 1 := by omega
      simp [attemptLoop, h0, h1, h2, delay, tick, hgt, hgt1, Attempt.isTransportError]
  · simp [attemptLoop, h0, h1, h2, delay, tick, Attempt.isTransportError]
  · simp [attemptLoop, h0, h1, h2, delay, tick, Attempt.isTransportError]

/-- Four reads in a row, from a counter at 0, on a bus whose first eleven
attempts fail with transport errors: the flag survives the first three reads,
and the fourth read clears it exactly when the twelfth attempt fails with a
transport error too. -/
theorem readRegisters_eleven_errors (env : Env) (w : World) (r1 r2 r3 r4 : Nat)
    (hcount : w.consecutiveErrors = 0)
    (herr : ∀ j, j < 11 → env.bus (w.busAttempts + j) = Attempt.transportError) :
    (readRegisters env [r1, r2, r3] w).consecutiveErrors = 9 ∧
    (readRegisters env [r1, r2, r3] w).busAttempts = w.busAttempts + 9 ∧
    (readRegisters env [r1, r2, r3] w).fuelGaugeInitialized = w.fuelGaugeInitialized ∧
    (readRegisters env [r1, r2, r3, r4] w).fuelGaugeInitialized =
      (if (env.bus (w.busAttempts + 11)).isTransportError = true then false
        else w.fuelGaugeInitialized) := by
  obtain ⟨w1, e1, b1, c1, i1, -⟩ := readFuelGaugeRegister_all_errors env r1 w
    (fun j hj => herr j (by omega))
  obtain ⟨w2, e2, b2, c2, i2, -⟩ := readFuelGaugeRegister_all_errors env r2 w1
    (fun j hj => by rw [b1, Nat.add_assoc]; exact herr (3 + j) (by omega))
  obtain ⟨w3, e3, b3, c3, i3, -⟩ := readFuelGaugeRegister_all_errors env r3 w2
    (fun j hj => by rw [b2, b1, Nat.add_assoc, Nat.add_assoc]; exact herr (3 + (3 + j)) (by omega))
  rw [hcount] at c1 i1
  rw [c1] at c2 i2
  rw [c2] at c3 i3
  have hb3 : w3.busAttempts = w.busAttempts + 9 := by rw [b3, b2, b1]
  have hi3 : w3.fuelGaugeInitialized = w.fuelGaugeInitialized := by
    rw [i3, i2, i1]; rfl
  have hc3 : w3.consecutiveErrors = 9 := by rw [c3]; rfl
  have h4 := readFuelGaugeRegister_two_errors env r4 w3
    (by rw [hb3]; exact herr 9 (by omega))
    (by rw [hb3, Nat.add_assoc]; exact herr 10 (by omega))
  rw [hb3, hc3, hi3, Nat.add_assoc] at h4
  simp only [readRegisters, List.foldl, e1, e2, e3]
  refine ⟨hc3, hb3, hi3, ?_⟩
  rw [h4]
  simp

/-- When consecutive clock reads are at least 5000 ms apart, the tick after an
effective tick is effective too. -/
theorem updateBatteryManager_next_effective (env : Env)
    (hgap : ∀ k, ¬ sub32 (env.clock (k + 1) % 4294967296) (env.clock k % 4294967296)
      < BATTERY_UPDATE_MS)
    (w : World) (heff : ¬ sub32 (now env w) w.lastBatteryUpdate < BATTERY_UPDATE_MS) :
    ¬ sub32 (now env (updateBatteryManager env w)) (updateBatteryManager env w).lastBatteryUpdate
      < BATTERY_UPDATE_MS := by
  obtain ⟨w1, hw1⟩ := updateBatteryManager_effective_eq env w heff
  rw [hw1]
  exact hgap (checkBatteryWarnings (updateChargingStatus env w1)).clockReads

/-- In the scenario `envTicking` consecutive clock reads are more than a tick period apart. -/
theorem envTicking_tick_gaps :
    ∀ k, ¬ sub32 (envTicking.clock (k + 1) % 4294967296) (envTicking.clock k % 4294967296)
      < BATTERY_UPDATE_MS := by
  intro k
  simp only [envTicking, sub32, BATTERY_UPDATE_MS]
  omega

/-! ## Claims C11 to C20 -/

/-- Counterexample to claim C11: from the initialised boot state (counter 0)
the first eleven register-read attempts fail with transport errors; after the
third read (nine errors) and after the fourth read, whose third attempt
succeeds after the tenth and eleventh error, `fuelGaugeInitialized` is still
true. -/
theorem eleven_errors_do_not_trip_the_breaker :
    worldInitialized.fuelGaugeInitialized = true ∧
    worldInitialized.consecutiveErrors = 0 ∧
    (∀ j, j < 11 →
      envElevenErrors.bus (worldInitialized.busAttempts + j) = Attempt.transportError) ∧
    (readRegisters envElevenErrors [0x04, 0x02, 0x04] worldInitialized).consecutiveErrors = 9 ∧
    (readRegisters envElevenErrors [0x04, 0x02, 0x04] worldInitialized).fuelGaugeInitialized = true ∧
    (readRegisters envElevenErrors [0x04, 0x02, 0x04, 0x02] worldInitialized).busAttempts = 12 ∧
    (readRegisters envElevenErrors [0x04, 0x02, 0x04, 0x02] worldInitialized).fuelGaugeInitialized
      = true := by
  refine ⟨rfl, rfl, ?_, ?_, ?_, ?_, ?_⟩
  · intro j hj
    simp [envElevenErrors, worldInitialized, World.boot, hj]
  all_goals decide

/-- Claim C11 as amended: from a state with `fuelGaugeInitialized = true`, the
consecutive-error counter at 0 and no alert pending, on a bus whose next
eleven attempts fail with transport errors: three reads in a row (nine
errors) leave the flag true, and the fourth read, which makes the tenth and
the eleventh error, clears the flag exactly when its third attempt, the
twelfth in a row, fails with a transport error as well.  When it does: the
first effective tick ends with the counter at 6 and the flag true, the second
with the counter at 12 and the flag false, and the third effective tick makes
no register-read attempt and commits the ADC estimate. -/
theorem breaker_trips_on_twelfth_error (env : Env) (w : World) (r1 r2 r3 r4 : Nat)
    (hinit : w.fuelGaugeInitialized = true)
    (hcount : w.consecutiveErrors = 0)
    (halert : w.fuelGaugeAlertFlag = false)
    (herr : ∀ j, j < 11 → env.bus (w.busAttempts + j) = Attempt.transportError)
    (heff1 : ¬ sub32 (now env w) w.lastBatteryUpdate < BATTERY_UPDATE_MS)
    (heff2 : ¬ sub32 (now env (updateBatteryManager env w))
      (updateBatteryManager env w).lastBatteryUpdate < BATTERY_UPDATE_MS)
    (heff3 : ¬ sub32 (now env (updateBatteryManager env (updateBatteryManager env w)))
      (updateBatteryManager env (updateBatteryManager env w)).lastBatteryUpdate
        < BATTERY_UPDATE_MS) :
    ((readRegisters env [r1, r2, r3] w).consecutiveErrors = 9 ∧
      (readRegisters env [r1, r2, r3] w).fuelGaugeInitialized = true ∧
      (readRegisters env [r1, r2, r3, r4] w).fuelGaugeInitialized =
        !(env.bus (w.busAttempts + 11)).isTransportError) ∧
    (env.bus (w.busAttempts + 11) = Attempt.transportError →
      ((updateBatteryManager env w).consecutiveErrors = 6 ∧
        (updateBatteryManager env w).fuelGaugeInitialized = true) ∧
      ((updateBatteryManager env (updateBatteryManager env w)).consecutiveErrors = 12 ∧
        (updateBatteryManager env (updateBatteryManager env w)).busAttempts
          = w.busAttempts + 12 ∧
        (updateBatteryManager env (updateBatteryManager env w)).fuelGaugeInitialized = false) ∧
      ((updateBatteryManager env
          (updateBatteryManager env (updateBatteryManager env w))).busAttempts
          = w.busAttempts + 12 ∧
        (updateBatteryManager env
          (updateBatteryManager env (updateBatteryManager env w))).batteryVoltage
          = adcBatteryVoltage
              (env.adc (updateBatteryManager env (updateBatteryManager env w)).adcReads) ∧
        (updateBatteryManager env
            (updateBatteryManager env (updateBatteryManager env w))).batteryPercentage
          = adcBatteryPercentage (adcBatteryVoltage
              (env.adc (updateBatteryManager env (updateBatteryManager env w)).adcReads)))) := by
  obtain ⟨q1, -, q3, q4⟩ := readRegisters_eleven_errors env w r1 r2 r3 r4 hcount herr
  refine ⟨⟨q1, q3.trans hinit, ?_⟩, ?_⟩
  · rw [q4, hinit]
    cases (env.bus (w.busAttempts + 11)).isTransportError <;> rfl
  intro h12
  have herr12 : ∀ j, j < 12 → env.bus (w.busAttempts + j) = Attempt.transportError := by
    intro j hj
    by_cases h : j < 11
    · exact herr j h
    · have : j = 11 := by omega
      rw [this]; exact h12
  obtain ⟨b1, c1, i1, a1⟩ := updateBatteryManager_all_errors env w hinit halert heff1
    (fun j hj => herr12 j (by omega))
  rw [hcount] at c1 i1
  have i1' : (updateBatteryManager env w).fuelGaugeInitialized = true := by
    rw [i1]; rfl
  obtain ⟨b2, c2, i2, -⟩ := updateBatteryManager_all_errors env (updateBatteryManager env w)
    i1' a1 heff2
    (fun j hj => by rw [b1, Nat.add_assoc]; exact herr12 (6 + j) (by omega))
  rw [c1] at c2 i2
  have i2' : (updateBatteryManager env (updateBatteryManager env w)).fuelGaugeInitialized
      = false := by
    rw [i2]; rfl
  obtain ⟨u1, -, -, u4, u5, -, -⟩ := updateBatteryManager_uninit env
    (updateBatteryManager env (updateBatteryManager env w)) i2' heff3
  exact ⟨⟨by rw [c1]; rfl, i1'⟩, ⟨by rw [c2]; rfl, by rw [b2, b1], i2'⟩,
    ⟨by rw [u1, b2, b1], u4, u5⟩⟩

/-- Witness of claim C11 as amended: the initialised boot state on a dead bus
with a clock that advances 10 s per read; the flag falls in the second tick,
at the twelfth error, and the third tick makes no attempt. -/
theorem breaker_trips_on_twelfth_error_witness :
    (updateBatteryManager envTicking worldInitialized).fuelGaugeInitialized = true ∧
    (updateBatteryManager envTicking
      (updateBatteryManager envTicking worldInitialized)).consecutiveErrors = 12 ∧
    (updateBatteryManager envTicking
      (updateBatteryManager envTicking worldInitialized)).fuelGaugeInitialized = false ∧
    (updateBatteryManager envTicking (updateBatteryManager envTicking
      (updateBatteryManager envTicking worldInitialized))).busAttempts = 12 :=
  have heff1 : ¬ sub32 (now envTicking worldInitialized) worldInitialized.lastBatteryUpdate
      < BATTERY_UPDATE_MS := by decide
  have heff2 := updateBatteryManager_next_effective envTicking envTicking_tick_gaps
    worldInitialized heff1
  have heff3 := updateBatteryManager_next_effective envTicking envTicking_tick_gaps
    (updateBatteryManager envTicking worldInitialized) heff2
  have h := (breaker_trips_on_twelfth_error envTicking worldInitialized 0x04 0x02 0x04 0x02
    rfl rfl rfl (fun _ _ => rfl) heff1 heff2 heff3).2 rfl
  ⟨h.1.2, h.2.1.1, h.2.1.2.2, h.2.2.1⟩

/-- Claim C12, evaluated on the code: `readFuelGaugeRegister` enters its retry
loop with `pauseGyroscopeReads` true and without a bus operation before it;
when it returns, the token is still true exactly when the call ended on a
third attempt that failed with a transport error, and false on every other
exit.  On a bus that fails three register selects the call returns 0xFFFF
after 3 attempts with the token still set; after three timeouts and after a
success the token is false. -/
theorem readFuelGaugeRegister_token_not_released (env : Env) (reg : Nat) (w : World) :
    (∃ w0 : World, readFuelGaugeRegister env reg w = attemptLoop env reg 3 0 w0 ∧
      w0.pauseGyroscopeReads = true ∧ w0.busAttempts = w.busAttempts) ∧
    (readFuelGaugeRegister env reg w).2.pauseGyroscopeReads =
      endsInTransportError env w.busAttempts ∧
    (readFuelGaugeRegister envBusDown 0x04 worldInitialized).1 = 0xFFFF ∧
    (readFuelGaugeRegister envBusDown 0x04 worldInitialized).2.busAttempts = 3 ∧
    (readFuelGaugeRegister envBusDown 0x04 worldInitialized).2.pauseGyroscopeReads = true ∧
    (readFuelGaugeRegister envAllTimeout 0x04 worldInitialized).2.pauseGyroscopeReads = false ∧
    (readFuelGaugeRegister envHealthy 0x04 worldInitialized).2.pauseGyroscopeReads = false := by
  obtain ⟨w0, hw0, hp, hb, -⟩ := readFuelGaugeRegister_prelude env reg w
  refine ⟨⟨w0, hw0, hp, hb⟩, (readFuelGaugeRegister_attempts env reg w).2.2, ?_, ?_, ?_, ?_, ?_⟩ <;>
  decide

/-- Claim C13, evaluated on a tie: the floats that the code commits for the
VCELL words 0xCA93, 0xCA94, 0xCA93, 0xCB93, 0xCB94, fed to five effective
updates from the boot state.  The fifth voltage lies between 4.05 and 4.15,
the flag is false before the fifth update, and the exact comparison
`(h[3] + h[4]) / 2 > (h[0] + h[1]) / 2 + 0.02` is false on the buffer (the
averages differ by less than 20 mV); yet the float sums round so that the
code finds the trend rising, and the fifth update sets the flag. -/
theorem classifier_trend_decided_by_rounding :
    roundFloat (roundDouble ((0xCA93 : ℚ) * (78125 / 1000) / 1000000)) = 8496579 / 2097152 ∧
    roundFloat (roundDouble ((0xCA94 : ℚ) * (78125 / 1000) / 1000000)) = 4248371 / 1048576 ∧
    roundFloat (roundDouble ((0xCB93 : ℚ) * (78125 / 1000) / 1000000)) = 4269261 / 1048576 ∧
    roundFloat (roundDouble ((0xCB94 : ℚ) * (78125 / 1000) / 1000000)) = 8538685 / 2097152 ∧
    (classifierUpdates envTicking
      [8496579 / 2097152, 4248371 / 1048576, 8496579 / 2097152, 4269261 / 1048576,
        8538685 / 2097152] World.boot).voltageHistory =
      [8496579 / 2097152, 4248371 / 1048576, 8496579 / 2097152, 4269261 / 1048576,
        8538685 / 2097152] ∧
    allEffective envTicking
      [8496579 / 2097152, 4248371 / 1048576, 8496579 / 2097152, 4269261 / 1048576,
        8538685 / 2097152] World.boot = true ∧
    (classifierUpdates envTicking
      [8496579 / 2097152, 4248371 / 1048576, 8496579 / 2097152, 4269261 / 1048576]
      World.boot).isCharging = false ∧
    ((405 / 100 : ℚ) < 8538685 / 2097152 ∧ (8538685 / 2097152 : ℚ) ≤ 415 / 100) ∧
    ¬ ((4269261 / 1048576 + 8538685 / 2097152 : ℚ) / 2 >
        (8496579 / 2097152 + 4248371 / 1048576) / 2 + 2 / 100) ∧
    (classifierUpdates envTicking
      [8496579 / 2097152, 4248371 / 1048576, 8496579 / 2097152, 4269261 / 1048576,
        8538685 / 2097152] World.boot).isCharging = true := by
  refine ⟨by decide!, by decide!, by decide!, by decide!, by decide!, ?_, by decide!,
    by norm_num, by norm_num, by decide!⟩
  exact allEffective_of_gaps envTicking envTicking_gaps _ World.boot (by decide)

/-- Claim C13 as amended: an effective classifier update stores the committed
voltage `v` in the ring buffer at the write index and, with `h` the buffer
after that, leaves the charging flag true if `v > 4.15`; otherwise true if
`v > 4.05` and the trend is rising; otherwise false if `v < 3.9`; otherwise as
it was.  The trend is rising when the float average of `h[3]` and `h[4]`
exceeds, in double, the float average of `h[0]` and `h[1]` plus the double
0.02, each average being the float sum halved. -/
theorem updateChargingStatus_priority (env : Env) (w : World)
    (heff : ¬ sub32 (now env w) w.lastChargingUpdate < 2000) :
    (updateChargingStatus env w).voltageHistory =
      w.voltageHistory.set w.historyIndex w.batteryVoltage ∧
    (updateChargingStatus env w).isCharging =
      (if w.batteryVoltage > 415 / 100 then true
       else if w.batteryVoltage > 405 / 100 ∧
          floatAverage ((updateChargingStatus env w).voltageHistory.getD 3 0)
              ((updateChargingStatus env w).voltageHistory.getD 4 0) >
            roundDouble (floatAverage ((updateChargingStatus env w).voltageHistory.getD 0 0)
              ((updateChargingStatus env w).voltageHistory.getD 1 0) + roundDouble (2 / 100))
        then true
       else if w.batteryVoltage < 39 / 10 then false
       else w.isCharging) ∧
    (∀ a b : ℚ, floatAverage a b = roundFloat (roundDouble (roundFloat (a + b) / 2))) := by
  obtain ⟨e1, -, -, -, e5⟩ := updateChargingStatus_effective env w heff
  refine ⟨e1, ?_, fun _ _ => rfl⟩
  rw [e5, e1]
  simp only [voltageRising_iff]

/-- Witness of claim C13 as amended: 4.1 V committed into slot 2 of the buffer
3.8, 3.8, 0, 4.1, 4.1; the trend is rising (4.1 against 3.8) and the flag
becomes true. -/
theorem updateChargingStatus_priority_witness :
    (updateChargingStatus envTicking worldRising).voltageHistory
      = [38 / 10, 38 / 10, 41 / 10, 41 / 10, 41 / 10] ∧
    (updateChargingStatus envTicking worldRising).isCharging = true := by
  have h := updateChargingStatus_priority envTicking worldRising (by decide)
  have hb : (updateChargingStatus envTicking worldRising).voltageHistory
      = [38 / 10, 38 / 10, 41 / 10, 41 / 10, 41 / 10] := by
    rw [h.1]; rfl
  refine ⟨hb, ?_⟩
  rw [h.2.1, hb]
  decide!

/-- Claim C14: from a classifier state with the ring buffer all zero, the
write index at 0 and the flag false, when every update passes the 2000 ms
guard: after the committed voltages 4.0, 4.0, 4.0 the flag is still false,
after the fourth (4.2) and the fifth (4.2) it is true, the buffer then holds
4.0, 4.0, 4.0, 4.2, 4.2, and one further update with 3.85 makes the flag
false. -/
theorem classifier_charge_then_drop (env : Env) (w : World)
    (hflag : w.isCharging = false)
    (hbuf : w.voltageHistory = [0, 0, 0, 0, 0]) (hidx : w.historyIndex = 0)
    (heff : allEffective env [4, 4, 4, 42 / 10, 42 / 10, 385 / 100] w = true) :
    (classifierUpdates env [4, 4, 4] w).isCharging = false ∧
    (classifierUpdates env [4, 4, 4, 42 / 10] w).isCharging = true ∧
    (classifierUpdates env [4, 4, 4, 42 / 10, 42 / 10] w).isCharging = true ∧
    (classifierUpdates env [4, 4, 4, 42 / 10, 42 / 10] w).voltageHistory
      = [4, 4, 4, 42 / 10, 42 / 10] ∧
    (classifierUpdates env [4, 4, 4, 42 / 10, 42 / 10, 385 / 100] w).isCharging = false := by
  obtain ⟨g1, heff⟩ := (allEffective_cons env _ _ _).1 heff
  obtain ⟨w1, hw1, b1, i1, -, c1, -⟩ := classifier_step env 4 w g1
  rw [hw1] at heff
  obtain ⟨g2, heff⟩ := (allEffective_cons env _ _ _).1 heff
  obtain ⟨w2, hw2, b2, i2, -, c2, -⟩ := classifier_step env 4 w1 g2
  rw [hw2] at heff
  obtain ⟨g3, heff⟩ := (allEffective_cons env _ _ _).1 heff
  obtain ⟨w3, hw3, b3, i3, -, c3, -⟩ := classifier_step env 4 w2 g3
  rw [hw3] at heff
  obtain ⟨g4, heff⟩ := (allEffective_cons env _ _ _).1 heff
  obtain ⟨w4, hw4, b4, i4, c4, -, -⟩ := classifier_step env (42 / 10) w3 g4
  rw [hw4] at heff
  obtain ⟨g5, heff⟩ := (allEffective_cons env _ _ _).1 heff
  obtain ⟨w5, hw5, b5, i5, c5, -, -⟩ := classifier_step env (42 / 10) w4 g5
  rw [hw5] at heff
  obtain ⟨g6, -⟩ := (allEffective_cons env _ _ _).1 heff
  obtain ⟨w6, hw6, -, -, -, -, c6⟩ := classifier_step env (385 / 100) w5 g6
  simp only [classifierUpdates_cons, classifierUpdates_nil, hw1, hw2, hw3, hw4, hw5, hw6]
  have f1 := c1 (by norm_num) (by norm_num)
  have f2 := c2 (by norm_num) (by norm_num)
  have f3 := c3 (by norm_num) (by norm_num)
  refine ⟨by rw [f3, f2, f1, hflag], c4 (by norm_num), c5 (by norm_num), ?_,
    c6 (by norm_num)⟩
  rw [hbuf, hidx] at b1
  rw [hidx] at i1
  rw [b1, i1] at b2
  rw [i1] at i2
  rw [b2, i2] at b3
  rw [i2] at i3
  rw [b3, i3] at b4
  rw [i3] at i4
  rw [b4, i4] at b5
  rw [b5]
  rfl

/-- Witness of claim C14: the boot state with a clock that advances 10 s per
read, so that every classifier update is effective. -/
theorem classifier_charge_then_drop_witness :
    (classifierUpdates envTicking [4, 4, 4] World.boot).isCharging = false ∧
    (classifierUpdates envTicking [4, 4, 4, 42 / 10] World.boot).isCharging = true ∧
    (classifierUpdates envTicking [4, 4, 4, 42 / 10, 42 / 10] World.boot).isCharging = true ∧
    (classifierUpdates envTicking [4, 4, 4, 42 / 10, 42 / 10] World.boot).voltageHistory
      = [4, 4, 4, 42 / 10, 42 / 10] ∧
    (classifierUpdates envTicking [4, 4, 4, 42 / 10, 42 / 10, 385 / 100] World.boot).isCharging
      = false :=
  classifier_charge_then_drop envTicking World.boot rfl rfl rfl
    (allEffective_of_gaps envTicking envTicking_gaps _ World.boot (by decide))

/-- Claim C15: for every classifier state and every committed voltage `v` with
`3.9 ≤ v ≤ 4.05`, a classifier update (effective or skipped by the guard)
leaves `isCharging` as it was; hence every sequence of committed voltages
inside that band, and every sequence of voltages 3.95 and 4.0 in particular,
leaves the flag as it was. -/
theorem updateChargingStatus_hysteresis (env : Env) (w : World) :
    (39 / 10 ≤ w.batteryVoltage → w.batteryVoltage ≤ 405 / 100 →
      (updateChargingStatus env w).isCharging = w.isCharging) ∧
    (∀ vs : List ℚ, (∀ v ∈ vs, 39 / 10 ≤ v ∧ v ≤ 405 / 100) →
      (classifierUpdates env vs w).isCharging = w.isCharging) ∧
    (∀ vs : List ℚ, (∀ v ∈ vs, v = 395 / 100 ∨ v = 4) →
      (classifierUpdates env vs w).isCharging = w.isCharging) := by
  refine ⟨updateChargingStatus_hold env w, fun vs h => classifierUpdates_hold env vs w h, ?_⟩
  intro vs h
  apply classifierUpdates_hold
  intro v hv
  rcases h v hv with rfl | rfl <;> constructor <;> norm_num

/-- Claim C16: at the end of every effective tick of `updateBatteryManager`,
from any state (an alert pending or not, initialised or not), the low-battery
flag equals `not isCharging and batteryPercentage < 15.0` on the final state;
so it is false whenever the final state is charging, and
`checkBatteryWarnings` on a charging state with 5 % leaves it false. -/
theorem updateBatteryManager_low_battery_flag (env : Env) (w : World)
    (heff : ¬ sub32 (now env w) w.lastBatteryUpdate < BATTERY_UPDATE_MS) :
    (updateBatteryManager env w).lowBatteryWarning =
      (!(updateBatteryManager env w).isCharging &&
        decide ((updateBatteryManager env w).batteryPercentage < 15)) ∧
    ((updateBatteryManager env w).isCharging = true →
      (updateBatteryManager env w).lowBatteryWarning = false) ∧
    (checkBatteryWarnings worldChargingLow).lowBatteryWarning = false := by
  obtain ⟨w1, hw1⟩ := updateBatteryManager_effective_eq env w heff
  obtain ⟨f1, f2, f3⟩ := checkBatteryWarnings_flag (updateChargingStatus env w1)
  have e1 : (updateBatteryManager env w).lowBatteryWarning =
      (checkBatteryWarnings (updateChargingStatus env w1)).lowBatteryWarning := by
    rw [hw1]; rfl
  have e2 : (updateBatteryManager env w).isCharging =
      (checkBatteryWarnings (updateChargingStatus env w1)).isCharging := by
    rw [hw1]; rfl
  have e3 : (updateBatteryManager env w).batteryPercentage =
      (checkBatteryWarnings (updateChargingStatus env w1)).batteryPercentage := by
    rw [hw1]; rfl
  have key : (updateBatteryManager env w).lowBatteryWarning =
      (!(updateBatteryManager env w).isCharging &&
        decide ((updateBatteryManager env w).batteryPercentage < 15)) := by
    rw [e1, e2, e3, f1, f2, f3]
  refine ⟨key, ?_, ?_⟩
  · intro hc
    rw [key, hc]
    simp
  · rw [(checkBatteryWarnings_flag worldChargingLow).1]
    simp [worldChargingLow]

/-- Witness of claim C16: an effective tick of the initialised manager with an
alert pending, in which the alert is serviced. -/
theorem updateBatteryManager_low_battery_flag_witness :
    (updateBatteryManager envLateLow worldAlertPending).lowBatteryWarning =
      (!(updateBatteryManager envLateLow worldAlertPending).isCharging &&
        decide ((updateBatteryManager envLateLow worldAlertPending).batteryPercentage < 15)) :=
  (updateBatteryManager_low_battery_flag envLateLow worldAlertPending (by decide)).1

/-- Claim C17: while not charging, an evaluation of `checkBatteryWarnings`
invokes the low-battery warning handler if and only if the committed
percentage is below 15.0 and the low-battery flag was false on entry;
otherwise the trace is unchanged.  Over the percentage sequence
16, 14, 14, 14, 16, 14 the handler has been invoked 0, 1, 1, 1, 1, 2 times
after the successive evaluations: exactly twice, at the second and at the
sixth. -/
theorem checkBatteryWarnings_one_shot (w : World) (hc : w.isCharging = false) :
    ((checkBatteryWarnings w).trace = w.trace ++ [Event.lowBatteryWarningHandler] ↔
      w.batteryPercentage < 15 ∧ w.lowBatteryWarning = false) ∧
    (¬ (w.batteryPercentage < 15 ∧ w.lowBatteryWarning = false) →
      (checkBatteryWarnings w).trace = w.trace) ∧
    handlerCalls (warningEvaluations [16] w) = handlerCalls w ∧
    handlerCalls (warningEvaluations [16, 14] w) = handlerCalls w + 1 ∧
    handlerCalls (warningEvaluations [16, 14, 14] w) = handlerCalls w + 1 ∧
    handlerCalls (warningEvaluations [16, 14, 14, 14] w) = handlerCalls w + 1 ∧
    handlerCalls (warningEvaluations [16, 14, 14, 14, 16] w) = handlerCalls w + 1 ∧
    handlerCalls (warningEvaluations [16, 14, 14, 14, 16, 14] w) = handlerCalls w + 2 := by
  obtain ⟨-, -, ht, -⟩ := checkBatteryWarnings_not_charging w hc
  refine ⟨?_, ?_, ?_⟩
  · rw [ht]
    by_cases h : w.batteryPercentage < 15 ∧ w.lowBatteryWarning = false
    · simp [h]
    · simp [h]
  · intro h
    rw [ht, if_neg h]
  · obtain ⟨w1, hw1, c1, f1, n1⟩ := warning_step 16 w hc
    obtain ⟨w2, hw2, c2, f2, n2⟩ := warning_step 14 w1 c1
    obtain ⟨w3, hw3, c3, f3, n3⟩ := warning_step 14 w2 c2
    obtain ⟨w4, hw4, c4, f4, n4⟩ := warning_step 14 w3 c3
    obtain ⟨w5, hw5, c5, f5, n5⟩ := warning_step 16 w4 c4
    obtain ⟨w6, hw6, c6, f6, n6⟩ := warning_step 14 w5 c5
    simp only [warningEvaluations_cons, warningEvaluations_nil, hw1, hw2, hw3, hw4, hw5, hw6]
    rw [f5] at n6
    rw [f4] at n5
    rw [f3] at n4
    rw [f2] at n3
    rw [f1] at n2
    norm_num at n1 n2 n3 n4 n5 n6
    refine ⟨?_, ?_, ?_, ?_, ?_, ?_⟩ <;> omega

/-- Witness of claim C17: from the boot state (not charging, empty trace) the
six evaluations invoke the handler twice, the first time at the second
evaluation. -/
theorem checkBatteryWarnings_one_shot_witness :
    handlerCalls (warningEvaluations [16] World.boot) = 0 ∧
    handlerCalls (warningEvaluations [16, 14] World.boot) = 1 ∧
    handlerCalls (warningEvaluations [16, 14, 14, 14, 16] World.boot) = 1 ∧
    handlerCalls (warningEvaluations [16, 14, 14, 14, 16, 14] World.boot) = 2 :=
  have h := checkBatteryWarnings_one_shot World.boot rfl
  ⟨h.2.2.1, h.2.2.2.1, h.2.2.2.2.2.2.1, h.2.2.2.2.2.2.2⟩

/-- Claim C18: servicing an alert is exactly a read of the status register
0x1A, the flag decision on the fetched word, and a second read of 0x1A: it
makes between 2 and 6 bus attempts, every bus event it adds belongs to a read
of 0x1A, and the low-battery flag becomes true if bit 0x0010 of the fetched
word is set and stays as it was otherwise, the committed percentage playing
no part and staying unchanged.  Toggling bit 0x0020 of the fetched word
changes nothing.  `updateFuelGauge` services a pending alert after its two
readings, and the pending-alert flag is false when its read phase and when
the function itself return. -/
theorem handleFuelGaugeAlert_service (env : Env) (w : World) :
    handleFuelGaugeAlert env w =
      (readFuelGaugeRegister env 0x1A
        (applyAlertFlags (readFuelGaugeRegister env 0x1A w).1
          (readFuelGaugeRegister env 0x1A w).2)).2 ∧
    w.busAttempts + 2 ≤ (handleFuelGaugeAlert env w).busAttempts ∧
    (handleFuelGaugeAlert env w).busAttempts ≤ w.busAttempts + 6 ∧
    (∃ evs : List Event, (handleFuelGaugeAlert env w).trace = w.trace ++ evs ∧
      ∀ e ∈ evs, e = Event.i2cSelect 0x1A ∨ e = Event.i2cRequest ∨ ∃ ms, e = Event.delay ms) ∧
    (handleFuelGaugeAlert env w).lowBatteryWarning =
      (if (readFuelGaugeRegister env 0x1A w).1 &&& 0x0010 ≠ 0 then true
        else w.lowBatteryWarning) ∧
    (handleFuelGaugeAlert env w).batteryPercentage = w.batteryPercentage ∧
    (∀ (flags : Nat) (u : World),
      applyAlertFlags (flags ^^^ 0x0020) u = applyAlertFlags flags u) ∧
    (w.fuelGaugeAlertFlag = true →
      (readPhase env w).2.2 =
        { handleFuelGaugeAlert env
            (readFuelGaugeRegister env 0x02 (readFuelGaugeRegister env 0x04 w).2).2 with
          fuelGaugeAlertFlag := false }) ∧
    (readPhase env w).2.2.fuelGaugeAlertFlag = false ∧
    (updateFuelGauge env w).fuelGaugeAlertFlag = false := by
  obtain ⟨f1, f2, f3, f4, -⟩ := handleFuelGaugeAlert_fields env w
  obtain ⟨r1, r2, -⟩ := readPhase_alert env w
  refine ⟨rfl, f1, f2, f3, f4, (handleFuelGaugeAlert_frame env w).batteryPercentage, ?_, r2, r1, ?_⟩
  · intro flags u
    simp only [applyAlertFlags, and_xor_bit5]
  · simp only [updateFuelGauge]
    rw [(applyReading_kept env _ _ _).2.2, r1]

/-- Counterexample to claim C19: the boot state is uninitialised and has an
alert pending; the tick at uptime 40 s is effective, makes no bus attempt
(the status register is not read) and returns with the alert still
pending. -/
theorem alert_not_serviced_when_uninitialized :
    worldAlertUninitialized.fuelGaugeAlertFlag = true ∧
    worldAlertUninitialized.fuelGaugeInitialized = false ∧
    ¬ sub32 (now envHealthy worldAlertUninitialized) worldAlertUninitialized.lastBatteryUpdate
      < BATTERY_UPDATE_MS ∧
    (updateBatteryManager envHealthy worldAlertUninitialized).busAttempts = 0 ∧
    (updateBatteryManager envHealthy worldAlertUninitialized).fuelGaugeAlertFlag = true := by
  have heff : ¬ sub32 (now envHealthy worldAlertUninitialized)
      worldAlertUninitialized.lastBatteryUpdate < BATTERY_UPDATE_MS := by decide
  obtain ⟨h1, -, -, -, -, -, h7⟩ :=
    updateBatteryManager_uninit envHealthy worldAlertUninitialized rfl heff
  exact ⟨rfl, rfl, heff, h1, h7⟩

/-- Claim C19 as amended: in an effective tick of `updateBatteryManager` that
starts with the alert flag pending, if the fuel gauge is initialised the alert
is serviced during the tick (after the SOC and the voltage read, so that at
least four bus attempts are made) and the pending-alert flag is false when
the tick returns; if the fuel gauge is not initialised the tick makes no bus
attempt and the flag is still pending when it returns. -/
theorem alert_serviced_when_initialized (env : Env) (w : World)
    (halert : w.fuelGaugeAlertFlag = true)
    (heff : ¬ sub32 (now env w) w.lastBatteryUpdate < BATTERY_UPDATE_MS) :
    (w.fuelGaugeInitialized = true →
      (readPhase env (tick w)).2.2 =
        { handleFuelGaugeAlert env
            (readFuelGaugeRegister env 0x02 (readFuelGaugeRegister env 0x04 (tick w)).2).2 with
          fuelGaugeAlertFlag := false } ∧
      w.busAttempts + 4 ≤ (updateBatteryManager env w).busAttempts ∧
      (updateBatteryManager env w).fuelGaugeAlertFlag = false) ∧
    (w.fuelGaugeInitialized = false →
      (updateBatteryManager env w).busAttempts = w.busAttempts ∧
      (updateBatteryManager env w).fuelGaugeAlertFlag = true) := by
  constructor
  · intro hinit
    obtain ⟨t1, -, -, t4, -⟩ := updateBatteryManager_initialized env w hinit heff
    obtain ⟨r1, r2, -⟩ := readPhase_alert env (tick w)
    have hserv := r2 halert
    refine ⟨hserv, ?_, ?_⟩
    · rw [t1]
      simp only [updateFuelGauge]
      rw [(applyReading_kept env _ _ _).1, hserv]
      obtain ⟨a1, -, -⟩ := readFuelGaugeRegister_attempts env 0x04 (tick w)
      obtain ⟨a2, -, -⟩ := readFuelGaugeRegister_attempts env 0x02
        (readFuelGaugeRegister env 0x04 (tick w)).2
      obtain ⟨a3, -, -⟩ := handleFuelGaugeAlert_fields env
        (readFuelGaugeRegister env 0x02 (readFuelGaugeRegister env 0x04 (tick w)).2).2
      have a0 : (tick w).busAttempts = w.busAttempts := rfl
      show w.busAttempts + 4 ≤ (handleFuelGaugeAlert env
        (readFuelGaugeRegister env 0x02 (readFuelGaugeRegister env 0x04 (tick w)).2).2).busAttempts
      omega
    · rw [t4]
      simp only [updateFuelGauge]
      rw [(applyReading_kept env _ _ _).2.2, r1]
  · intro hinit
    obtain ⟨h1, -, -, -, -, -, h7⟩ := updateBatteryManager_uninit env w hinit heff
    exact ⟨h1, h7.trans halert⟩

/-- Witness of claim C19 as amended: the initialised boot state with an alert
pending, at uptime 40 s; the tick makes at least four bus attempts and
returns with no alert pending. -/
theorem alert_serviced_when_initialized_witness :
    worldAlertPending.busAttempts + 4
      ≤ (updateBatteryManager envHealthy worldAlertPending).busAttempts ∧
    (updateBatteryManager envHealthy worldAlertPending).fuelGaugeAlertFlag = false :=
  have h := (alert_serviced_when_initialized envHealthy worldAlertPending rfl (by decide)).1 rfl
  ⟨h.2.1, h.2.2⟩

/-- Claim C20: for every ADC code `c`, `updateBatteryVoltageADC` takes one ADC
sample and commits the voltage `V = (c * 3.3 / 4095) / 0.319` and the
percentage `clamp((V - 3.0) * 100 / (4.2 - 3.0), 0, 100)`; the percentage is
0 whenever `V ≤ 3.0`, 100 whenever `V ≥ 4.2`, and non-decreasing in `c`;
code 0 gives 0 % and code 4095 gives 100 %. -/
theorem updateBatteryVoltageADC_estimate (env : Env) (w : World) :
    (updateBatteryVoltageADC env w).batteryVoltage =
      ((env.adc w.adcReads : ℚ) * (33 / 10) / 4095) / (319 / 1000) ∧
    (updateBatteryVoltageADC env w).batteryPercentage =
      CLAMP (((updateBatteryVoltageADC env w).batteryVoltage - 3) * 100 / (42 / 10 - 3)) 0 100 ∧
    ((updateBatteryVoltageADC env w).batteryVoltage ≤ 3 →
      (updateBatteryVoltageADC env w).batteryPercentage = 0) ∧
    ((updateBatteryVoltageADC env w).batteryVoltage ≥ 42 / 10 →
      (updateBatteryVoltageADC env w).batteryPercentage = 100) ∧
    (∀ env2 : Env, ∀ w2 : World, env.adc w.adcReads ≤ env2.adc w2.adcReads →
      (updateBatteryVoltageADC env w).batteryPercentage ≤
        (updateBatteryVoltageADC env2 w2).batteryPercentage) ∧
    (updateBatteryVoltageADC env w).adcReads = w.adcReads + 1 ∧
    (updateBatteryVoltageADC env w).trace = w.trace ++ [Event.analogRead] ∧
    adcBatteryPercentage (adcBatteryVoltage 0) = 0 ∧
    adcBatteryPercentage (adcBatteryVoltage 4095) = 100 := by
  have hv : (updateBatteryVoltageADC env w).batteryVoltage = adcBatteryVoltage (env.adc w.adcReads) :=
    rfl
  have hp : (updateBatteryVoltageADC env w).batteryPercentage =
      adcBatteryPercentage (adcBatteryVoltage (env.adc w.adcReads)) := rfl
  refine ⟨?_, ?_, ?_, ?_, ?_, rfl, rfl, ?_, ?_⟩
  · rw [hv]
    simp only [adcBatteryVoltage, ADC_REFERENCE_VOLTAGE, ADC_RESOLUTION, VOLTAGE_DIVIDER_RATIO]
  · rw [hp, hv]
    simp only [adcBatteryPercentage, MAP_FLOAT, BATTERY_MIN_VOLTAGE, BATTERY_MAX_VOLTAGE]
    norm_num
  · rw [hp, hv]
    intro h
    simp only [adcBatteryPercentage, CLAMP, MAP_FLOAT, BATTERY_MIN_VOLTAGE, BATTERY_MAX_VOLTAGE]
    have e : (adcBatteryVoltage (env.adc w.adcReads) - 3) * (100 - 0) / (42 / 10 - 3) + 0 =
        (adcBatteryVoltage (env.adc w.adcReads) - 3) * (250 / 3) := by ring
    rw [e]
    have hle : (adcBatteryVoltage (env.adc w.adcReads) - 3) * (250 / 3) ≤ 0 :=
      mul_nonpos_of_nonpos_of_nonneg (by linarith) (by norm_num)
    split_ifs <;> linarith
  · rw [hp, hv]
    intro h
    simp only [adcBatteryPercentage, CLAMP, MAP_FLOAT, BATTERY_MIN_VOLTAGE, BATTERY_MAX_VOLTAGE]
    have e : (adcBatteryVoltage (env.adc w.adcReads) - 3) * (100 - 0) / (42 / 10 - 3) + 0 =
        (adcBatteryVoltage (env.adc w.adcReads) - 3) * (250 / 3) := by ring
    rw [e]
    have hge : (adcBatteryVoltage (env.adc w.adcReads) - 3) * (250 / 3) ≥ 100 := by
      have : (42 / 10 - 3 : ℚ) * (250 / 3) = 100 := by norm_num
      rw [← this]
      exact mul_le_mul_of_nonneg_right (by linarith) (by norm_num)
    split_ifs <;> linarith
  · intro env2 w2 h
    have hp2 : (updateBatteryVoltageADC env2 w2).batteryPercentage =
      adcBatteryPercentage (adcBatteryVoltage (env2.adc w2.adcReads)) := rfl
    rw [hp, hp2]
    exact adcBatteryPercentage_mono _ _ (adcBatteryVoltage_mono _ _ h)
  · simp [adcBatteryPercentage, adcBatteryVoltage, CLAMP, MAP_FLOAT, BATTERY_MIN_VOLTAGE,
      BATTERY_MAX_VOLTAGE, ADC_REFERENCE_VOLTAGE, ADC_RESOLUTION, VOLTAGE_DIVIDER_RATIO]
    norm_num
  · simp [adcBatteryPercentage, adcBatteryVoltage, CLAMP, MAP_FLOAT, BATTERY_MIN_VOLTAGE,
      BATTERY_MAX_VOLTAGE, ADC_REFERENCE_VOLTAGE, ADC_RESOLUTION, VOLTAGE_DIVIDER_RATIO]
    norm_num

/-! ## The conversions, the accessors and the register write -/

/-- A read whose first attempt delivers two bytes returns them big-endian. -/
theorem readFuelGaugeRegister_first_data (env : Env) (reg : Nat) (w : World)
    (polls b0 b1 : Nat) (h : env.bus w.busAttempts = Attempt.data polls b0 b1) :
    (readFuelGaugeRegister env reg w).1 = b0 % 256 * 256 + b1 % 256 := by
  obtain ⟨w0, hw0, hb, -, -⟩ := readFuelGaugeRegister_eq env reg w
  rw [hw0]
  rw [← hb] at h
  simp only [attemptLoop, h]
  exact bytes_big_endian b0 b1

/-- In the scenario `envWord` every read returns the word made of the two
bytes. -/
theorem readFuelGaugeRegister_envWord (b0 b1 reg : Nat) (w : World) :
    (readFuelGaugeRegister (envWord b0 b1) reg w).1 = b0 % 256 * 256 + b1 % 256 :=
  readFuelGaugeRegister_first_data (envWord b0 b1) reg w 0 b0 b1 rfl

/-- The percentage `readFuelGaugeSOC` returns, ordered by the register word
when the larger word is not the sentinel. -/
theorem readFuelGaugeSOC_mono (env1 env2 : Env) (w1 w2 : World)
    (hle : (readFuelGaugeRegister env1 0x04 w1).1 ≤ (readFuelGaugeRegister env2 0x04 w2).1)
    (hne : (readFuelGaugeRegister env2 0x04 w2).1 ≠ 0xFFFF) :
    (readFuelGaugeSOC env1 w1).1 ≤ (readFuelGaugeSOC env2 w2).1 := by
  simp only [readFuelGaugeSOC, if_neg hne]
  have hq : ((readFuelGaugeRegister env1 0x04 w1).1 : ℚ) ≤ (readFuelGaugeRegister env2 0x04 w2).1 := by
    exact_mod_cast hle
  have h0 : (0 : ℚ) ≤ ((readFuelGaugeRegister env2 0x04 w2).1 : ℚ) := by positivity
  split_ifs
  · linarith
  · linarith

/-- The voltage `readFuelGaugeVoltage` returns, ordered by the register word
when the larger word is not the sentinel. -/
theorem readFuelGaugeVoltage_mono (env1 env2 : Env) (w1 w2 : World)
    (hle : (readFuelGaugeRegister env1 0x02 w1).1 ≤ (readFuelGaugeRegister env2 0x02 w2).1)
    (hne : (readFuelGaugeRegister env2 0x02 w2).1 ≠ 0xFFFF) :
    (readFuelGaugeVoltage env1 w1).1 ≤ (readFuelGaugeVoltage env2 w2).1 := by
  simp only [readFuelGaugeVoltage, if_neg hne]
  have hq : ((readFuelGaugeRegister env1 0x02 w1).1 : ℚ) ≤ (readFuelGaugeRegister env2 0x02 w2).1 := by
    exact_mod_cast hle
  have h0 : (0 : ℚ) ≤ ((readFuelGaugeRegister env2 0x02 w2).1 : ℚ) := by positivity
  split_ifs
  · linarith
  · linarith

/-- The bytes of the configuration word `0x9700 | m` for a 5-bit field `m`. -/
theorem config_word_bytes :
    ∀ m : Nat, m < 32 →
      ((0x9700 ||| m) >>> 8) &&& 0xFF = 0x97 ∧ (0x9700 ||| m) &&& 0xFF = m ∧
      0x9700 ||| m = 0x9700 + m := by
  decide

/-- Masking with 0x1F keeps the value modulo 32. -/
theorem and_mask5 (t : Nat) : t &&& 0x1F = t % 32 :=
  Nat.and_pow_two_sub_one_eq_mod t 5

/-- The write `setLowBatteryThreshold` issues, for every percentage of the
range the cast is defined on. -/
theorem setLowBatteryThreshold_eq (p : ℚ) (w : World) (hp : p ≤ 100) :
    setLowBatteryThreshold p w =
      { w with trace := w.trace ++ [Event.i2cWrite 0x0C 0x97 ((⌊p * 256 / 100⌋).toNat % 32)] } := by
  have hlt : (⌊p * 256 / 100⌋).toNat < 65536 := by
    have h1 : ⌊p * 256 / 100⌋ ≤ 256 := by
      have hf := Int.floor_le (p * 256 / 100)
      have hq : ((⌊p * 256 / 100⌋ : ℤ) : ℚ) ≤ ((256 : ℤ) : ℚ) := by
        push_cast; linarith
      exact_mod_cast hq
    omega
  have hm : (⌊p * 256 / 100⌋).toNat % 32 < 32 := Nat.mod_lt _ (by norm_num)
  obtain ⟨c1, c2, -⟩ := config_word_bytes _ hm
  simp only [setLowBatteryThreshold, writeFuelGaugeRegister, Nat.mod_eq_of_lt hlt, and_mask5,
    c1, c2]

/-! ## Spacing, recovery and the invalid-reading count -/

/-- Servicing an alert never sets the initialised flag. -/
theorem handleFuelGaugeAlert_uninit (env : Env) (w : World)
    (h : w.fuelGaugeInitialized = false) :
    (handleFuelGaugeAlert env w).fuelGaugeInitialized = false := by
  rw [handleFuelGaugeAlert_eq]
  apply (readFuelGaugeRegister_kept env 0x1A _).2.2.1
  rw [(applyAlertFlags_kept _ _).2.2.2.1]
  exact (readFuelGaugeRegister_kept env 0x1A w).2.2.1 h

/-- The read phase never sets the initialised flag. -/
theorem readPhase_uninit (env : Env) (w : World) (h : w.fuelGaugeInitialized = false) :
    (readPhase env w).2.2.fuelGaugeInitialized = false := by
  have h2 : (readFuelGaugeRegister env 0x02 (readFuelGaugeRegister env 0x04 w).2).2.fuelGaugeInitialized
      = false :=
    (readFuelGaugeRegister_kept env 0x02 _).2.2.1
      ((readFuelGaugeRegister_kept env 0x04 w).2.2.1 h)
  simp only [readPhase, readFuelGaugeSOC, readFuelGaugeVoltage]
  split
  · exact handleFuelGaugeAlert_uninit env _ h2
  · exact h2

/-- The accept branch and the recovery: the flag is set only while the
recovery message has not been shown. -/
theorem applyReading_recovery (env : Env) (p v : ℚ) (w : World)
    (h : isValidReading (now env w) p v = true) :
    (applyReading env p v w).fuelGaugeInitialized =
      (w.fuelGaugeInitialized || !w.recoveryMessageShown) ∧
    (applyReading env p v w).recoveryMessageShown =
      (w.recoveryMessageShown || !w.fuelGaugeInitialized) := by
  simp only [applyReading, h, if_true, tick]
  cases hi : w.fuelGaugeInitialized <;> cases hs : w.recoveryMessageShown <;> simp [hi, hs]

/-- The retry loop makes at most as many attempts as iterations remain, and
every sleep it makes lasts 1, 25 or 50 ms. -/
theorem attemptLoop_sleeps (env : Env) (reg : Nat) :
    ∀ (n a : Nat) (w : World),
      (attemptLoop env reg n a w).2.busAttempts ≤ w.busAttempts + n ∧
      (∃ evs : List Event, (attemptLoop env reg n a w).2.trace = w.trace ++ evs ∧
        ∀ ms, Event.delay ms ∈ evs → ms = 1 ∨ ms = 25 ∨ ms = 50) := by
  intro n
  induction n with
  | zero =>
    intro a w
    refine ⟨?_, [], ?_, ?_⟩
    · simp [attemptLoop, tick]
    · simp [attemptLoop, tick]
    · intro ms he; cases he
  | succ n ih =>
    intro a w
    simp only [attemptLoop]
    split
    · split
      · refine ⟨?_, [Event.i2cSelect reg], ?_, ?_⟩
        · split_ifs <;> simp [tick]
        · split_ifs <;> rfl
        · intro ms he; simp at he
      · obtain ⟨h1, evs, h4, h5⟩ := ih (a + 1)
          (delay 50 { w with busAttempts := w.busAttempts + 1,
                             trace := w.trace ++ [Event.i2cSelect reg],
                             consecutiveErrors := w.consecutiveErrors + 1 })
        refine ⟨?_, Event.i2cSelect reg :: Event.delay 50 :: evs, ?_, ?_⟩
        · have hb : _ ≤ w.busAttempts + 1 + n := h1
          omega
        · rw [h4]; simp [delay]
        · intro ms he
          simp only [List.mem_cons] at he
          rcases he with he | he | he
          · cases he
          · cases he; right; right; rfl
          · exact h5 ms he
    · rename_i polls b0 b1 hout
      refine ⟨?_,
        Event.i2cSelect reg :: Event.i2cRequest :: List.replicate polls (Event.delay 1), ?_, ?_⟩
      · simp [tick]
      · simp [tick]
      · intro ms he
        simp only [List.mem_cons, List.mem_replicate] at he
        rcases he with he | he | ⟨-, he⟩
        · cases he
        · cases he
        · cases he; left; rfl
    · rename_i polls hout
      obtain ⟨h1, evs, h4, h5⟩ := ih (a + 1)
        (delay 25 { w with busAttempts := w.busAttempts + 1,
                           trace := (w.trace ++ [Event.i2cSelect reg]) ++
                             Event.i2cRequest :: List.replicate polls (Event.delay 1) })
      refine ⟨?_, Event.i2cSelect reg :: Event.i2cRequest ::
        (List.replicate polls (Event.delay 1) ++ Event.delay 25 :: evs), ?_, ?_⟩
      · have hb : _ ≤ w.busAttempts + 1 + n := h1
        omega
      · rw [h4]; simp [delay]
      · intro ms he
        simp only [List.mem_cons, List.mem_append, List.mem_replicate] at he
        rcases he with he | he | ⟨-, he⟩ | he | he
        · cases he
        · cases he
        · cases he; left; rfl
        · cases he; right; left; rfl
        · exact h5 ms he

/-- The spacing code before the retry loop: whether it sleeps is decided by
the first clock read, how long by the second. -/
theorem readFuelGaugeRegister_spacing (env : Env) (reg : Nat) (w : World) :
    ∃ w0 : World, readFuelGaugeRegister env reg w = attemptLoop env reg 3 0 w0 ∧
      w0.busAttempts = w.busAttempts ∧
      w0.trace =
        (if sub32 (now env w) w.lastI2CAccess < 100
          then w.trace ++ [Event.delay (sub32 100 (sub32 (now env (tick w)) w.lastI2CAccess))]
          else w.trace) := by
  refine ⟨_, rfl, ?_, ?_⟩
  · split_ifs <;> simp [tick, delay]
  · simp only [delay, tick, now]
    split_ifs <;> rfl

/-- The 32-bit difference `100 - e` for an elapsed time `e`: the remainder up
to 100 when `e` is at most 100, and a wrapped value above 100 otherwise. -/
theorem sub32_remainder (e : Nat) (he : e < 4294967296) :
    (e ≤ 100 → sub32 100 e = 100 - e ∧ sub32 100 e ≤ 100 ∧ e + sub32 100 e = 100) ∧
    (100 < e → sub32 100 e = 4294967396 - e ∧ 100 < sub32 100 e) := by
  simp only [sub32]
  constructor
  · intro h; omega
  · intro h; omega

/-- A 32-bit difference is below `2 ^ 32`. -/
theorem sub32_lt (a b : Nat) : sub32 a b < 4294967296 := by
  simp only [sub32]
  omega

/-- The events of the read phase are register selects, read requests and
sleeps. -/
theorem readPhase_trace (env : Env) (w : World) :
    ∃ evs : List Event, (readPhase env w).2.2.trace = w.trace ++ evs ∧
      ∀ e ∈ evs, (∃ reg, e = Event.i2cSelect reg) ∨ e = Event.i2cRequest ∨
        ∃ ms, e = Event.delay ms := by
  obtain ⟨-, -, -, evs1, t1, m1⟩ := readFuelGaugeRegister_kept env 0x04 w
  obtain ⟨-, -, -, evs2, t2, m2⟩ := readFuelGaugeRegister_kept env 0x02
    (readFuelGaugeRegister env 0x04 w).2
  have lift : ∀ (reg : Nat) (evs : List Event),
      (∀ e ∈ evs, e = Event.i2cSelect reg ∨ e = Event.i2cRequest ∨ ∃ ms, e = Event.delay ms) →
      ∀ e ∈ evs, (∃ r, e = Event.i2cSelect r) ∨ e = Event.i2cRequest ∨ ∃ ms, e = Event.delay ms := by
    intro reg evs h e he
    rcases h e he with h | h | h
    · exact Or.inl ⟨reg, h⟩
    · exact Or.inr (Or.inl h)
    · exact Or.inr (Or.inr h)
  simp only [readPhase, readFuelGaugeSOC, readFuelGaugeVoltage]
  split
  · obtain ⟨-, -, ⟨evs3, t3, m3⟩, -, -⟩ := handleFuelGaugeAlert_fields env
      (readFuelGaugeRegister env 0x02 (readFuelGaugeRegister env 0x04 w).2).2
    refine ⟨evs1 ++ evs2 ++ evs3, ?_, ?_⟩
    · show (handleFuelGaugeAlert env _).trace = _
      rw [t3, t2, t1]
      simp only [List.append_assoc]
    · intro e he
      rcases List.mem_append.1 he with he | he
      · rcases List.mem_append.1 he with he | he
        · exact lift _ _ m1 e he
        · exact lift _ _ m2 e he
      · exact lift _ _ m3 e he
  · refine ⟨evs1 ++ evs2, ?_, ?_⟩
    · rw [t2, t1, List.append_assoc]
    · intro e he
      rcases List.mem_append.1 he with he | he
      · exact lift _ _ m1 e he
      · exact lift _ _ m2 e he

/-- The only event `applyReading` can add is the ADC sample of the fallback;
it leaves the low-battery flag and the charging flag alone. -/
theorem applyReading_trace (env : Env) (p v : ℚ) (w : World) :
    ((applyReading env p v w).trace = w.trace ∧ (applyReading env p v w).adcReads = w.adcReads ∨
      (applyReading env p v w).trace = w.trace ++ [Event.analogRead] ∧
        (applyReading env p v w).adcReads = w.adcReads + 1) ∧
    (applyReading env p v w).lowBatteryWarning = w.lowBatteryWarning ∧
    (applyReading env p v w).isCharging = w.isCharging := by
  simp only [applyReading, tick, updateBatteryVoltageADC]
  split_ifs <;> simp

/-- No call of `updateFuelGauge` drives a pin or writes a register of the fuel
gauge. -/
theorem updateFuelGauge_trace (env : Env) (w : World) :
    ∃ evs : List Event, (updateFuelGauge env w).trace = w.trace ++ evs ∧
      (∀ e ∈ evs, e.isResetOrWrite = false) ∧
      ((updateFuelGauge env w).adcReads = w.adcReads → Event.analogRead ∉ evs) ∧
      Event.lowBatteryWarningHandler ∉ evs := by
  obtain ⟨evs, t, m⟩ := readPhase_trace env w
  have ha := (readPhase_frame env w).adcReads
  have hsafe : ∀ e ∈ evs, e.isResetOrWrite = false ∧ e ≠ Event.analogRead ∧
      e ≠ Event.lowBatteryWarningHandler := by
    intro e he
    rcases m e he with ⟨r, rfl⟩ | rfl | ⟨ms, rfl⟩ <;> simp [Event.isResetOrWrite]
  simp only [updateFuelGauge]
  rcases (applyReading_trace env (readPhase env w).1 (readPhase env w).2.1
    (readPhase env w).2.2).1 with ⟨h, -⟩ | ⟨h, hadc⟩
  · refine ⟨evs, by rw [h, t], fun e he => (hsafe e he).1, ?_, ?_⟩
    · intro _ hmem
      exact (hsafe _ hmem).2.1 rfl
    · intro hmem
      exact (hsafe _ hmem).2.2 rfl
  · refine ⟨evs ++ [Event.analogRead], by rw [h, t, List.append_assoc], ?_, ?_, ?_⟩
    · intro e he
      rcases List.mem_append.1 he with he | he
      · exact (hsafe e he).1
      · simp only [List.mem_singleton] at he
        subst he
        rfl
    · intro hsame
      rw [hadc, ha] at hsame
      omega
    · intro hmem
      rcases List.mem_append.1 hmem with he | he
      · exact (hsafe _ he).2.2 rfl
      · simp at he

/-- The classifier and the warnings leave the invalid-reading count alone. -/
theorem classifier_warnings_count (env : Env) (w : World) :
    (checkBatteryWarnings (updateChargingStatus env w)).invalidReadingCount
      = w.invalidReadingCount := by
  have h1 : ∀ u : World, (checkBatteryWarnings u).invalidReadingCount = u.invalidReadingCount := by
    intro u
    simp only [checkBatteryWarnings, handleLowBatteryWarning]
    split_ifs <;> rfl
  have h2 : (updateChargingStatus env w).invalidReadingCount = w.invalidReadingCount := by
    simp only [updateChargingStatus, tick]
    split_ifs <;> rfl
  rw [h1, h2]

/-- The invalid-reading count after `applyReading`. -/
theorem applyReading_count (env : Env) (p v : ℚ) (w : World) :
    (applyReading env p v w).invalidReadingCount ≤ 5 ∧
    (0 ≤ w.invalidReadingCount → 0 ≤ (applyReading env p v w).invalidReadingCount) := by
  simp only [applyReading, tick, updateBatteryVoltageADC]
  constructor
  · split_ifs
    all_goals try simp at *
    all_goals try omega
  · intro h0
    split_ifs
    all_goals try simp at *
    all_goals try omega

/-- The invalid-reading count after `updateFuelGauge`. -/
theorem updateFuelGauge_count (env : Env) (w : World) :
    (updateFuelGauge env w).invalidReadingCount ≤ 5 ∧
    (0 ≤ w.invalidReadingCount → 0 ≤ (updateFuelGauge env w).invalidReadingCount) := by
  obtain ⟨h1, h2⟩ := applyReading_count env (readPhase env w).1 (readPhase env w).2.1
    (readPhase env w).2.2
  rw [(readPhase_frame env w).invalidReadingCount] at h2
  exact ⟨h1, h2⟩

/-- The ADC estimator leaves the invalid-reading count alone. -/
theorem updateBatteryVoltageADC_count (env : Env) (w : World) :
    (updateBatteryVoltageADC env w).invalidReadingCount = w.invalidReadingCount := rfl

/-- The tick keeps the invalid-reading count within 0 and 5. -/
theorem updateBatteryManager_count (env : Env) (w : World)
    (hw : 0 ≤ w.invalidReadingCount ∧ w.invalidReadingCount ≤ 5) :
    0 ≤ (updateBatteryManager env w).invalidReadingCount ∧
      (updateBatteryManager env w).invalidReadingCount ≤ 5 := by
  have hf := updateFuelGauge_count env (tick w)
  have hf0 := hf.2 hw.1
  simp only [updateBatteryManager]
  split_ifs with h1 h2 h3 h4
  · exact hw
  all_goals
    simp only [tick, classifier_warnings_count]
  · exact ⟨hf0, hf.1⟩
  · exact ⟨hf0, hf.1⟩
  · exact hw
  · exact hw

/-- Every entry point keeps the invalid-reading count within 0 and 5. -/
theorem Call.run_count (env : Env) (c : Call) (w : World)
    (hw : 0 ≤ w.invalidReadingCount ∧ w.invalidReadingCount ≤ 5) :
    0 ≤ (c.run env w).invalidReadingCount ∧ (c.run env w).invalidReadingCount ≤ 5 := by
  cases c
  · exact updateBatteryManager_count env w hw
  · exact ⟨(updateFuelGauge_count env w).2 hw.1, (updateFuelGauge_count env w).1⟩
  · exact hw
  · exact hw

/-- Every sequence of calls keeps the invalid-reading count within 0 and 5. -/
theorem runCalls_count (env : Env) (cs : List Call) :
    ∀ w : World, (0 ≤ w.invalidReadingCount ∧ w.invalidReadingCount ≤ 5) →
      0 ≤ (runCalls env cs w).invalidReadingCount ∧
        (runCalls env cs w).invalidReadingCount ≤ 5 := by
  induction cs with
  | nil => intro w hw; exact hw
  | cons c cs ih =>
    intro w hw
    exact ih (c.run env w) (Call.run_count env c w hw)

/-- A call that rejects its reading without the startup diagnostic: the count
goes up by one, and on passing 5 the ADC is sampled once and the count reset. -/
theorem updateFuelGauge_plain_reject (env : Env) (w : World)
    (h : rejectsPlainly env w = true) :
    (w.invalidReadingCount + 1 ≤ 5 →
      (updateFuelGauge env w).invalidReadingCount = w.invalidReadingCount + 1 ∧
      (updateFuelGauge env w).adcReads = w.adcReads) ∧
    (w.invalidReadingCount + 1 > 5 →
      (updateFuelGauge env w).invalidReadingCount = 0 ∧
      (updateFuelGauge env w).adcReads = w.adcReads + 1) := by
  have f := readPhase_frame env w
  simp only [rejectsPlainly, Bool.and_eq_true, Bool.not_eq_true', decide_eq_false_iff_not] at h
  obtain ⟨hrej, hnd⟩ := h
  obtain ⟨-, -, -, r4, r5⟩ := applyReading_reject env _ _ _ hrej
  rw [f.invalidReadingCount] at r4 r5
  have hnd' : ¬ (now env (readPhase env w).2.2 < 30000 ∧ w.invalidReadingCount + 1 > 3 ∧
      (readPhase env w).1 < 5 ∧ (readPhase env w).2.1 > 3) := by
    rw [f.invalidReadingCount] at hnd; exact hnd
  simp only [updateFuelGauge]
  constructor
  · intro hc
    obtain ⟨a, -, -, d⟩ := r4 hnd' hc
    exact ⟨a, by rw [d, f.adcReads]⟩
  · intro hc
    obtain ⟨a, -, -, d⟩ := r5 hnd' hc
    exact ⟨a, by rw [d, f.adcReads]⟩

/-- Unfolding of `allRejectPlainly` on a successor. -/
theorem allRejectPlainly_succ (env : Env) (n : Nat) (w : World) :
    allRejectPlainly env (n + 1) w = true ↔
      rejectsPlainly env w = true ∧ allRejectPlainly env n (updateFuelGauge env w) = true := by
  simp [allRejectPlainly]

/-- A run of plainly rejected readings: the count advances modulo 6 and the
ADC is sampled once every time it wraps. -/
theorem updateFuelGaugeTimes_plain (env : Env) :
    ∀ (n c : Nat) (w : World), w.invalidReadingCount = (c : Int) → c ≤ 5 →
      allRejectPlainly env n w = true →
      (updateFuelGaugeTimes env n w).invalidReadingCount = (((c + n) % 6 : Nat) : Int) ∧
      (updateFuelGaugeTimes env n w).adcReads = w.adcReads + (c + n) / 6 := by
  intro n
  induction n with
  | zero =>
    intro c w hc h5 _
    simp only [updateFuelGaugeTimes, Nat.add_zero]
    have e1 : c % 6 = c := Nat.mod_eq_of_lt (by omega)
    have e2 : c / 6 = 0 := Nat.div_eq_of_lt (by omega)
    rw [e1, e2, hc]
    exact ⟨rfl, rfl⟩
  | succ n ih =>
    intro c w hc h5 hall
    obtain ⟨hr, hrest⟩ := (allRejectPlainly_succ env n w).1 hall
    obtain ⟨s1, s2⟩ := updateFuelGauge_plain_reject env w hr
    simp only [updateFuelGaugeTimes]
    by_cases h : c + 1 ≤ 5
    · obtain ⟨a, d⟩ := s1 (by rw [hc]; omega)
      obtain ⟨i1, i2⟩ := ih (c + 1) (updateFuelGauge env w) (by rw [a, hc]; push_cast; ring) h hrest
      rw [i1, i2, d]
      have e : c + 1 + n = c + (n + 1) := by omega
      rw [e]
      exact ⟨rfl, rfl⟩
    · have hc5 : c = 5 := by omega
      obtain ⟨a, d⟩ := s2 (by rw [hc]; omega)
      obtain ⟨i1, i2⟩ := ih 0 (updateFuelGauge env w) (by rw [a]; rfl) (by omega) hrest
      rw [i1, i2, d, hc5]
      constructor
      · congr 1
        omega
      · omega

/-! ## The ring buffer of the classifier and the alert before the warnings -/

/-- Claim C21, evaluated at the top of the range: the register word 0xFFFF is
not converted but answered with -1, so the returned percentage and voltage are
smaller for the word 65535 than for the word 65534. -/
theorem conversions_not_monotone_at_sentinel :
    (readFuelGaugeRegister (envWord 0xFF 0xFE) 0x04 World.boot).1 = 65534 ∧
    (readFuelGaugeRegister (envWord 0xFF 0xFF) 0x04 World.boot).1 = 65535 ∧
    (readFuelGaugeSOC (envWord 0xFF 0xFF) World.boot).1 = -1 ∧
    (readFuelGaugeSOC (envWord 0xFF 0xFE) World.boot).1 = 65534 / 256 ∧
    (readFuelGaugeSOC (envWord 0xFF 0xFF) World.boot).1 <
      (readFuelGaugeSOC (envWord 0xFF 0xFE) World.boot).1 ∧
    (readFuelGaugeVoltage (envWord 0xFF 0xFF) World.boot).1 <
      (readFuelGaugeVoltage (envWord 0xFF 0xFE) World.boot).1 := by
  have e1 : ∀ reg, (readFuelGaugeRegister (envWord 0xFF 0xFE) reg World.boot).1 = 65534 :=
    fun reg => readFuelGaugeRegister_envWord 0xFF 0xFE reg World.boot
  have e2 : ∀ reg, (readFuelGaugeRegister (envWord 0xFF 0xFF) reg World.boot).1 = 65535 :=
    fun reg => readFuelGaugeRegister_envWord 0xFF 0xFF reg World.boot
  refine ⟨e1 _, e2 _, ?_, ?_, ?_, ?_⟩
  · simp only [readFuelGaugeSOC, e2]; norm_num
  · simp only [readFuelGaugeSOC, e1]; norm_num
  · simp only [readFuelGaugeSOC, e1, e2]; norm_num
  · simp only [readFuelGaugeVoltage, e1, e2]; norm_num

/-- Claim C21 as amended: the percentage `readFuelGaugeSOC` returns is the
register word divided by 256 and the voltage `readFuelGaugeVoltage` returns is
the word times 78.125 / 1000000, for every word other than 0xFFFF; both are
non-decreasing in the word as long as the larger word is not 0xFFFF, the word
0xFFFF itself is answered with -1, and every 16-bit word can be read. -/
theorem conversions_monotone_below_sentinel (env1 env2 : Env) (w1 w2 : World)
    (hsoc : (readFuelGaugeRegister env1 0x04 w1).1 ≤ (readFuelGaugeRegister env2 0x04 w2).1)
    (hsocne : (readFuelGaugeRegister env2 0x04 w2).1 ≠ 0xFFFF)
    (hvolt : (readFuelGaugeRegister env1 0x02 w1).1 ≤ (readFuelGaugeRegister env2 0x02 w2).1)
    (hvoltne : (readFuelGaugeRegister env2 0x02 w2).1 ≠ 0xFFFF) :
    (readFuelGaugeSOC env1 w1).1 ≤ (readFuelGaugeSOC env2 w2).1 ∧
    (readFuelGaugeVoltage env1 w1).1 ≤ (readFuelGaugeVoltage env2 w2).1 ∧
    (readFuelGaugeSOC env2 w2).1 = ((readFuelGaugeRegister env2 0x04 w2).1 : ℚ) / 256 ∧
    (readFuelGaugeVoltage env2 w2).1 =
      ((readFuelGaugeRegister env2 0x02 w2).1 : ℚ) * (78125 / 1000) / 1000000 ∧
    (∀ (env : Env) (w : World), (readFuelGaugeRegister env 0x04 w).1 = 0xFFFF →
      (readFuelGaugeSOC env w).1 = -1) ∧
    (∀ (env : Env) (w : World), (readFuelGaugeRegister env 0x02 w).1 = 0xFFFF →
      (readFuelGaugeVoltage env w).1 = -1) ∧
    (∀ (b0 b1 reg : Nat) (w : World), b0 < 256 → b1 < 256 →
      (readFuelGaugeRegister (envWord b0 b1) reg w).1 = b0 * 256 + b1) := by
  refine ⟨readFuelGaugeSOC_mono env1 env2 w1 w2 hsoc hsocne,
    readFuelGaugeVoltage_mono env1 env2 w1 w2 hvolt hvoltne, ?_, ?_, ?_, ?_, ?_⟩
  · simp only [readFuelGaugeSOC, if_neg hsocne]
  · simp only [readFuelGaugeVoltage, if_neg hvoltne]
  · intro env w h
    simp only [readFuelGaugeSOC, h, if_true]
  · intro env w h
    simp only [readFuelGaugeVoltage, h, if_true]
  · intro b0 b1 reg w h0 h1
    rw [readFuelGaugeRegister_envWord, Nat.mod_eq_of_lt h0, Nat.mod_eq_of_lt h1]

/-- Witness of claim C21 as amended: the words 0x3200 and 0x6400 on the SOC
register (50 % and 100 %) and on the VCELL register. -/
theorem conversions_monotone_below_sentinel_witness :
    (readFuelGaugeSOC (envWord 0x32 0) World.boot).1 ≤
      (readFuelGaugeSOC (envWord 0x64 0) World.boot).1 ∧
    (readFuelGaugeVoltage (envWord 0x32 0) World.boot).1 ≤
      (readFuelGaugeVoltage (envWord 0x64 0) World.boot).1 ∧
    (readFuelGaugeSOC (envWord 0x64 0) World.boot).1 = 100 :=
  have e1 : ∀ reg, (readFuelGaugeRegister (envWord 0x32 0) reg World.boot).1 = 0x3200 :=
    fun reg => readFuelGaugeRegister_envWord 0x32 0 reg World.boot
  have e2 : ∀ reg, (readFuelGaugeRegister (envWord 0x64 0) reg World.boot).1 = 0x6400 :=
    fun reg => readFuelGaugeRegister_envWord 0x64 0 reg World.boot
  have h := conversions_monotone_below_sentinel (envWord 0x32 0) (envWord 0x64 0)
    World.boot World.boot (by rw [e1, e2]; decide) (by rw [e2]; decide)
    (by rw [e1, e2]; decide) (by rw [e2]; decide)
  ⟨h.1, h.2.1, by rw [h.2.2.1, e2]; norm_num⟩

/-- Claim C22, evaluated on the code: `readFuelGaugeRegister` sleeps before
its first bus operation exactly when the first clock read finds less than
100 ms elapsed, and the length of the sleep is the 32-bit difference
`100 - e2`, where `e2` is the elapsed time found by a second clock read.  When
`e2` is at most 100 the sleep is the remainder `100 - e2`; when the second
read finds more than 100 ms elapsed the difference wraps and the sleep is
`2 ^ 32 + 100 - e2` ms, which is more than 100.  From the boot state with the
clock reads 99 and then 101 the call sleeps 4294967295 ms.  Every other sleep
of the call lasts 1, 25 or 50 ms, and the call makes at most 3 attempts. -/
theorem readFuelGaugeRegister_spacing_sleep (env : Env) (reg : Nat) (w : World) :
    (∃ w0 : World, ∃ evs : List Event,
      readFuelGaugeRegister env reg w = attemptLoop env reg 3 0 w0 ∧
      w0.trace =
        (if sub32 (now env w) w.lastI2CAccess < 100
          then w.trace ++ [Event.delay (sub32 100 (sub32 (now env (tick w)) w.lastI2CAccess))]
          else w.trace) ∧
      (readFuelGaugeRegister env reg w).2.trace = w0.trace ++ evs ∧
      (∀ ms, Event.delay ms ∈ evs → ms = 1 ∨ ms = 25 ∨ ms = 50) ∧
      (readFuelGaugeRegister env reg w).2.busAttempts ≤ w.busAttempts + 3) ∧
    (sub32 (now env (tick w)) w.lastI2CAccess ≤ 100 →
      sub32 100 (sub32 (now env (tick w)) w.lastI2CAccess) ≤ 100 ∧
      sub32 (now env (tick w)) w.lastI2CAccess +
        sub32 100 (sub32 (now env (tick w)) w.lastI2CAccess) = 100) ∧
    (100 < sub32 (now env (tick w)) w.lastI2CAccess →
      100 < sub32 100 (sub32 (now env (tick w)) w.lastI2CAccess) ∧
      sub32 100 (sub32 (now env (tick w)) w.lastI2CAccess) =
        4294967396 - sub32 (now env (tick w)) w.lastI2CAccess) ∧
    sub32 (now envSlowSecondRead World.boot) World.boot.lastI2CAccess = 99 ∧
    sub32 (now envSlowSecondRead (tick World.boot)) World.boot.lastI2CAccess = 101 ∧
    (readFuelGaugeRegister envSlowSecondRead 0x04 World.boot).2.trace =
      [Event.delay 4294967295, Event.i2cSelect 0x04, Event.i2cRequest] := by
  obtain ⟨w0, hw0, hb, ht⟩ := readFuelGaugeRegister_spacing env reg w
  obtain ⟨h1, evs, h2, h3⟩ := attemptLoop_sleeps env reg 3 0 w0
  obtain ⟨r1, r2⟩ := sub32_remainder (sub32 (now env (tick w)) w.lastI2CAccess) (sub32_lt _ _)
  refine ⟨⟨w0, evs, hw0, ht, ?_, h3, ?_⟩, ?_, ?_, by decide, by decide, by decide⟩
  · rw [hw0]; exact h2
  · rw [hw0, ← hb]; exact h1
  · intro h; exact (r1 h).2
  · intro h; exact ⟨(r2 h).2, (r2 h).1⟩

/-- Claim C23: `isCriticalBattery` answers true exactly when the committed
voltage is below 2.8 V, whatever the charging flag and the low-battery flag
are, and each of the six accessors returns its field of the committed state
and leaves the state as it is. -/
theorem accessors_return_committed_state (w : World) (c l : Bool) :
    ((isCriticalBattery w).1 = true ↔ w.batteryVoltage < 28 / 10) ∧
    (isCriticalBattery { w with isCharging := c, lowBatteryWarning := l }).1 =
      (isCriticalBattery w).1 ∧
    getBatteryVoltage w = (w.batteryVoltage, w) ∧
    getBatteryPercentage w = (w.batteryPercentage, w) ∧
    getChargingStatus w = (w.isCharging, w) ∧
    isLowBattery w = (w.lowBatteryWarning, w) ∧
    (isCriticalBattery w).2 = w ∧
    isFuelGaugeWorking w = (w.fuelGaugeInitialized, w) ∧
    (isCriticalBattery { World.boot with batteryVoltage := 27 / 10, isCharging := true }).1
      = true ∧
    (isCriticalBattery { World.boot with batteryVoltage := 28 / 10,
                                         lowBatteryWarning := true }).1 = false := by
  refine ⟨?_, rfl, rfl, rfl, rfl, rfl, rfl, rfl, ?_, ?_⟩
  · simp [isCriticalBattery, BATTERY_EMERGENCY_VOLTAGE]
  · simp [isCriticalBattery, BATTERY_EMERGENCY_VOLTAGE, World.boot]
    norm_num
  · simp [isCriticalBattery, BATTERY_EMERGENCY_VOLTAGE, World.boot]

/-- Claim C24: with the bus token set, `updateGravity` returns the battery
state and the sensor state it was called with: no clock read, no sleep, no
accelerometer transaction, and the gravity vector, the filter state, the error
counter and the last-update timestamp are unchanged. -/
theorem updateGravity_skips_when_paused (env : Env) (senv : SensorEnv) (w : World)
    (s : SensorState) (hpause : w.pauseGyroscopeReads = true) :
    updateGravity env senv w s = (w, s) ∧
    (updateGravity env senv w s).2.gyroAttempts = s.gyroAttempts ∧
    (updateGravity env senv w s).1.clockReads = w.clockReads ∧
    (updateGravity env senv w s).1.trace = w.trace := by
  have h : updateGravity env senv w s = (w, s) := by
    simp only [updateGravity, hpause, if_true]
  rw [h]
  exact ⟨rfl, rfl, rfl, rfl⟩

/-- Witness of claim C24: after a register read that failed three times on the
transport the token is still set, and the poller skips; with the token clear,
at uptime 1 s, the call makes one accelerometer transaction and moves the gravity
vector. -/
theorem updateGravity_skips_when_paused_witness :
    (readFuelGaugeRegister envBusDown 0x04 worldInitialized).2.pauseGyroscopeReads = true ∧
    updateGravity envBusDown senvFlat
        (readFuelGaugeRegister envBusDown 0x04 worldInitialized).2 SensorState.boot
      = ((readFuelGaugeRegister envBusDown 0x04 worldInitialized).2, SensorState.boot) ∧
    (updateGravity envIdle senvFlat worldInitialized SensorState.boot).2.gyroAttempts = 1 ∧
    (updateGravity envIdle senvFlat worldInitialized SensorState.boot).2.gravityY = 8 / 10 :=
  have hp : (readFuelGaugeRegister envBusDown 0x04 worldInitialized).2.pauseGyroscopeReads
      = true := by decide
  ⟨hp, (updateGravity_skips_when_paused envBusDown senvFlat _ SensorState.boot hp).1,
    by decide,
    by
      simp [updateGravity, applySample, senvFlat, envIdle, worldInitialized, World.boot,
        SensorState.boot, now, tick, sub32, int16OfBytes, constrain]
      norm_num [abs_of_pos]⟩

/-- Claim C25, evaluated on the code: when `updateFuelGauge` starts with the
initialised flag false and accepts its reading, it commits the reading, and
it sets the flag exactly when the recovery message has not been shown before;
after a first recovery the message flag is set for good, so a later accepted
reading leaves the initialised flag false. -/
theorem updateFuelGauge_recovers_only_once (env : Env) (w : World)
    (hinit : w.fuelGaugeInitialized = false)
    (hacc : isValidReading (now env (readPhase env w).2.2) (readPhase env w).1
      (readPhase env w).2.1 = true) :
    (updateFuelGauge env w).fuelGaugeInitialized = !w.recoveryMessageShown ∧
    (updateFuelGauge env w).recoveryMessageShown = true ∧
    (updateFuelGauge env w).batteryPercentage = (readPhase env w).1 ∧
    (updateFuelGauge env w).batteryVoltage = (readPhase env w).2.1 ∧
    (updateFuelGauge env w).validReadingCount = w.validReadingCount + 1 := by
  have hi := readPhase_uninit env w hinit
  have hs := (readPhase_frame env w).recoveryMessageShown
  have hv := (readPhase_frame env w).validReadingCount
  obtain ⟨r1, r2⟩ := applyReading_recovery env _ _ _ hacc
  obtain ⟨a1, a2, -, a4, -⟩ := applyReading_accept env _ _ _ hacc
  simp only [updateFuelGauge]
  rw [r1, r2, a1, a2, a4, hi, hs, hv]
  simp

/-- Witness of claim C25: from the boot state the gauge answers, then the bus
fails twelve times, then the gauge answers again.  The first call recovers
(flag true); the third call ends with the flag false and the message flag
set; the fourth call accepts its reading (50 %, second valid reading) and
leaves the flag false. -/
theorem updateFuelGauge_recovers_only_once_witness :
    (updateFuelGauge envOutage World.boot).fuelGaugeInitialized = true ∧
    (updateFuelGaugeTimes envOutage 3 World.boot).fuelGaugeInitialized = false ∧
    (updateFuelGaugeTimes envOutage 3 World.boot).recoveryMessageShown = true ∧
    (updateFuelGauge envOutage (updateFuelGaugeTimes envOutage 3 World.boot)).validReadingCount
      = 2 ∧
    (updateFuelGauge envOutage (updateFuelGaugeTimes envOutage 3 World.boot)).batteryPercentage
      = 50 ∧
    (updateFuelGauge envOutage
      (updateFuelGaugeTimes envOutage 3 World.boot)).fuelGaugeInitialized = false :=
  have h1 : (updateFuelGauge envOutage World.boot).fuelGaugeInitialized = true := by decide!
  have h3 : (updateFuelGaugeTimes envOutage 3 World.boot).fuelGaugeInitialized = false := by
    decide!
  have hs : (updateFuelGaugeTimes envOutage 3 World.boot).recoveryMessageShown = true := by
    decide!
  have hv : (updateFuelGaugeTimes envOutage 3 World.boot).validReadingCount = 1 := by decide!
  have hacc : isValidReading
      (now envOutage (readPhase envOutage (updateFuelGaugeTimes envOutage 3 World.boot)).2.2)
      (readPhase envOutage (updateFuelGaugeTimes envOutage 3 World.boot)).1
      (readPhase envOutage (updateFuelGaugeTimes envOutage 3 World.boot)).2.1 = true := by
    decide!
  have hp : (readPhase envOutage (updateFuelGaugeTimes envOutage 3 World.boot)).1 = 50 := by
    decide!
  have h := updateFuelGauge_recovers_only_once envOutage
    (updateFuelGaugeTimes envOutage 3 World.boot) h3 hacc
  ⟨h1, h3, hs, by rw [h.2.2.2.2, hv]; rfl, by rw [h.2.2.1, hp], by rw [h.1, hs]; rfl⟩

/-- Claim C26: when `updateFuelGauge` validates during the startup window a
reading with percentage below 5 and voltage above 3.0 and the incremented
invalid-reading count exceeds 3, the reading is rejected, the count is reset
to 0, the committed voltage and percentage and the count of valid readings
are unchanged, no ADC sample is taken, and the events of the call contain no
ADC read, no pin write and no register write.  No call of `updateFuelGauge`
at all drives a pin or writes a register, whereas `resetFuelGaugeHardware`
would pulse the QST pin. -/
theorem updateFuelGauge_startup_diagnostic (env : Env) (w : World)
    (hstart : now env (readPhase env w).2.2 < 30000)
    (hp : (readPhase env w).1 < 5) (hv : (readPhase env w).2.1 > 3)
    (hcount : w.invalidReadingCount + 1 > 3) :
    isValidReading (now env (readPhase env w).2.2) (readPhase env w).1 (readPhase env w).2.1
      = false ∧
    (updateFuelGauge env w).invalidReadingCount = 0 ∧
    (updateFuelGauge env w).batteryVoltage = w.batteryVoltage ∧
    (updateFuelGauge env w).batteryPercentage = w.batteryPercentage ∧
    (updateFuelGauge env w).validReadingCount = w.validReadingCount ∧
    (updateFuelGauge env w).adcReads = w.adcReads ∧
    (∃ evs : List Event, (updateFuelGauge env w).trace = w.trace ++ evs ∧
      Event.analogRead ∉ evs ∧ ∀ e ∈ evs, e.isResetOrWrite = false) ∧
    (∀ (env1 : Env) (w1 : World), ∃ evs : List Event,
      (updateFuelGauge env1 w1).trace = w1.trace ++ evs ∧
      ∀ e ∈ evs, e.isResetOrWrite = false) ∧
    (resetFuelGaugeHardware w).trace = w.trace ++
      [Event.digitalWrite FUEL_GAUGE_QST_PIN false, Event.delay 10,
       Event.digitalWrite FUEL_GAUGE_QST_PIN true, Event.delay 100,
       Event.digitalWrite FUEL_GAUGE_QST_PIN false, Event.delay 200] := by
  have f := readPhase_frame env w
  have hrej : isValidReading (now env (readPhase env w).2.2) (readPhase env w).1
      (readPhase env w).2.1 = false := by
    by_contra hne
    have hvalid : isValidReading (now env (readPhase env w).2.2) (readPhase env w).1
        (readPhase env w).2.1 = true := by simpa using hne
    rcases (isValidReading_iff _ _ _).1 hvalid with ⟨-, h1, -⟩ | ⟨h1, -⟩
    · linarith
    · omega
  have hc : (readPhase env w).2.2.invalidReadingCount + 1 > 3 := by
    rw [f.invalidReadingCount]; exact hcount
  obtain ⟨r1, -, r3, -, -⟩ := applyReading_reject env _ _ _ hrej
  obtain ⟨d1, d2, d3, d4⟩ := r3 ⟨hstart, hc, hp, hv⟩
  have hadc : (updateFuelGauge env w).adcReads = w.adcReads := by
    simp only [updateFuelGauge]; rw [d4, f.adcReads]
  obtain ⟨evs, t, m, ma, -⟩ := updateFuelGauge_trace env w
  refine ⟨hrej, ?_, ?_, ?_, ?_, hadc, ⟨evs, t, ma hadc, m⟩, ?_, ?_⟩
  · simp only [updateFuelGauge]; exact d1
  · simp only [updateFuelGauge]; rw [d2, f.batteryVoltage]
  · simp only [updateFuelGauge]; rw [d3, f.batteryPercentage]
  · simp only [updateFuelGauge]; rw [r1, f.validReadingCount]
  · intro env1 w1
    obtain ⟨evs1, t1, m1, -, -⟩ := updateFuelGauge_trace env1 w1
    exact ⟨evs1, t1, m1⟩
  · simp [resetFuelGaugeHardware, delay]

/-- Witness of claim C26: uptime 10 s, the gauge reports 2 % at 3.7 V.  Three
calls raise the count to 3; the fourth takes the diagnostic, and the count is
0 again with the boot pair 3.7 V / 75 % still committed. -/
theorem updateFuelGauge_startup_diagnostic_witness :
    (updateFuelGaugeTimes envStartupEmpty 3 worldInitialized).invalidReadingCount = 3 ∧
    (updateFuelGauge envStartupEmpty
      (updateFuelGaugeTimes envStartupEmpty 3 worldInitialized)).invalidReadingCount = 0 ∧
    (updateFuelGauge envStartupEmpty
      (updateFuelGaugeTimes envStartupEmpty 3 worldInitialized)).batteryPercentage = 75 ∧
    (updateFuelGauge envStartupEmpty
      (updateFuelGaugeTimes envStartupEmpty 3 worldInitialized)).adcReads = 0 :=
  have h3 : (updateFuelGaugeTimes envStartupEmpty 3 worldInitialized).invalidReadingCount
      = 3 := by decide!
  have hq : (updateFuelGaugeTimes envStartupEmpty 3 worldInitialized).batteryPercentage
      = 75 := by decide!
  have ha : (updateFuelGaugeTimes envStartupEmpty 3 worldInitialized).adcReads = 0 := by
    decide!
  have h := updateFuelGauge_startup_diagnostic envStartupEmpty
    (updateFuelGaugeTimes envStartupEmpty 3 worldInitialized)
    (by decide) (by decide!) (by decide!) (by rw [h3]; decide)
  ⟨h3, h.2.1, by rw [h.2.2.2.1, hq], by rw [h.2.2.2.2.2.1, ha]⟩

/-- Claim C29: no call of `updateFuelGauge` returns with the invalid-reading
count above 5, and from a state with the count between 0 and 5 (the boot
state has 0) the count stays between 0 and 5 after `updateFuelGauge` and
after every sequence of calls of the entry points.  Over `n` calls in a row
that reject their reading without taking the startup diagnostic, started
with the count at `c`, the count ends at `(c + n) mod 6` and the ADC fallback
was sampled `(c + n) div 6` times: from 0, on every sixth rejected reading
and on no other. -/
theorem invalidReadingCount_within_five (env : Env) (w : World) (cs : List Call)
    (n c : Nat) (hc : w.invalidReadingCount = (c : Int)) (h5 : c ≤ 5) :
    (∀ (env1 : Env) (w1 : World), (updateFuelGauge env1 w1).invalidReadingCount ≤ 5) ∧
    (0 ≤ (updateFuelGauge env w).invalidReadingCount ∧
      (updateFuelGauge env w).invalidReadingCount ≤ 5) ∧
    (0 ≤ (runCalls env cs w).invalidReadingCount ∧
      (runCalls env cs w).invalidReadingCount ≤ 5) ∧
    (allRejectPlainly env n w = true →
      (updateFuelGaugeTimes env n w).invalidReadingCount = (((c + n) % 6 : Nat) : Int) ∧
      (updateFuelGaugeTimes env n w).adcReads = w.adcReads + (c + n) / 6) := by
  have h0 : 0 ≤ w.invalidReadingCount := by rw [hc]; omega
  have h1 : w.invalidReadingCount ≤ 5 := by rw [hc]; omega
  refine ⟨fun env1 w1 => (updateFuelGauge_count env1 w1).1,
    ⟨(updateFuelGauge_count env w).2 h0, (updateFuelGauge_count env w).1⟩,
    runCalls_count env cs w ⟨h0, h1⟩, ?_⟩
  intro hall
  exact updateFuelGaugeTimes_plain env n c w hc h5 hall

/-- Witness of claim C29: past the startup window every read times out, so
every reading is rejected.  From the initialised boot state five calls raise
the count to 5 without an ADC sample; the sixth call samples the ADC once and
resets the count. -/
theorem invalidReadingCount_within_five_witness :
    (updateFuelGaugeTimes envAllTimeout 5 worldInitialized).invalidReadingCount = 5 ∧
    (updateFuelGaugeTimes envAllTimeout 5 worldInitialized).adcReads = 0 ∧
    (updateFuelGaugeTimes envAllTimeout 6 worldInitialized).invalidReadingCount = 0 ∧
    (updateFuelGaugeTimes envAllTimeout 6 worldInitialized).adcReads = 1 ∧
    0 ≤ (runCalls envAllTimeout [Call.updateBatteryManager, Call.fuelGaugeAlertISR,
      Call.updateFuelGauge] worldInitialized).invalidReadingCount :=
  have r5 : allRejectPlainly envAllTimeout 5 worldInitialized = true := by decide!
  have r6 : allRejectPlainly envAllTimeout 6 worldInitialized = true := by decide!
  have h5 := invalidReadingCount_within_five envAllTimeout worldInitialized
    [Call.updateBatteryManager, Call.fuelGaugeAlertISR, Call.updateFuelGauge] 5 0 rfl
    (by decide)
  have h6 := invalidReadingCount_within_five envAllTimeout worldInitialized [] 6 0 rfl
    (by decide)
  ⟨(h5.2.2.2 r5).1, (h5.2.2.2 r5).2, (h6.2.2.2 r6).1, (h6.2.2.2 r6).2, h5.2.2.1.1⟩

/-- Claim C30: for a percentage `p` from 0 to 100 `setLowBatteryThreshold`
appends exactly one event, the write of the bytes 0x0C, 0x97 and
`floor (p * 256 / 100) mod 32`, and changes nothing else; the word written is
`0x9700 | (floor (p * 256 / 100) mod 32)`, its low byte is below 32, for 10.0
the word is 0x9719, and the field wraps: 12.0 writes the field 30, 12.5 writes
the field 0, as 0.0 does. -/
theorem setLowBatteryThreshold_write (p : ℚ) (w : World) (h0 : 0 ≤ p) (h100 : p ≤ 100) :
    setLowBatteryThreshold p w =
      { w with trace := w.trace ++
          [Event.i2cWrite 0x0C 0x97 ((⌊p * 256 / 100⌋).toNat % 32)] } ∧
    0x97 * 256 + (⌊p * 256 / 100⌋).toNat % 32 =
      0x9700 ||| ((⌊p * 256 / 100⌋).toNat % 32) ∧
    (⌊p * 256 / 100⌋).toNat % 32 < 32 ∧
    (0 : ℤ) ≤ ⌊p * 256 / 100⌋ ∧
    (setLowBatteryThreshold 10 w).trace = w.trace ++ [Event.i2cWrite 0x0C 0x97 0x19] ∧
    (setLowBatteryThreshold 12 w).trace = w.trace ++ [Event.i2cWrite 0x0C 0x97 30] ∧
    (setLowBatteryThreshold (125 / 10) w).trace = w.trace ++ [Event.i2cWrite 0x0C 0x97 0] ∧
    setLowBatteryThreshold (125 / 10) w = setLowBatteryThreshold 0 w := by
  have hm : (⌊p * 256 / 100⌋).toNat % 32 < 32 := Nat.mod_lt _ (by norm_num)
  have f10 : ⌊(10 : ℚ) * 256 / 100⌋ = 25 := by
    rw [Int.floor_eq_iff]; constructor <;> norm_num
  have f12 : ⌊(12 : ℚ) * 256 / 100⌋ = 30 := by
    rw [Int.floor_eq_iff]; constructor <;> norm_num
  have f125 : ⌊(125 / 10 : ℚ) * 256 / 100⌋ = 32 := by
    rw [Int.floor_eq_iff]; constructor <;> norm_num
  have f0 : ⌊(0 : ℚ) * 256 / 100⌋ = 0 := by
    rw [Int.floor_eq_iff]; constructor <;> norm_num
  refine ⟨setLowBatteryThreshold_eq p w h100, ?_, hm, ?_, ?_, ?_, ?_, ?_⟩
  · rw [(config_word_bytes _ hm).2.2]
  · exact Int.floor_nonneg.2 (by positivity)
  · rw [setLowBatteryThreshold_eq 10 w (by norm_num), f10]; rfl
  · rw [setLowBatteryThreshold_eq 12 w (by norm_num), f12]; rfl
  · rw [setLowBatteryThreshold_eq (125 / 10) w (by norm_num), f125]; rfl
  · rw [setLowBatteryThreshold_eq (125 / 10) w (by norm_num),
      setLowBatteryThreshold_eq 0 w (by norm_num), f125, f0]; rfl

/-- Witness of claim C30: the threshold 10 % that `initializeFuelGauge` sets,
from the boot state. -/
theorem setLowBatteryThreshold_write_witness :
    (setLowBatteryThreshold 10 World.boot).trace = [Event.i2cWrite 0x0C 0x97 0x19] ∧
    (setLowBatteryThreshold 10 World.boot).batteryPercentage = 75 :=
  have h := setLowBatteryThreshold_write 10 World.boot (by norm_num) (by norm_num)
  ⟨h.2.2.2.2.1, by rw [h.1]; rfl⟩

end BatteryManager
